import Mathlib

/-!
# rtpproxy: DTMF detector, stream pipe, U/L command and module interface

A shallow embedding of parts of the RTP relay:

* `modules/catch_dtmf/rtpp_catch_dtmf.c`: the event history of a stream and
  the body of the worker loop;
* `src/rtpp_pipe.c`: the pipe constructor and `get_ttl`;
* `src/commands/rpcpv1_ul.c`: the parser of the U/L options, the U/L command
  handler and its reply;
* `src/rtpp_module_if.c`, `src/rtpp_module.h`: loading, construction, start
  and shutdown of a module;
* `autosrc/rtpp_pearson_perfect_fin.c`: the finaliser of an object and its
  trap table.

C strings are lists of characters, machine integers are `Nat` or `Int`, and
objects that the C code mutates in place are passed and returned explicitly.
-/

namespace Rtpproxy

/-! ## Byte order and the wire layout of an RFC 4733 event -/

/-- A C string: the characters before the terminating NUL. -/
abbrev CStr := List Char

/-- Byte `i` of a buffer; a byte is an 8-bit value. -/
def byte_at (buf : List Nat) (i : Nat) : Nat := buf.getD i 0 % 256

/-- The value a host reads from four consecutive bytes as a 32-bit word:
most significant byte first on a big-endian host (`be = true`), least
significant byte first on a little-endian one. -/
def host_u32 (be : Bool) (b0 b1 b2 b3 : Nat) : Nat :=
  if be then b0 * 2 ^ 24 + b1 * 2 ^ 16 + b2 * 2 ^ 8 + b3
  else b0 + b1 * 2 ^ 8 + b2 * 2 ^ 16 + b3 * 2 ^ 24

/-- The libc `ntohl`: the identity on a big-endian host, a swap of the four
bytes on a little-endian one. -/
def ntohl (be : Bool) (x : Nat) : Nat :=
  if be then x % 2 ^ 32
  else (x % 256) * 2 ^ 24 + (x / 2 ^ 8 % 256) * 2 ^ 16 + (x / 2 ^ 16 % 256) * 2 ^ 8
    + (x / 2 ^ 24 % 256)

/-- The libc `ntohs`: the identity on a big-endian host, a swap of the two
bytes on a little-endian one. -/
def ntohs (be : Bool) (x : Nat) : Nat :=
  if be then x % 2 ^ 16 else (x % 256) * 2 ^ 8 + (x / 2 ^ 8 % 256)

/-- A bit-field of `width` bits that follows `off` bits of earlier fields in a
32-bit storage unit: a big-endian host allocates fields from the most
significant bit down, a little-endian host from the least significant bit up. -/
def bitfield (be : Bool) (word off width : Nat) : Nat :=
  if be then word / 2 ^ (32 - off - width) % 2 ^ width
  else word / 2 ^ off % 2 ^ width

/-- An RTP packet as received: `data.buf`, which overlays `data.header`. -/
structure rtp_packet where
  buf : List Nat
deriving DecidableEq, Repr

/-- Modelled from the spec: the size of `rtp_hdr_t` (declared in `rtp.h`, which
is not among the sources): the fixed RTP header of RFC 3550, 12 bytes. -/
def sizeof_rtp_hdr_t : Nat := 12

/-- Modelled from the spec: the field `data.header.ts` as the host reads it.
In the header of RFC 3550 the timestamp is bytes 4..7 of the packet; the value
is not yet converted from network byte order. -/
def header_ts (be : Bool) (pkt : rtp_packet) : Nat :=
  host_u32 be (byte_at pkt.buf 4) (byte_at pkt.buf 5) (byte_at pkt.buf 6) (byte_at pkt.buf 7)

/-- The fields of `struct rtp_dtmf_event` as the host reads them; `duration`
is still in network byte order. -/
structure rtp_dtmf_event where
  event : Nat
  end_bit : Nat
  res : Nat
  volume : Nat
  duration : Nat
deriving DecidableEq, Repr

/-- The overlay `(struct rtp_dtmf_event *)(pkt->data.buf + sizeof(rtp_hdr_t))`:
the four bytes after the fixed header read as one storage unit, with the
fields in the order the structure declares them for the host byte order. -/
def dtmf_of (be : Bool) (pkt : rtp_packet) : rtp_dtmf_event :=
  let o := sizeof_rtp_hdr_t
  let w := host_u32 be (byte_at pkt.buf o) (byte_at pkt.buf (o + 1))
    (byte_at pkt.buf (o + 2)) (byte_at pkt.buf (o + 3))
  if be then
    { event := bitfield be w 0 8, end_bit := bitfield be w 8 1, res := bitfield be w 9 1,
      volume := bitfield be w 10 6, duration := bitfield be w 16 16 }
  else
    { event := bitfield be w 0 8, volume := bitfield be w 8 6, res := bitfield be w 14 1,
      end_bit := bitfield be w 15 1, duration := bitfield be w 16 16 }

/-! ## The event history -/

/-- One slot of the history, `struct catch_dtmf_einfo`. `digit` is a `char`,
taken as signed: the value -1 marks a slot that never held an event. -/
structure catch_dtmf_einfo where
  pending : Int
  digit : Int
  ts : Nat
  duration : Nat
deriving DecidableEq, Repr

/-- The depth of the history. -/
def EINFO_HST_DPTH : Nat := 4

/-- Modelled from the spec: the side of a stream, `enum rtpp_stream_side`
(declared in `rtpp_stream.h`, which is not among the sources). -/
inductive rtpp_stream_side where
  | RTPP_SSIDE_CALLER
  | RTPP_SSIDE_CALLEE
deriving DecidableEq, Repr

/-- The per-stream history, `struct catch_dtmf_edata` (without its reference
counter). -/
structure catch_dtmf_edata where
  hst : List catch_dtmf_einfo
  hst_next : Int
  side : rtpp_stream_side
deriving DecidableEq, Repr

/-- A slot as `rtpp_rzmalloc` leaves it: all fields zero. -/
def einfo_zero : catch_dtmf_einfo := { pending := 0, digit := 0, ts := 0, duration := 0 }

/-- The read `edata->hst[j]`. An index outside the array is undefined in C and
reads a zero slot here. -/
def hst_get (ed : catch_dtmf_edata) (j : Int) : catch_dtmf_einfo :=
  if 0 ≤ j then ed.hst.getD j.toNat einfo_zero else einfo_zero

/-- The write `edata->hst[j] = e`. An index outside the array is undefined in
C and writes nothing here. -/
def hst_set (ed : catch_dtmf_edata) (j : Int) (e : catch_dtmf_einfo) : catch_dtmf_edata :=
  if 0 ≤ j then { ed with hst := ed.hst.set j.toNat e } else ed

/-- The constructor `rtpp_catch_dtmf_edata_ctor`: zeroed memory, then
`digit = -1` in every slot; `none` when the allocation fails. -/
def rtpp_catch_dtmf_edata_ctor (rzmalloc_ok : Bool) (side : rtpp_stream_side) :
    Option catch_dtmf_edata :=
  if rzmalloc_ok then
    some { hst := List.replicate EINFO_HST_DPTH { einfo_zero with digit := -1 },
           hst_next := 0, side := side }
  else none

/-! ## The worker -/

/-- Modelled from the spec: the notification data of a stream,
`struct rtpp_timeout_data` (its header is not among the sources): the tag
and the target, an opaque handle. -/
structure rtpp_timeout_data where
  notify_target : Nat
  notify_tag : CStr
deriving DecidableEq, Repr

/-- One call of the notifier's `schedule` method. -/
structure notification where
  target : Nat
  buf : CStr
  ntype : CStr
deriving DecidableEq, Repr

/-- The size of the worker's text buffer. -/
def RTPP_MAX_NOTIFY_BUF : Nat := 512

/-- The notification type the worker passes. -/
def notyfy_type : CStr := "DTMF".toList

/-- The array `dtmf_events[]`: the seventeen characters of the literal and
its terminating NUL. -/
def dtmf_events : List Char := "0123456789*#ABCD ".toList ++ [Char.ofNat 0]

/-- The value of `sizeof(dtmf_events)`. -/
def sizeof_dtmf_events : Nat := dtmf_events.length

/-- The character `dtmf_events[e]` as a `char` value. -/
def dtmf_digit (e : Nat) : Int := ((dtmf_events.getD e (Char.ofNat 0)).toNat : Int)

/-- The conversion `%c` of `snprintf`: the argument converted to
`unsigned char`. -/
def fmt_c (d : Int) : Char := Char.ofNat (d % 256).toNat

/-- The call `snprintf(buf, RTPP_MAX_NOTIFY_BUF, "%s %c %u %u %d", ...)`: the
C string left in `buf`, which is what `schedule` is handed. `snprintf` stores
at most `RTPP_MAX_NOTIFY_BUF - 1` characters before the terminating NUL, and
when `%c` writes a NUL, as it does for the digit 0, the string ends there,
after the tag and one blank. The tag is a C string and holds no NUL. -/
def notify_text (tag : CStr) (digit : Int) (volume duration : Nat) (side : Int) : CStr :=
  if fmt_c digit = Char.ofNat 0 then (tag ++ [' ']).take (RTPP_MAX_NOTIFY_BUF - 1)
  else
    (tag ++ [' ', fmt_c digit, ' '] ++ (Nat.repr volume).toList ++ [' ']
      ++ (Nat.repr duration).toList ++ [' '] ++ (toString side).toList).take
        (RTPP_MAX_NOTIFY_BUF - 1)

/-- The index the search loop computes for its counter `i`. -/
def hst_index (hst_next : Int) (i : Int) : Int :=
  let j := hst_next - i
  if j < 0 then (EINFO_HST_DPTH : Int) + j else j

/-- The search loop `for (i = 1; i <= EINFO_HST_DPTH; i++)` over the given
values of `i`: the index of the first slot with the timestamp `ts` and a
digit other than -1. -/
def hst_search (ed : catch_dtmf_edata) (ts : Nat) : List Int → Option Int
  | [] => none
  | i :: is =>
    let j := hst_index ed.hst_next i
    if (hst_get ed j).ts = ts ∧ (hst_get ed j).digit ≠ -1 then some j
    else hst_search ed ts is

/-- The values the loop counter takes: 1, ..., `EINFO_HST_DPTH`. -/
def hst_counters : List Int := (List.range' 1 EINFO_HST_DPTH).map Int.ofNat

/-- The timestamp of the event, `ntohl(pkt->data.header.ts)`. -/
def event_ts (be : Bool) (pkt : rtp_packet) : Nat := ntohl be (header_ts be pkt)

/-- The body of the loop of `rtpp_catch_dtmf_worker` for one work item: the
history `wip->edata` afterwards and the notifications scheduled. `be` is the
byte order of the host. -/
def rtpp_catch_dtmf_worker (be : Bool) (ed : catch_dtmf_edata) (rtdp : rtpp_timeout_data)
    (pkt : rtp_packet) : catch_dtmf_edata × List notification :=
  let dtmf := dtmf_of be pkt
  if dtmf.event > sizeof_dtmf_events - 1 then (ed, [])
  else
    let ei_digit := dtmf_digit dtmf.event
    let ei_ts := event_ts be pkt
    let ei_duration := ntohs be dtmf.duration
    match hst_search ed ei_ts hst_counters with
    | none =>
      let ed1 := hst_set ed ed.hst_next
        { ts := ei_ts, pending := 1, digit := ei_digit, duration := ei_duration }
      let next := ed1.hst_next + 1
      ({ ed1 with hst_next := if next = EINFO_HST_DPTH then 0 else next }, [])
    | some j =>
      let eip := hst_get ed j
      if eip.pending = 0 then (ed, [])
      else if ei_digit ≠ eip.digit then (ed, [])
      else
        let eip1 := if eip.duration < ei_duration then { eip with duration := ei_duration } else eip
        let ed1 := hst_set ed j eip1
        if dtmf.end_bit = 0 then (ed1, [])
        else
          (hst_set ed1 j { eip1 with pending := 0 },
            [{ target := rtdp.notify_target,
               buf := notify_text rtdp.notify_tag ei_digit dtmf.volume eip1.duration
                 (if ed.side = rtpp_stream_side.RTPP_SSIDE_CALLER then 0 else 1),
               ntype := notyfy_type }])

/-- The worker over a queue of packets of one stream: each packet with the
notifications scheduled while it was processed. -/
def worker_trace (be : Bool) (rtdp : rtpp_timeout_data) :
    catch_dtmf_edata → List rtp_packet → List (rtp_packet × List notification)
  | _, [] => []
  | ed, p :: ps =>
    (p, (rtpp_catch_dtmf_worker be ed rtdp p).2)
      :: worker_trace be rtdp (rtpp_catch_dtmf_worker be ed rtdp p).1 ps

/-- The history after the worker processed a queue of packets. -/
def worker_run (be : Bool) (rtdp : rtpp_timeout_data) :
    catch_dtmf_edata → List rtp_packet → catch_dtmf_edata
  | ed, [] => ed
  | ed, p :: ps => worker_run be rtdp (rtpp_catch_dtmf_worker be ed rtdp p).1 ps

/-- The notifications scheduled for the packets that carry the timestamp `ts`. -/
def notifs_for (be : Bool) (ts : Nat) (tr : List (rtp_packet × List notification)) :
    List notification :=
  ((tr.filter (fun x => event_ts be x.1 = ts)).map (fun x => x.2)).flatten

/-- A packet for the scenarios: a 12-byte header with payload type `pt` and the timestamp
`ts`, then the four bytes of an RFC 4733 event. -/
def mk_dtmf_pkt (pt ts event end_bit volume duration : Nat) : rtp_packet :=
  { buf := [128, pt, 0, 1,
            ts / 2 ^ 24 % 256, ts / 2 ^ 16 % 256, ts / 2 ^ 8 % 256, ts % 256,
            0, 0, 0, 7,
            event % 256, (end_bit % 2) * 128 + volume % 64, duration / 256 % 256,
            duration % 256] }

/-! ## The invariant of the history -/

/-- Slot `i` of the history, by its array index. -/
def slot (ed : catch_dtmf_edata) (i : Nat) : catch_dtmf_einfo := ed.hst.getD i einfo_zero

/-- The invariant of a history: four slots; `hst_next` within the array; no
two slots with a digit other than -1 carry the same timestamp; and either the
slots before `hst_next` are exactly those that have held an event, or all
four have. -/
def hst_inv (ed : catch_dtmf_edata) : Prop :=
  ed.hst.length = 4 ∧ 0 ≤ ed.hst_next ∧ ed.hst_next < 4
    ∧ (∀ i < 4, ∀ j < 4, (slot ed i).digit ≠ -1 → (slot ed j).digit ≠ -1 →
        (slot ed i).ts = (slot ed j).ts → i = j)
    ∧ ((∀ i < 4, ((slot ed i).digit ≠ -1 ↔ (i : Int) < ed.hst_next))
        ∨ (∀ i < 4, (slot ed i).digit ≠ -1))

/-- Every timestamp the history holds lies in `T`. -/
def hst_within (ed : catch_dtmf_edata) (T : Finset Nat) : Prop :=
  ∀ i < 4, (slot ed i).digit ≠ -1 → (slot ed i).ts ∈ T

/-- The history holds the event of timestamp `ts` as closed (not pending). -/
def hst_done (ed : catch_dtmf_edata) (ts : Nat) : Prop :=
  ∃ i < 4, (slot ed i).ts = ts ∧ (slot ed i).digit ≠ -1 ∧ (slot ed i).pending = 0

/-- The history holds the event of timestamp `ts` in slot `k`, and the `m`
slots written since, the slots `k + 1`, ..., `k + m` modulo 4, hold events
whose timestamps lie in `D`; the next slot to write is `k + 1 + m` modulo 4. -/
def hst_holds (ed : catch_dtmf_edata) (ts k m : Nat) (D : Finset Nat) : Prop :=
  k < 4 ∧ m ≤ 3 ∧ (slot ed k).ts = ts ∧ (slot ed k).digit ≠ -1
    ∧ ed.hst_next = (((k + 1 + m) % 4 : Nat) : Int)
    ∧ ∀ j < m, (slot ed ((k + 1 + j) % 4)).digit ≠ -1 ∧ (slot ed ((k + 1 + j) % 4)).ts ∈ D

/-- The timestamps other than `ts` of the packets of a queue up to the last
packet that carries `ts`; none when no packet carries `ts`. -/
def others_to_last (be : Bool) (ts : Nat) : List rtp_packet → List Nat
  | [] => []
  | p :: ps =>
    if (p :: ps).any (fun q => decide (event_ts be q = ts)) then
      if event_ts be p = ts then others_to_last be ts ps
      else event_ts be p :: others_to_last be ts ps
    else []

/-- The timestamps other than `ts` of the packets between the first and the
last packet of a queue that carry `ts`. -/
def others_between (be : Bool) (ts : Nat) (pkts : List rtp_packet) : List Nat :=
  others_to_last be ts (pkts.dropWhile (fun p => decide (event_ts be p ≠ ts)))

/-! ## Streams and pipes -/

/-- The address family of IPv4 (`sys/socket.h`). -/
def AF_INET : Int := 2

/-- The address family of IPv6 (`sys/socket.h`, the Linux value). -/
def AF_INET6 : Int := 10

/-- A socket address: the family, the bytes of the host address and the port
in host byte order. -/
structure sockaddr where
  sa_family : Int
  host : List Nat
  port : Nat
deriving DecidableEq, Repr

/-- Modelled from the spec: `ishostnull` of `rtpp_network.c`, which is not
among the sources: the address is the "null" placeholder, the host whose
address bytes are all zero. -/
def ishostnull (ia : sockaddr) : Bool := ia.host.all (fun b => b == 0)

/-- Modelled from the spec: the TTL countdown of a stream (`rtpp_ttl.c` is not
among the sources): integer seconds, with the value `reset` restores. -/
structure rtpp_ttl where
  max_ttl : Int
  ttl : Int
deriving DecidableEq, Repr

/-- Modelled from the spec: the method `get_remaining` of `rtpp_ttl`. -/
def rtpp_ttl_get_remaining (t : rtpp_ttl) : Int := t.ttl

/-- Modelled from the spec: the method `reset` of `rtpp_ttl`. -/
def rtpp_ttl_reset (t : rtpp_ttl) : rtpp_ttl := { t with ttl := t.max_ttl }

/-- Modelled from the spec: the method `reset_with` of `rtpp_ttl`. -/
def rtpp_ttl_reset_with (_t : rtpp_ttl) (max_ttl : Int) : rtpp_ttl :=
  { max_ttl := max_ttl, ttl := max_ttl }

/-- Modelled from the spec: the macro `MIN` of `rtpp_math.h`, which is not
among the sources, as the usual C macro `(((x) > (y)) ? (y) : (x))`. -/
def MIN (x y : Int) : Int := if x > y then y else x

/-- Modelled from the spec: the fields of a stream endpoint
(`struct rtpp_stream`, whose header is not among the sources) that the pipe
constructor and the U/L handler read or write. `rcnt` stands for the reference counter, the identity of the object;
`skt` is the socket `get_skt` returns; `rem_addr` the remote address
`prefill_addr` installs; `resizer` the ptime of the resizer, if there is one. -/
structure rtpp_stream where
  stuid : Nat
  stuid_sendr : Nat
  rcnt : Nat
  side : Int
  pipe_type : Int
  seuid : Nat
  ttl : rtpp_ttl
  laddr : Option sockaddr
  port : Int
  weak : Int
  asymmetric : Int
  latch_locked : Bool
  onhold : Bool
  codecs : Option CStr
  ptime : Int
  resizer : Option Int
  skt : Option Nat
  rem_addr : Option sockaddr
deriving DecidableEq, Repr

/-- The pipe, `struct rtpp_pipe` with the private `session_type`:
`stream0` is `stream[0]`, the caller, and `stream1` is `stream[1]`, the
callee. -/
structure rtpp_pipe where
  stream0 : rtpp_stream
  stream1 : rtpp_stream
  ppuid : Nat
  session_type : Int
deriving DecidableEq, Repr

/-- The read `pipe->stream[i]` for `i` in 0..1. -/
def pipe_stream (p : rtpp_pipe) (i : Int) : rtpp_stream := if i = 0 then p.stream0 else p.stream1

/-- An update of the object `pipe->stream[i]` for `i` in 0..1. -/
def pipe_with_stream (p : rtpp_pipe) (i : Int) (s : rtpp_stream) : rtpp_pipe :=
  if i = 0 then { p with stream0 := s } else { p with stream1 := s }

/-- Modelled from the spec: the process-wide state the constructors work on: the counter behind
`rtpp_gen_uid`, the next object identity, and the weak registries of streams
and sessions as lists of (id, object) entries, and the call-id table. -/
structure rtpp_world where
  next_uid : Nat
  next_obj : Nat
  streams_wrt : List (Nat × Nat)
  sessions_wrt : List (Nat × Nat)
  sessions_ht : List (CStr × Nat)
deriving DecidableEq, Repr

/-- Modelled from the spec: `rtpp_gen_uid`: ids come from a process-wide
monotonic counter. -/
def rtpp_gen_uid (w : rtpp_world) : Nat × rtpp_world :=
  (w.next_uid, { w with next_uid := w.next_uid + 1 })

/-- Modelled from the spec: the method `reg` of a weak registry: an entry
(id, object) is inserted; `none` when the registry cannot take it. -/
def rtpp_weakref_reg (ok : Bool) (wrt : List (Nat × Nat)) (rcnt suid : Nat) :
    Option (List (Nat × Nat)) :=
  if ok then some ((suid, rcnt) :: wrt) else none

/-- Modelled from the spec: the method `unreg` of a weak registry: the entries
of the id are removed. -/
def rtpp_weakref_unreg (wrt : List (Nat × Nat)) (suid : Nat) : List (Nat × Nat) :=
  wrt.filter (fun x => x.1 != suid)

/-- Which of the fallible steps of `rtpp_pipe_ctor` succeed, and the TTL a new
stream starts with. -/
structure pipe_ctor_env where
  zmalloc_ok : Bool
  stream0_ok : Bool
  stream1_ok : Bool
  reg0_ok : Bool
  reg1_ok : Bool
  refcnt_ok : Bool
  pcount_ok : Bool
  ttl_init : Int
deriving DecidableEq, Repr

/-- Modelled from the spec: `rtpp_stream_ctor` (`rtpp_stream.c` is not among
the sources): a zeroed stream with the given side, pipe type and session id,
a fresh stream id and no peer id; `none` when the construction fails. -/
def rtpp_stream_ctor (ok : Bool) (ttl_init : Int) (w : rtpp_world) (side : Int)
    (session_type : Int) (seuid : Nat) : Option rtpp_stream × rtpp_world :=
  if ok then
    (some { stuid := (rtpp_gen_uid w).1, stuid_sendr := 0, rcnt := w.next_obj, side := side,
            pipe_type := session_type, seuid := seuid,
            ttl := { max_ttl := ttl_init, ttl := ttl_init }, laddr := none, port := 0,
            weak := 0, asymmetric := 0, latch_locked := false, onhold := false,
            codecs := none, ptime := 0, resizer := none, skt := none, rem_addr := none },
     { (rtpp_gen_uid w).2 with next_obj := w.next_obj + 1 })
  else (none, w)

/-- One pass of the loop of `rtpp_pipe_ctor`: stream `i` is constructed and
registered under its id. The result is the stream, if it was constructed,
whether the pass succeeded, and the state afterwards. -/
def pipe_ctor_pass (stream_ok reg_ok : Bool) (ttl_init : Int) (w : rtpp_world) (i : Int)
    (session_type : Int) (seuid : Nat) : Option rtpp_stream × Bool × rtpp_world :=
  match rtpp_stream_ctor stream_ok ttl_init w i session_type seuid with
  | (none, w1) => (none, false, w1)
  | (some s, w1) =>
    match rtpp_weakref_reg reg_ok w1.streams_wrt s.rcnt s.stuid with
    | none => (some s, false, w1)
    | some r => (some s, true, { w1 with streams_wrt := r })

/-- The exit `e1` of `rtpp_pipe_ctor`: every stream constructed so far is
removed from the registry and released. -/
def pipe_ctor_e1 (w : rtpp_world) (ss : List (Option rtpp_stream)) : rtpp_world :=
  ss.foldl (fun w s =>
    match s with
    | none => w
    | some s => { w with streams_wrt := rtpp_weakref_unreg w.streams_wrt s.stuid }) w

/-- The constructor `rtpp_pipe_ctor`: the pipe, or `none` when a step fails,
and the process-wide state afterwards. -/
def rtpp_pipe_ctor (env : pipe_ctor_env) (w : rtpp_world) (seuid : Nat) (session_type : Int) :
    Option rtpp_pipe × rtpp_world :=
  if !env.zmalloc_ok then (none, w)
  else
    let (ppuid, w0) := rtpp_gen_uid w
    match pipe_ctor_pass env.stream0_ok env.reg0_ok env.ttl_init w0 0 session_type seuid with
    | (s0, false, w1) => (none, pipe_ctor_e1 w1 [s0, none])
    | (none, true, w1) => (none, w1)
    | (some s0, true, w1) =>
      match pipe_ctor_pass env.stream1_ok env.reg1_ok env.ttl_init w1 1 session_type seuid with
      | (s1, false, w2) => (none, pipe_ctor_e1 w2 [some s0, s1])
      | (none, true, w2) => (none, w2)
      | (some s1, true, w2) =>
        let t0 := { s0 with stuid_sendr := s1.stuid }
        let t1 := { s1 with stuid_sendr := t0.stuid }
        if !env.refcnt_ok then (none, pipe_ctor_e1 w2 [some t0, some t1])
        else if !env.pcount_ok then (none, pipe_ctor_e1 w2 [some t0, some t1])
        else (some { stream0 := t0, stream1 := t1, ppuid := ppuid,
                     session_type := session_type }, w2)

/-- The method `rtpp_pipe_get_ttl`: `MIN` of the remaining TTL of the two
streams. -/
def rtpp_pipe_get_ttl (self : rtpp_pipe) : Int :=
  let ttls0 := rtpp_ttl_get_remaining self.stream0.ttl
  let ttls1 := rtpp_ttl_get_remaining self.stream1.ttl
  MIN ttls0 ttls1

/-- Modelled from the spec: the lookup of an id in a weak registry: the object
of the first entry with that id. -/
def rtpp_weakref_lookup (wrt : List (Nat × Nat)) (suid : Nat) : Option Nat :=
  (wrt.find? (fun x => x.1 == suid)).map (fun x => x.2)

/-- A constructor environment in which every step succeeds. -/
def ex_pipe_env : pipe_ctor_env := ⟨true, true, true, true, true, true, true, 60⟩

/-- The pipe that `rtpp_pipe_ctor` builds for session 5 with every step
succeeding, on a state whose id counter stands at 7. -/
def ex_pipe : rtpp_pipe :=
  ((rtpp_pipe_ctor ex_pipe_env ⟨7, 3, [], [], []⟩ 5 1).1).get (by decide)

/-! ## The reply of a U/L command -/

/-- The reply record, `struct ul_reply`. -/
structure ul_reply where
  ia : Option sockaddr
  ia_ov : Option CStr
  port : Int
  subc_res : Int
deriving DecidableEq, Repr

/-- The conversion `%d` of `snprintf`. -/
def fmt_d (n : Int) : CStr := (toString n).toList

/-- The first text `ul_reply_port` formats: the port alone when there is no
record, no address or the null host, else port, address and the IPv6 mark.
`addr2char_r` is the printing of an address by `rtpp_network.c`, which is not
among the sources. -/
def ul_reply_head (addr2char_r : sockaddr → CStr) (ulr : Option ul_reply) : CStr :=
  match ulr with
  | none => fmt_d 0
  | some r =>
    match r.ia with
    | none => fmt_d r.port
    | some ia =>
      if ishostnull ia then fmt_d r.port
      else
        match r.ia_ov with
        | none => fmt_d r.port ++ [' '] ++ addr2char_r ia
            ++ (if ia.sa_family = AF_INET then [] else " 6".toList)
        | some ov => fmt_d r.port ++ [' '] ++ ov
            ++ (if ia.sa_family = AF_INET then [] else " 6".toList)

/-- The function `ul_reply_port` on a buffer `cmd->buf_t` of `sizeof_buf_t`
bytes: the text handed to `rtpc_doreply` and its error flag. Each `snprintf`
returns the length of the whole formatted text and stores what fits; the
result is `none` when the function would write outside the buffer, which is
undefined in C. -/
def ul_reply_port (addr2char_r : sockaddr → CStr) (sizeof_buf_t : Nat) (ulr : Option ul_reply) :
    Option (CStr × Int) :=
  let head := ul_reply_head addr2char_r ulr
  let len := head.length
  let buf := head.take (sizeof_buf_t - 1)
  let second : Option (Nat × CStr) :=
    match ulr with
    | none => some (len, buf)
    | some r =>
      if r.subc_res ≠ 0 then
        if len < sizeof_buf_t then
          some (len + (" && ".toList ++ fmt_d r.subc_res).length,
            buf ++ (" && ".toList ++ fmt_d r.subc_res).take (sizeof_buf_t - len - 1))
        else none
      else some (len, buf)
  match second with
  | none => none
  | some (len2, buf2) =>
    if len2 + 1 < sizeof_buf_t then
      some (buf2.take len2 ++ ['\n'], if ulr.isSome then 0 else 1)
    else none

/-- The reply text as the specification words it: the port; then, when the
address is present and not the null host, a space, the address text (the
override when set, else the printed address) and " 6" unless the family is
AF_INET; then " && " and the subcommand result when that is not zero. -/
def ul_reply_text_spec (addr2char_r : sockaddr → CStr) (r : ul_reply) : CStr :=
  fmt_d r.port
    ++ (match r.ia with
        | none => []
        | some ia =>
          if ishostnull ia then []
          else [' '] ++ (match r.ia_ov with
                         | some ov => ov
                         | none => addr2char_r ia)
            ++ (if ia.sa_family ≠ AF_INET then " 6".toList else []))
    ++ (if r.subc_res ≠ 0 then " && ".toList ++ fmt_d r.subc_res else [])

/-! ## Sessions and the U/L command handler -/

/-- Modelled from the spec: the session, `struct rtpp_session` (its header is
not among the sources):
the two pipes and the fields the U/L handler reads or writes. -/
structure rtpp_session where
  rtp : rtpp_pipe
  rtcp : rtpp_pipe
  complete : Int
  strong : Int
  timeout_data : Option rtpp_timeout_data
  seuid : Nat
  rcnt : Nat
  call_id : CStr
deriving DecidableEq, Repr

/-- Modelled from the spec: the operation of a command, `cmd->cca.op`, for the
two operations the handler serves. -/
inductive rtpp_cmd_op where
  | UPDATE
  | LOOKUP
deriving DecidableEq, Repr

/-- Modelled from the spec: the error codes the handler replies with
(`rtpp_command_ecodes.h` is not among the sources, so they stay symbolic); `raw` is a code taken from the
configuration. -/
inductive ecode where
  | ECODE_NSOFF
  | ECODE_LSTFAIL_1
  | ECODE_LSTFAIL_2
  | ECODE_SLOWSHTDN
  | ECODE_NOMEM_4
  | ECODE_NOMEM_5
  | ECODE_NOMEM_8
  | raw (code : Int)
deriving DecidableEq, Repr

/-- Modelled from the spec: what the handler sends back through
`reply_error` (a code) or `rtpc_doreply` (a text and the error flag), both
defined outside the sources. -/
inductive cmd_reply where
  | error (e : ecode)
  | text (buf : CStr) (errd : Int)
deriving DecidableEq, Repr

/-- The options of a U/L command, `struct ul_opts`. `after_success` is the
result of the subcommand handler when there is one. -/
structure ul_opts where
  asymmetric : Int
  weak : Int
  requested_ptime : Int
  codecs : Option CStr
  ia0 : Option sockaddr
  ia1 : Option sockaddr
  lia0 : Option sockaddr
  lia1 : Option sockaddr
  reply : ul_reply
  lidx : Int
  local_addr : Option sockaddr
  notify_socket : Option CStr
  notify_tag : Option CStr
  pf : Int
  new_port : Int
  onhold : Int
  after_success : Option Int
deriving DecidableEq, Repr

/-- Modelled from the spec: the configuration fields the handler reads,
`struct rtpp_cfg` (its header is not among the sources);
`tnset_lookup` is the method `lookup` of the notify-target set and
`chk_overload` the result of the overload check. -/
structure rtpp_cfg where
  tnset_enabled : Bool
  tnset_lookup : CStr → Option Nat
  slowshutdown : Int
  overload_ecode : Int
  chk_overload : Int
  max_ttl : Int
  advaddr0 : Option CStr
  advaddr1 : Option CStr
  bmode : Int
  bindaddr0 : Option sockaddr
  bindaddr1 : Option sockaddr
  addr2char_r : sockaddr → CStr

/-- Modelled from the spec: the parts of `struct rtpp_command` (its header is
not among the sources) the handler reads: the operation, the session
the command was matched to, the counters of `cmd->csp`, the call-id and the
size of the reply buffer `buf_t`. -/
structure rtpp_command where
  op : rtpp_cmd_op
  sp : Option rtpp_session
  nsess_complete : Nat
  nsess_created : Nat
  call_id : CStr
  sizeof_buf_t : Nat
deriving DecidableEq, Repr

/-- The results of the fallible calls the handler makes: the listener
`rtpp_create_listener` allocates (port and two sockets), and whether the
session constructor, its two pipes, the insertion into the call-id table,
the registration of the session and the timeout data succeed, and whether
`rtp_resizer_new` returns a resizer (false for NULL). -/
structure ul_env where
  listener : Option (Int × Nat × Nat)
  session_ok : Bool
  rtp_env : pipe_ctor_env
  rtcp_env : pipe_ctor_env
  ht_ok : Bool
  wrt_ok : Bool
  tdata_ok : Bool
  resizer_ok : Bool
deriving DecidableEq, Repr

/-- What one call of the handler leaves: the return value, the reply, the
session object (`cmd->sp`), the counters, the process-wide state and the
number of calls of `rtpp_create_listener`. -/
structure ul_outcome where
  ret : Int
  reply : cmd_reply
  sp : Option rtpp_session
  nsess_complete : Nat
  nsess_created : Nat
  world : rtpp_world
  listener_calls : Nat
deriving DecidableEq, Repr

/-- Modelled from the spec: the session type of an RTP pipe (`rtpp_defines.h`
is not among the sources). -/
def SESS_RTP : Int := 1

/-- Modelled from the spec: the session type of an RTCP pipe. -/
def SESS_RTCP : Int := 2

/-- Modelled from the spec: the macro `NOT`, which maps 0 to 1 and every other
value to 0 (its header is not among the sources). -/
def NOT (x : Int) : Int := if x = 0 then 1 else 0

/-- An update of the stream `pipe->stream[i]` in place. -/
def pipe_upd (p : rtpp_pipe) (i : Int) (f : rtpp_stream → rtpp_stream) : rtpp_pipe :=
  pipe_with_stream p i (f (pipe_stream p i))

/-- Modelled from the spec: the methods `append` and `update` of the session
info (`rtpp_sessinfo.c` is not among the sources): the new socket pair is
installed on side `index` of the RTP and of the RTCP pipe. -/
def sessinfo_install (sp : rtpp_session) (index : Int) (fd0 fd1 : Nat) : rtpp_session :=
  { sp with
    rtp := pipe_upd sp.rtp index (fun s => { s with skt := some fd0 }),
    rtcp := pipe_upd sp.rtcp index (fun s => { s with skt := some fd1 }) }

/-- Modelled from the spec: the method `prefill_addr` of a stream: the pending
remote destination is set or replaced. -/
def rtpp_stream_prefill_addr (s : rtpp_stream) (ia : sockaddr) : rtpp_stream :=
  { s with rem_addr := some ia }

/-- Modelled from the spec: `rtpp_session_ctor` (`rtpp_session.c` is not among
the sources): a session with a fresh id and its RTP and RTCP pipe, the local
addresses `lia`, the weak flag on the caller or the strong flag, and the
listener installed on side 0; not complete. `none` when a step fails. -/
def rtpp_session_ctor (env : ul_env) (w : rtpp_world) (call_id : CStr)
    (lia0 lia1 : Option sockaddr) (weak : Int) (lport : Int) (fd0 fd1 : Nat) :
    Option rtpp_session × rtpp_world :=
  if !env.session_ok then (none, w)
  else
    let (seuid, w0) := rtpp_gen_uid w
    match rtpp_pipe_ctor env.rtp_env w0 seuid SESS_RTP with
    | (none, w1) => (none, w1)
    | (some rtp, w1) =>
      match rtpp_pipe_ctor env.rtcp_env w1 seuid SESS_RTCP with
      | (none, w2) => (none, pipe_ctor_e1 w2 [some rtp.stream0, some rtp.stream1])
      | (some rtcp, w2) =>
        let rtp0 := pipe_upd rtp 0 (fun s =>
          { s with laddr := lia0, port := lport, weak := if weak ≠ 0 then 1 else 0 })
        let rtp1 := pipe_upd rtp0 1 (fun s => { s with laddr := lia1 })
        let rtcp0 := pipe_upd rtcp 0 (fun s => { s with laddr := lia0, port := lport + 1 })
        let rtcp1 := pipe_upd rtcp0 1 (fun s => { s with laddr := lia1 })
        (some (sessinfo_install
          { rtp := rtp1, rtcp := rtcp1, complete := 0, strong := if weak ≠ 0 then 0 else 1,
            timeout_data := none, seuid := seuid, rcnt := w2.next_obj, call_id := call_id }
          0 fd0 fd1),
         { w2 with next_obj := w2.next_obj + 1 })

/-- The state the handler carries from the branch on `sidx` to its common
tail: the session `spa`, the local variables `lport` and `pidx`, the address
`ulop->lia[0]`, the counters, the process-wide state and the number of calls
of `rtpp_create_listener`. -/
structure ul_ctx where
  spa : rtpp_session
  lport : Int
  pidx : Int
  lia0 : Option sockaddr
  nsess_complete : Nat
  nsess_created : Nat
  world : rtpp_world
  listener_calls : Nat
deriving DecidableEq, Repr

/-- An exit of the handler on an error: `reply_error` with the code and the
return value -1. -/
def ul_fail (e : ecode) (sp : Option rtpp_session) (nsess_complete nsess_created : Nat)
    (w : rtpp_world) (listener_calls : Nat) : ul_outcome :=
  { ret := -1, reply := cmd_reply.error e, sp := sp, nsess_complete := nsess_complete,
    nsess_created := nsess_created, world := w, listener_calls := listener_calls }

/-- Modelled from the spec: the destructor of a session, run when its last
reference is dropped: the streams of both pipes leave the stream registry. -/
def session_release (w : rtpp_world) (spa : rtpp_session) : rtpp_world :=
  pipe_ctor_e1 w [some spa.rtp.stream0, some spa.rtp.stream1, some spa.rtcp.stream0,
    some spa.rtcp.stream1]

/-- The same update of `pipe->stream[0]` and of `pipe->stream[1]`. -/
def pipe_upd_both (p : rtpp_pipe) (f : rtpp_stream → rtpp_stream) : rtpp_pipe :=
  pipe_upd (pipe_upd p 0 f) 1 f

/-- The first block of the branch `sidx != -1`: when the side has no socket
or a new port is requested, a listener is allocated and installed, the ports
are recorded and the session is marked complete. The result is the session,
the counter `nsess_complete` and the number of listener calls, or the
session as the failed allocation leaves it. -/
def ul_existing_alloc (cfsp : rtpp_cfg) (env : ul_env) (cmd : rtpp_command) (sidx : Int)
    (ulop : ul_opts) (spa : rtpp_session) : Except rtpp_session (rtpp_session × Nat × Nat) :=
  if (pipe_stream spa.rtp sidx).skt = none ∨ ulop.new_port ≠ 0 then
    let spa1 : rtpp_session :=
      if ulop.local_addr ≠ none then
        { spa with rtp := pipe_upd spa.rtp sidx (fun s => { s with laddr := ulop.local_addr }) }
      else spa
    match env.listener with
    | none => Except.error spa1
    | some (lport, fd0, fd1) =>
      let spa2 : rtpp_session := sessinfo_install spa1 sidx fd0 fd1
      let spa3 : rtpp_session := { spa2 with
        rtp := pipe_upd spa2.rtp sidx (fun s => { s with port := lport }),
        rtcp := pipe_upd spa2.rtcp sidx (fun s => { s with port := lport + 1 }) }
      let reset_with := fun (s : rtpp_stream) =>
        { s with ttl := rtpp_ttl_reset_with s.ttl cfsp.max_ttl }
      let first : Bool := decide (spa3.complete = 0)
      let spa4 : rtpp_session :=
        if first then { spa3 with rtp := pipe_upd_both spa3.rtp reset_with } else spa3
      let nsess_complete := if first then cmd.nsess_complete + 1 else cmd.nsess_complete
      Except.ok ({ spa4 with complete := 1 }, nsess_complete, 1)
  else Except.ok (spa, cmd.nsess_complete, 0)

/-- The second block of the branch `sidx != -1`: the weak flag of the side or
the strong flag of the session, and the restart of both TTLs. -/
def ul_existing_flags (cmd : rtpp_command) (sidx : Int) (ulop : ul_opts)
    (spa : rtpp_session) : rtpp_session :=
  let spa1 : rtpp_session :=
    if ulop.weak ≠ 0 then
      { spa with rtp := pipe_upd spa.rtp sidx (fun s => { s with weak := 1 }) }
    else if cmd.op = rtpp_cmd_op.UPDATE then { spa with strong := 1 }
    else spa
  { spa1 with
    rtp := pipe_upd_both spa1.rtp (fun s => { s with ttl := rtpp_ttl_reset s.ttl }) }

/-- The branch `sidx != -1` of `rtpp_command_ul_handle`: a command on side
`sidx` of the existing session `spa`. -/
def ul_handle_existing (cfsp : rtpp_cfg) (env : ul_env) (cmd : rtpp_command) (w : rtpp_world)
    (sidx : Int) (ulop : ul_opts) (spa : rtpp_session) : Except ul_outcome ul_ctx :=
  match ul_existing_alloc cfsp env cmd sidx ulop spa with
  | Except.error spa1 =>
    Except.error (ul_fail ecode.ECODE_LSTFAIL_1 (some spa1) cmd.nsess_complete
      cmd.nsess_created w 1)
  | Except.ok (spa5, nsess_complete, calls) =>
    Except.ok { spa := ul_existing_flags cmd sidx ulop spa5,
                lport := (pipe_stream (ul_existing_flags cmd sidx ulop spa5).rtp sidx).port,
                pidx := if sidx = 0 then 1 else 0,
                lia0 := (pipe_stream (ul_existing_flags cmd sidx ulop spa5).rtp sidx).laddr,
                nsess_complete := nsess_complete, nsess_created := cmd.nsess_created,
                world := w, listener_calls := calls }

/-- The branch `sidx == -1` of `rtpp_command_ul_handle`: a new session. -/
def ul_handle_new (cfsp : rtpp_cfg) (env : ul_env) (cmd : rtpp_command) (w : rtpp_world)
    (ulop : ul_opts) : Except ul_outcome ul_ctx :=
  let lia0 := if ulop.local_addr ≠ none then ulop.local_addr else ulop.lia0
  let lia1 := if ulop.local_addr ≠ none then ulop.local_addr else ulop.lia1
  if cfsp.slowshutdown ≠ 0 then
    Except.error (ul_fail ecode.ECODE_SLOWSHTDN cmd.sp cmd.nsess_complete cmd.nsess_created w 0)
  else if cfsp.overload_ecode ≠ 0 ∧ cfsp.chk_overload ≠ 0 then
    Except.error (ul_fail (ecode.raw cfsp.overload_ecode) cmd.sp cmd.nsess_complete
      cmd.nsess_created w 0)
  else
    match env.listener with
    | none =>
      Except.error (ul_fail ecode.ECODE_LSTFAIL_2 cmd.sp cmd.nsess_complete cmd.nsess_created w 1)
    | some (lport, fd0, fd1) =>
      match rtpp_session_ctor env w cmd.call_id lia0 lia1 ulop.weak lport fd0 fd1 with
      | (none, w1) =>
        Except.error (ul_fail ecode.ECODE_NOMEM_4 cmd.sp cmd.nsess_complete cmd.nsess_created
          w1 1)
      | (some spa, w1) =>
        if !env.ht_ok then
          Except.error (ul_fail ecode.ECODE_NOMEM_5 cmd.sp cmd.nsess_complete
            (cmd.nsess_created + 1) (session_release w1 spa) 1)
        else
          let w2 := { w1 with sessions_ht := (spa.call_id, spa.rcnt) :: w1.sessions_ht }
          match rtpp_weakref_reg env.wrt_ok w2.sessions_wrt spa.rcnt spa.seuid with
          | none =>
            Except.error (ul_fail ecode.ECODE_NOMEM_8 cmd.sp cmd.nsess_complete
              (cmd.nsess_created + 1) (session_release w1 spa) 1)
          | some r =>
            Except.ok { spa := spa, lport := lport, pidx := 1, lia0 := lia0,
                        nsess_complete := cmd.nsess_complete,
                        nsess_created := cmd.nsess_created + 1,
                        world := { w2 with sessions_wrt := r }, listener_calls := 1 }

/-- The timeout data of an update (after the branch on `sidx`): the old data
is dropped, and new data is made when the command names a notify socket that
the notify-target set knows. -/
def ul_tail_timeout (cfsp : rtpp_cfg) (env : ul_env) (cmd : rtpp_command) (ulop : ul_opts)
    (spa : rtpp_session) : rtpp_session :=
  if cmd.op = rtpp_cmd_op.UPDATE then
    match ulop.notify_socket with
    | none => { spa with timeout_data := none }
    | some sock =>
      match cfsp.tnset_lookup sock with
      | none => { spa with timeout_data := none }
      | some rttp =>
        if env.tdata_ok then
          { spa with timeout_data := some ⟨rttp, ulop.notify_tag.getD []⟩ }
        else { spa with timeout_data := none }
  else spa

/-- The remote addresses: when both `ia[0]` and `ia[1]` are set they are
handed to `prefill_addr` of the RTP and of the RTCP stream of side `pidx`. -/
def ul_tail_prefill (ulop : ul_opts) (pidx : Int) (spa : rtpp_session) : rtpp_session :=
  match ulop.ia0, ulop.ia1 with
  | some a0, some a1 =>
    { spa with rtp := pipe_upd spa.rtp pidx (fun s => rtpp_stream_prefill_addr s a0),
               rtcp := pipe_upd spa.rtcp pidx (fun s => rtpp_stream_prefill_addr s a1) }
  | _, _ => spa

/-- The hold flag: `reg_onhold` on both streams of side `pidx` when the
command put the side on hold. -/
def ul_tail_onhold (ulop : ul_opts) (pidx : Int) (spa : rtpp_session) : rtpp_session :=
  if ulop.onhold ≠ 0 then
    { spa with rtp := pipe_upd spa.rtp pidx (fun s => { s with onhold := true }),
               rtcp := pipe_upd spa.rtcp pidx (fun s => { s with onhold := true }) }
  else spa

/-- The asymmetric flag of side `pidx`, and `locklatch` when it is set. -/
def ul_tail_asym (ulop : ul_opts) (pidx : Int) (spa : rtpp_session) : rtpp_session :=
  let set := fun (s : rtpp_stream) =>
    { s with asymmetric := ulop.asymmetric,
             latch_locked := if ulop.asymmetric ≠ 0 then true else s.latch_locked }
  { spa with rtp := pipe_upd spa.rtp pidx set, rtcp := pipe_upd spa.rtcp pidx set }

/-- The codec list of the RTP stream of side `pidx`: the old list is freed and
the list of the command, if any, takes its place. -/
def ul_tail_codecs (ulop : ul_opts) (pidx : Int) (spa : rtpp_session) : rtpp_session :=
  { spa with rtp := pipe_upd spa.rtp pidx (fun s => { s with codecs := ulop.codecs }) }

/-- The requested ptime is recorded on the RTP stream of side `NOT(pidx)`. On
side `pidx`, when it is positive, the resizer the stream has is set to that
ptime, and a stream without one gets what `rtp_resizer_new` returns, which
the handler does not check; otherwise the resizer is freed. -/
def ul_tail_ptime (env : ul_env) (ulop : ul_opts) (pidx : Int) (spa : rtpp_session) :
    rtpp_session :=
  let rtp1 := pipe_upd spa.rtp (NOT pidx) (fun s => { s with ptime := ulop.requested_ptime })
  let resize := fun (s : rtpp_stream) =>
    { s with resizer :=
        if ulop.requested_ptime > 0 then
          if s.resizer ≠ none then some ulop.requested_ptime
          else if env.resizer_ok then some ulop.requested_ptime else none
        else none }
  { spa with rtp := pipe_upd rtp1 pidx resize }

/-- The session after the common tail of `rtpp_command_ul_handle`: timeout
data, remote addresses, hold, asymmetry, codecs, ptime and resizer. -/
def ul_tail_session (cfsp : rtpp_cfg) (env : ul_env) (cmd : rtpp_command) (ulop : ul_opts)
    (c : ul_ctx) : rtpp_session :=
  ul_tail_ptime env ulop c.pidx
    (ul_tail_codecs ulop c.pidx
      (ul_tail_asym ulop c.pidx
        (ul_tail_onhold ulop c.pidx
          (ul_tail_prefill ulop c.pidx
            (ul_tail_timeout cfsp env cmd ulop c.spa)))))

/-- The reply record the handler fills before it calls `ul_reply_port`. -/
def ul_tail_reply (cfsp : rtpp_cfg) (ulop : ul_opts) (c : ul_ctx) : ul_reply :=
  { ia := c.lia0,
    ia_ov :=
      if cfsp.advaddr0 ≠ none then
        if cfsp.bmode ≠ 0 ∧ cfsp.advaddr1 ≠ none ∧ c.lia0 = cfsp.bindaddr1 then cfsp.advaddr1
        else cfsp.advaddr0
      else ulop.reply.ia_ov,
    port := c.lport,
    subc_res :=
      match ulop.after_success with
      | some res => res
      | none => ulop.reply.subc_res }

/-- The common tail of `rtpp_command_ul_handle`, from the timeout data to the
reply; `none` when the reply does not fit the buffer. -/
def ul_handle_tail (cfsp : rtpp_cfg) (env : ul_env) (cmd : rtpp_command) (ulop : ul_opts)
    (c : ul_ctx) : Option ul_outcome :=
  match ul_reply_port cfsp.addr2char_r cmd.sizeof_buf_t (some (ul_tail_reply cfsp ulop c)) with
  | none => none
  | some (buf, errd) =>
    some { ret := 0, reply := cmd_reply.text buf errd,
           sp := some (ul_tail_session cfsp env cmd ulop c),
           nsess_complete := c.nsess_complete, nsess_created := c.nsess_created,
           world := c.world, listener_calls := c.listener_calls }

/-- The handler `rtpp_command_ul_handle`. Log calls, the warning on the
number of open files, the recording of a new session and the release of
`ulop` are left out; the debug assertions are no-ops. The result is `none`
where the C code is undefined: a side index other than -1, 0 and 1, a side
index without a session, or a reply that does not fit the buffer. The test
`ulop->lia[0] == cfsp->bindaddr[1]` compares pointers in C and addresses
here. -/
def rtpp_command_ul_handle (cfsp : rtpp_cfg) (env : ul_env) (cmd : rtpp_command)
    (w : rtpp_world) (sidx : Int) (ulop : ul_opts) : Option ul_outcome :=
  if cmd.op = rtpp_cmd_op.UPDATE ∧ cfsp.tnset_enabled = false ∧ ulop.notify_socket ≠ none then
    some (ul_fail ecode.ECODE_NSOFF cmd.sp cmd.nsess_complete cmd.nsess_created w 0)
  else
    let first : Option (Except ul_outcome ul_ctx) :=
      if sidx ≠ -1 then
        if sidx = 0 ∨ sidx = 1 then
          match cmd.sp with
          | none => none
          | some spa => some (ul_handle_existing cfsp env cmd w sidx ulop spa)
        else none
      else some (ul_handle_new cfsp env cmd w ulop)
    match first with
    | none => none
    | some (Except.error out) => some out
    | some (Except.ok c) => ul_handle_tail cfsp env cmd ulop c

/-- The session states reachable through U/L command handling: the session a
command with `sidx = -1` creates, and every state a later command on one of
its sides leaves, whatever the command returns. -/
inductive ul_reachable : rtpp_session → Prop where
  | created (cfsp : rtpp_cfg) (env : ul_env) (cmd : rtpp_command) (w : rtpp_world)
      (ulop : ul_opts) (out : ul_outcome) (s : rtpp_session) :
      cmd.sp = none → rtpp_command_ul_handle cfsp env cmd w (-1) ulop = some out →
      out.sp = some s → ul_reachable s
  | step (cfsp : rtpp_cfg) (env : ul_env) (cmd : rtpp_command) (w : rtpp_world) (sidx : Int)
      (ulop : ul_opts) (out : ul_outcome) (s0 s : rtpp_session) :
      ul_reachable s0 → cmd.sp = some s0 → sidx ≠ -1 →
      rtpp_command_ul_handle cfsp env cmd w sidx ulop = some out →
      out.sp = some s → ul_reachable s

/-! ## A scenario: a session created without a remote address, then looked up -/

/-- A configuration with the primary bind address 192.0.2.1 and no
advertised address. -/
def ex_cfg : rtpp_cfg :=
  { tnset_enabled := true, tnset_lookup := fun _ => none, slowshutdown := 0,
    overload_ecode := 0, chk_overload := 0, max_ttl := 60, advaddr0 := none, advaddr1 := none,
    bmode := 0, bindaddr0 := some ⟨AF_INET, [192, 0, 2, 1], 0⟩, bindaddr1 := none,
    addr2char_r := fun _ => "192.0.2.1".toList }

/-- Every fallible call succeeds; the listener is on port 35000. -/
def ex_env : ul_env :=
  { listener := some (35000, 11, 12), session_ok := true,
    rtp_env := ⟨true, true, true, true, true, true, true, 60⟩,
    rtcp_env := ⟨true, true, true, true, true, true, true, 60⟩,
    ht_ok := true, wrt_ok := true, tdata_ok := true, resizer_ok := true }

/-- The options of a command whose address did not resolve to a host: no
remote address, no modifiers. -/
def ex_ulop : ul_opts :=
  { asymmetric := 0, weak := 0, requested_ptime := -1, codecs := none, ia0 := none,
    ia1 := none, lia0 := some ⟨AF_INET, [192, 0, 2, 1], 0⟩,
    lia1 := some ⟨AF_INET, [192, 0, 2, 1], 0⟩,
    reply := ⟨some ⟨AF_INET, [192, 0, 2, 1], 0⟩, none, 0, 0⟩, lidx := 1, local_addr := none,
    notify_socket := none, notify_tag := none, pf := AF_INET, new_port := 0, onhold := 0,
    after_success := none }

/-- The state of the process before the first command. -/
def ex_world : rtpp_world := ⟨1, 1, [], [], []⟩

/-- The command `U call-1 from-1` that matches no session. -/
def ex_cmd_u : rtpp_command :=
  { op := rtpp_cmd_op.UPDATE, sp := none, nsess_complete := 0, nsess_created := 0,
    call_id := "call-1".toList, sizeof_buf_t := 256 }

/-- The listener of the second command is on port 35002. -/
def ex_env_l : ul_env := { ex_env with listener := some (35002, 13, 14) }

/-- The command `L call-1 from-1 to-1` on the session that the outcome `o` of
the update holds. -/
def ex_cmd_l (o : ul_outcome) : rtpp_command :=
  { op := rtpp_cmd_op.LOOKUP, sp := o.sp, nsess_complete := o.nsess_complete,
    nsess_created := o.nsess_created, call_id := "call-1".toList, sizeof_buf_t := 256 }

/-- The session after the update with the options `u1` creates it and the
lookup with the options `u2` is matched to its side 1. -/
def ex_run (u1 u2 : ul_opts) : Option rtpp_session :=
  match rtpp_command_ul_handle ex_cfg ex_env ex_cmd_u ex_world (-1) u1 with
  | none => none
  | some o1 =>
    match o1.sp with
    | none => none
    | some _ =>
      match rtpp_command_ul_handle ex_cfg ex_env_l (ex_cmd_l o1) o1.world 1 u2 with
      | none => none
      | some o2 => o2.sp

/-- The options of a command with the remote address `ia`, RTCP on the next
port. -/
def ex_ulop_to (ia : sockaddr) : ul_opts :=
  { ex_ulop with ia0 := some ia, ia1 := some { ia with port := ia.port + 1 } }

/-- The session after an update and a lookup that both carry no remote
address. -/
def ex_session_bare : rtpp_session := (ex_run ex_ulop ex_ulop).get (by decide)

/-- The session after an update towards 192.0.2.10:12000 and a lookup towards
198.51.100.7:20000. -/
def ex_session_both : rtpp_session :=
  (ex_run (ex_ulop_to ⟨AF_INET, [192, 0, 2, 10], 12000⟩)
    (ex_ulop_to ⟨AF_INET, [198, 51, 100, 7], 20000⟩)).get (by decide)

/-- What the common tail keeps of a session when it works on side `pidx`: the
complete flag, the socket of the callee's RTP stream and, unless `pidx` is
0, the remote address of the caller's RTP stream. -/
def ul_frame (pidx : Int) (s t : rtpp_session) : Prop :=
  t.complete = s.complete ∧ t.rtp.stream1.skt = s.rtp.stream1.skt
    ∧ (pidx ≠ 0 → t.rtp.stream0.rem_addr = s.rtp.stream0.rem_addr)

/-- The invariant of a session under U/L commands: once the callee's RTP
stream has a socket or the caller's RTP stream has a remote address, the
session is complete. -/
def ul_inv (s : rtpp_session) : Prop :=
  (s.rtp.stream1.skt ≠ none ∨ s.rtp.stream0.rem_addr ≠ none) → s.complete = 1

/-! ## Further scenarios for the U/L handler -/

/-- A configuration in slow-shutdown with notifications disabled. -/
def ex_cfg_shutdown : rtpp_cfg := { ex_cfg with tnset_enabled := false, slowshutdown := 1 }

/-- A configuration with notifications disabled. -/
def ex_cfg_nsoff : rtpp_cfg := { ex_cfg with tnset_enabled := false }

/-- The options of an update that names the notify socket `tcp:sock` with the
tag `tag`. -/
def ex_ulop_notify : ul_opts :=
  { ex_ulop with notify_socket := some "tcp:sock".toList, notify_tag := some "tag".toList }

/-- The outcome of the update of the scenario, which creates a session. -/
def ex_out_u : ul_outcome :=
  (rtpp_command_ul_handle ex_cfg ex_env ex_cmd_u ex_world (-1) ex_ulop).get (by decide)

/-- The session the update of the scenario creates. -/
def ex_session_u : rtpp_session := ex_out_u.sp.get (by decide)

/-- A second command on that session, with the operation `op`. -/
def ex_cmd_again (op : rtpp_cmd_op) : rtpp_command :=
  { op := op, sp := some ex_session_u, nsess_complete := 0, nsess_created := 1,
    call_id := "call-1".toList, sizeof_buf_t := 256 }

/-- What a step keeps of a stream: the socket, the port and the local
address. -/
def stream_keeps (x y : rtpp_stream) : Prop :=
  y.skt = x.skt ∧ y.port = x.port ∧ y.laddr = x.laddr

/-- What a command keeps of a session when it allocates no listener: the
socket, the port and the local address of every stream of both pipes. -/
def ul_keeps (s t : rtpp_session) : Prop :=
  ∀ i : Int, stream_keeps (pipe_stream s.rtp i) (pipe_stream t.rtp i)
    ∧ stream_keeps (pipe_stream s.rtcp i) (pipe_stream t.rtcp i)
/-! ## The module interface (`rtpp_module_if.c`, `rtpp_module.h`) -/

/-- The constant `MODULE_API_REVISION` of `rtpp_module.h`. -/
def MODULE_API_REVISION : Int := 11

/-- The library function `strcmp`, up to the size of a non-zero result:
characters compare as unsigned values. -/
def strcmp : CStr → CStr → Int
  | [], [] => 0
  | [], _ :: _ => -1
  | _ :: _, [] => 1
  | a :: as, b :: bs => if a = b then strcmp as bs else if a.toNat < b.toNat then -1 else 1

/-- The record `struct api_version`. -/
structure api_version where
  rev : Int
  mi_size : Nat
  build : CStr
deriving DecidableEq, Repr

/-- The record `struct rtpp_mdescr`, without the credits. -/
structure rtpp_mdescr where
  ver : api_version
  name : CStr
  module_id : Nat
deriving DecidableEq, Repr

/-- One entry `{func, argsize}` of the accounting handlers; `func` tells
whether the function pointer is set. -/
structure acct_handler where
  func : Bool
  argsize : Nat
deriving DecidableEq, Repr

/-- The two accounting handlers a module may offer. -/
structure rtpp_acct_handlers where
  on_session_end : acct_handler
  on_rtcp_rcvd : acct_handler
deriving DecidableEq, Repr

/-- The record `struct rtpp_mhandlers`. A handler is `none` when the pointer
is NULL; `ctor` else holds what the call returns, the private data of the
module or NULL, and `config` the code it returns; `dtor` tells whether the
pointer is set. -/
structure rtpp_mhandlers where
  ctor : Option (Option Nat)
  dtor : Bool
  config : Option Int
deriving DecidableEq, Repr

/-- The record `struct rtpp_minfo` as far as the interface reads and writes
it: the upper half is filled by the module (`capi` holds whether
`ul_subc_handle` is set, `wapi` and `memdeb_p` whether the pointer is set);
of the lower half, `log` tells whether the log is attached, `sigterm` and
`mod_q` whether the signal item and the queue of the worker exist. -/
structure rtpp_minfo where
  descr : rtpp_mdescr
  proc : rtpp_mhandlers
  aapi : Option rtpp_acct_handlers
  capi : Option Bool
  wapi : Bool
  memdeb_p : Bool
  log : Bool
  sigterm : Bool
  mod_q : Bool
deriving DecidableEq, Repr

/-- What the interface does to the world outside the object, in order. -/
inductive mif_event where
  | dlopen (h : Nat)
  | dlclose (h : Nat)
  | mod_ctor
  | mod_config (mpvt : Option Nat)
  | mod_dtor (mpvt : Option Nat)
  | memdeb_dtor
  | sigterm_dtor
  | sigterm_put
  | queue_destroy
  | log_incref
  | log_decref
  | observer_reg
  | thread_create
  | thread_join
  | module_if_fin
  | free_pvt
deriving DecidableEq, Repr

/-- The host and the calls that may fail: the size `sizeof(struct rtpp_minfo)`
and the build string `RTPP_SW_VERSION` of the host, the build option
`RTPP_CHECK_LEAKS`, the handle `dlopen` returns and the descriptor `dlsym`
finds, whether `rtpp_memdeb_init`, `rtpp_wi_malloc_sgnl` and
`rtpp_queue_init` succeed, the sizes `rtpp_acct_OSIZE()` and
`rtpp_acct_rtcp_OSIZE()`, the id `get_next_id` hands out, and what the
registration of the observer and `pthread_create` return. -/
structure mif_env where
  sizeof_rtpp_minfo : Nat
  RTPP_SW_VERSION : CStr
  RTPP_CHECK_LEAKS : Bool
  dlopen : Option Nat
  dlsym : Option rtpp_minfo
  memdeb_init_ok : Bool
  sigterm_ok : Bool
  queue_ok : Bool
  acct_OSIZE : Nat
  acct_rtcp_OSIZE : Nat
  next_id : Nat
  observers_reg : Int
  pthread_create : Int

/-- The object `struct rtpp_module_if_priv` with the fields `has` and `descr`
of its public part, and the events so far. -/
structure rtpp_module_if_priv where
  dmp : Option Nat
  mip : Option rtpp_minfo
  mpvt : Option Nat
  started : Int
  has_do_acct : Bool
  has_ul_subc_h : Bool
  descr : Option rtpp_mdescr
  instance_id : Nat
  trace : List mif_event
deriving DecidableEq, Repr

/-- The constructor `rtpp_module_if_ctor`: a zeroed object, or NULL when
`rtpp_rzmalloc` or `strdup` fails. -/
def rtpp_module_if_ctor (rzmalloc_ok strdup_ok : Bool) : Option rtpp_module_if_priv :=
  if !rzmalloc_ok then none
  else if !strdup_ok then none
  else some { dmp := none, mip := none, mpvt := none, started := 0, has_do_acct := false,
              has_ul_subc_h := false, descr := none, instance_id := 0, trace := [] }

/-- The macro `MI_VER_CHCK`. -/
def MI_VER_CHCK (env : mif_env) (sptr : rtpp_minfo) : Bool :=
  decide (sptr.descr.ver.rev = MODULE_API_REVISION)
    && decide (sptr.descr.ver.mi_size = env.sizeof_rtpp_minfo)
    && decide (strcmp sptr.descr.ver.build env.RTPP_SW_VERSION = 0)

/-- An event is added to the trace of the object. -/
def mif_log (pvt : rtpp_module_if_priv) (e : mif_event) : rtpp_module_if_priv :=
  { pvt with trace := pvt.trace ++ [e] }

/-- The exit `e2` of `rtpp_mif_load`: `dlclose(pvt->dmp)`, `pvt->mip = NULL`,
return -1. The handle stays in `pvt->dmp`. -/
def mif_load_e2 (h : Nat) (pvt : rtpp_module_if_priv) : Int × rtpp_module_if_priv :=
  (-1, { mif_log pvt (mif_event.dlclose h) with mip := none })

/-- The exit `e3` of `rtpp_mif_load`. -/
def mif_load_e3 (env : mif_env) (h : Nat) (pvt : rtpp_module_if_priv) :
    Int × rtpp_module_if_priv :=
  mif_load_e2 h (if env.RTPP_CHECK_LEAKS then mif_log pvt mif_event.memdeb_dtor else pvt)

/-- The exit `e4` of `rtpp_mif_load`. -/
def mif_load_e4 (env : mif_env) (h : Nat) (mi : rtpp_minfo) (pvt : rtpp_module_if_priv) :
    Int × rtpp_module_if_priv :=
  mif_load_e3 env h
    { mif_log pvt mif_event.sigterm_dtor with mip := some { mi with sigterm := false } }

/-- The exit `e5` of `rtpp_mif_load`. -/
def mif_load_e5 (env : mif_env) (h : Nat) (mi : rtpp_minfo) (pvt : rtpp_module_if_priv) :
    Int × rtpp_module_if_priv :=
  mif_load_e4 env h { mi with mod_q := false }
    { mif_log (mif_log pvt mif_event.log_decref) mif_event.queue_destroy with
      mip := some { mi with mod_q := false } }

/-- The method `rtpp_mif_load`: the return value and the object. Log calls
and the allocator pointers written into the descriptor are left out. -/
def rtpp_mif_load (env : mif_env) (pvt : rtpp_module_if_priv) : Int × rtpp_module_if_priv :=
  match env.dlopen with
  | none => (-1, { pvt with dmp := none })
  | some h =>
    let p1 : rtpp_module_if_priv := { mif_log pvt (mif_event.dlopen h) with dmp := some h }
    match env.dlsym with
    | none => mif_load_e2 h { p1 with mip := none }
    | some mi =>
      let p2 : rtpp_module_if_priv := { p1 with mip := some mi }
      if !MI_VER_CHCK env mi then mif_load_e2 h p2
      else if env.RTPP_CHECK_LEAKS && !mi.memdeb_p then mif_load_e2 h p2
      else if env.RTPP_CHECK_LEAKS && !env.memdeb_init_ok then mif_load_e2 h p2
      else if !env.RTPP_CHECK_LEAKS && mi.memdeb_p then mif_load_e2 h p2
      else if !env.sigterm_ok then
        mif_load_e3 env h { p2 with mip := some { mi with sigterm := false } }
      else
        let mi1 : rtpp_minfo := { mi with sigterm := true }
        if !env.queue_ok then
          mif_load_e4 env h { mi1 with mod_q := false }
            { p2 with mip := some { mi1 with mod_q := false } }
        else
          let mi2 : rtpp_minfo := { mi1 with mod_q := true, log := true }
          let p3 : rtpp_module_if_priv := { mif_log p2 mif_event.log_incref with mip := some mi2 }
          let bad_session_end : Bool :=
            match mi2.aapi with
            | none => false
            | some a => a.on_session_end.func && decide (a.on_session_end.argsize ≠ env.acct_OSIZE)
          let bad_rtcp_rcvd : Bool :=
            match mi2.aapi with
            | none => false
            | some a => a.on_rtcp_rcvd.func && decide (a.on_rtcp_rcvd.argsize ≠ env.acct_rtcp_OSIZE)
          if bad_session_end then mif_load_e5 env h mi2 p3
          else if bad_rtcp_rcvd then mif_load_e5 env h mi2 p3
          else
            let do_acct : Bool :=
              match mi2.aapi with
              | none => p3.has_do_acct
              | some a => a.on_session_end.func
            (0, { p3 with has_do_acct := do_acct, has_ul_subc_h := (mi2.capi = some true),
                          instance_id := env.next_id, descr := some mi2.descr })

/-- The destructor `rtpp_mif_dtor` of the interface object, run when its
last reference is dropped. -/
def rtpp_mif_dtor (pvt : rtpp_module_if_priv) : rtpp_module_if_priv :=
  match pvt.dmp, pvt.mip with
  | some _, some mi =>
    if pvt.started ≠ 0 then mif_log pvt mif_event.sigterm_put
    else if mi.sigterm then mif_log pvt mif_event.sigterm_dtor
    else pvt
  | _, _ => pvt

/-- The method `rtpp_mif_construct`; `none` where the C code reads through
the NULL pointer `pvt->mip`. -/
def rtpp_mif_construct (pvt : rtpp_module_if_priv) : Option (Int × rtpp_module_if_priv) :=
  match pvt.mip with
  | none => none
  | some mi =>
    let first : Except rtpp_module_if_priv rtpp_module_if_priv :=
      match mi.proc.ctor with
      | none => Except.ok pvt
      | some r =>
        let p1 : rtpp_module_if_priv := { mif_log pvt mif_event.mod_ctor with mpvt := r }
        if r = none then Except.error p1 else Except.ok p1
    match first with
    | Except.error p1 => some (-1, p1)
    | Except.ok p1 =>
      match mi.proc.config with
      | none => some (0, p1)
      | some rc =>
        let p2 := mif_log p1 (mif_event.mod_config p1.mpvt)
        if rc ≠ 0 then
          some (-1, if mi.proc.dtor then mif_log p2 (mif_event.mod_dtor p2.mpvt) else p2)
        else some (0, p2)

/-- The method `rtpp_mif_start`; `none` where the C code reads through a NULL
pointer. -/
def rtpp_mif_start (env : mif_env) (pvt : rtpp_module_if_priv) :
    Option (Int × rtpp_module_if_priv) :=
  match pvt.mip with
  | none => none
  | some mi =>
    match mi.aapi with
    | none =>
      if !mi.wapi then some (0, pvt)
      else if env.pthread_create ≠ 0 then some (-1, pvt)
      else some (0, { mif_log pvt mif_event.thread_create with started := 1 })
    | some a =>
      let p1 := if a.on_rtcp_rcvd.func then mif_log pvt mif_event.observer_reg else pvt
      if a.on_rtcp_rcvd.func ∧ env.observers_reg < 0 then some (-1, p1)
      else if env.pthread_create ≠ 0 then some (-1, p1)
      else some (0, { mif_log p1 mif_event.thread_create with started := 1 })

/-- The method `rtpp_mif_kaput`: the object as it is when it is freed; `none`
where the C code reads through the NULL pointer `pvt->mip`. -/
def rtpp_mif_kaput (env : mif_env) (pvt : rtpp_module_if_priv) : Option rtpp_module_if_priv :=
  match pvt.dmp with
  | none => some (mif_log pvt mif_event.free_pvt)
  | some h =>
    if pvt.started ≠ 0 ∧ pvt.mip = none then none
    else
      let p1 := if pvt.started ≠ 0 then mif_log pvt mif_event.thread_join else pvt
      let p2 := mif_log p1 mif_event.module_if_fin
      match p2.mip with
      | none => some (mif_log p2 mif_event.free_pvt)
      | some mi =>
        let p3 := if mi.mod_q then mif_log p2 mif_event.queue_destroy else p2
        let p4 :=
          if mi.proc.dtor ∧ p3.mpvt ≠ none then mif_log p3 (mif_event.mod_dtor p3.mpvt) else p3
        let p5 := mif_log p4 mif_event.log_decref
        let p6 := if env.RTPP_CHECK_LEAKS then mif_log p5 mif_event.memdeb_dtor else p5
        some (mif_log (mif_log p6 (mif_event.dlclose h)) mif_event.free_pvt)

/-- The number of calls of the module's destructor among the events. -/
def dtor_calls (tr : List mif_event) : Nat :=
  tr.countP (fun e => match e with
    | mif_event.mod_dtor _ => true
    | _ => false)

/-- Modelled from the spec: a lifecycle of an interface object (its caller is
not among the sources): `load`, `construct`, `start` when `do_start` is set,
then `kaput`; a method that fails ends the lifecycle with `kaput`. -/
def mif_lifecycle (env : mif_env) (do_start : Bool) (pvt : rtpp_module_if_priv) :
    Option rtpp_module_if_priv :=
  match rtpp_mif_load env pvt with
  | (r1, p1) =>
    if r1 ≠ 0 then rtpp_mif_kaput env p1
    else
      match rtpp_mif_construct p1 with
      | none => none
      | some (r2, p2) =>
        if r2 ≠ 0 then rtpp_mif_kaput env p2
        else if do_start then
          match rtpp_mif_start env p2 with
          | none => none
          | some (_, p3) => rtpp_mif_kaput env p3
        else rtpp_mif_kaput env p2

/-- A module of the host's build with a constructor, a destructor and a
`config` hook that returns `rc`. -/
def ex_minfo (rc : Int) : rtpp_minfo :=
  { descr := ⟨⟨11, 200, "3.0".toList⟩, "acct_csv".toList, 1⟩,
    proc := ⟨some (some 4096), true, some rc⟩,
    aapi := some ⟨⟨true, 64⟩, ⟨false, 0⟩⟩, capi := none, wapi := false, memdeb_p := false,
    log := false, sigterm := false, mod_q := false }

/-- A host of build "3.0" with a descriptor of 200 bytes, on which every call
succeeds and `dlsym` finds the descriptor `mi`. -/
def ex_mif_env (mi : rtpp_minfo) : mif_env :=
  { sizeof_rtpp_minfo := 200, RTPP_SW_VERSION := "3.0".toList, RTPP_CHECK_LEAKS := false,
    dlopen := some 7, dlsym := some mi, memdeb_init_ok := true, sigterm_ok := true,
    queue_ok := true, acct_OSIZE := 64, acct_rtcp_OSIZE := 32, next_id := 1,
    observers_reg := 0, pthread_create := 0 }

/-- A freshly constructed interface object. -/
def ex_mif : rtpp_module_if_priv := (rtpp_module_if_ctor true true).get (by decide)

/-- The module of the scenario as a build for revision 10 of the interface
made it. -/
def ex_minfo_rev10 : rtpp_minfo :=
  { ex_minfo 0 with descr := ⟨⟨10, 200, "3.0".toList⟩, "acct_csv".toList, 1⟩ }

/-- The interface object of the scenario after `load`. -/
def ex_mif_loaded : rtpp_module_if_priv := (rtpp_mif_load (ex_mif_env (ex_minfo 0)) ex_mif).2

/-- The interface object of the scenario after `load` and `construct`. -/
def ex_mif_constructed : rtpp_module_if_priv :=
  ((rtpp_mif_construct ex_mif_loaded).get (by decide)).2

/-! ## The finaliser of `rtpp_pearson_perfect` (`rtpp_pearson_perfect_fin.c`) -/

/-- What `pub->smethods` points to: nothing, the table
`rtpp_pearson_perfect_smethods_fin`, or another table, of which `hash` is
the function pointer (`none` when it is NULL). -/
inductive pp_smethods where
  | null
  | smethods_fin
  | table (hash : Option Nat)
deriving DecidableEq, Repr

/-- The object `struct rtpp_pearson_perfect`: its address, its method table,
its reference count and whether `rtpp_pearson_perfect_fin` is attached as
its destructor. -/
structure rtpp_pearson_perfect where
  addr : Nat
  smethods : pp_smethods
  rcnt : Nat
  fin_attached : Bool
deriving DecidableEq, Repr

/-- The counter `_naborts` and the objects reported on `stderr`. -/
structure fin_world where
  naborts : Int
  reports : List Nat
deriving DecidableEq, Repr

/-- The outcome of code with debug assertions: undefined in C, stopped by a
failed assertion, or done. -/
inductive dbg_result (α : Type) where
  | undefined
  | assertion_failed
  | done (a : α)
deriving DecidableEq, Repr

/-- Modelled from the spec: the macro `RTPP_AUTOTRAP` (`rtpp_debug.h` is not
among the sources): one more abort is counted, as the final assertion of
`rtpp_pearson_perfect_fintest` expects. -/
def RTPP_AUTOTRAP (w : fin_world) : fin_world := { w with naborts := w.naborts + 1 }

/-- The trap `rtpp_pearson_perfect_hash_fin`: the report on `stderr`, then
`RTPP_AUTOTRAP`. -/
def rtpp_pearson_perfect_hash_fin (w : fin_world) (pub : rtpp_pearson_perfect) : fin_world :=
  RTPP_AUTOTRAP { w with reports := w.reports ++ [pub.addr] }

/-- The finaliser `rtpp_pearson_perfect_fin`. The macro `RTPP_DBG_ASSERT` is
not among the sources and is taken as `assert`, as in a build with
debugging; the first assertion reads through `pub->smethods`, which is
undefined for NULL. -/
def rtpp_pearson_perfect_fin (pub : rtpp_pearson_perfect) :
    dbg_result rtpp_pearson_perfect :=
  match pub.smethods with
  | pp_smethods.null => dbg_result.undefined
  | pp_smethods.table none => dbg_result.assertion_failed
  | pp_smethods.smethods_fin => dbg_result.assertion_failed
  | pp_smethods.table (some _) => dbg_result.done { pub with smethods := pp_smethods.smethods_fin }

/-- Modelled from the spec: `RTPP_OBJ_DECREF` (`rtpp_refcnt.c` is not among
the sources): the count drops, and the step to zero runs the attached
destructor. The object stays readable afterwards, as the test of the
finaliser expects. -/
def RTPP_OBJ_DECREF (pub : rtpp_pearson_perfect) : dbg_result rtpp_pearson_perfect :=
  if pub.rcnt = 0 then dbg_result.undefined
  else if pub.rcnt = 1 then
    if pub.fin_attached then rtpp_pearson_perfect_fin { pub with rcnt := 0 }
    else dbg_result.done { pub with rcnt := 0 }
  else dbg_result.done { pub with rcnt := pub.rcnt - 1 }

/-- What a call of the method `hash` runs. -/
inductive hash_call where
  | trapped (w : fin_world)
  | original (f : Nat)
deriving DecidableEq, Repr

/-- A call of the method through the table, `pub->smethods->hash(pub)`:
the trap when the table is the trap table, else the function of the table;
`none` when the table or the function is NULL. -/
def CALL_TFIN (w : fin_world) (pub : rtpp_pearson_perfect) : Option hash_call :=
  match pub.smethods with
  | pp_smethods.null => none
  | pp_smethods.smethods_fin => some (hash_call.trapped (rtpp_pearson_perfect_hash_fin w pub))
  | pp_smethods.table none => none
  | pp_smethods.table (some f) => some (hash_call.original f)

/-- The test `rtpp_pearson_perfect_fintest`: an object at `addr` with the
dummy table and the finaliser as destructor is released and its method is
called; `rzmalloc_ok` tells whether the allocation succeeds. -/
def rtpp_pearson_perfect_fintest (w : fin_world) (addr : Nat) (rzmalloc_ok : Bool) :
    dbg_result fin_world :=
  let naborts_s := w.naborts
  if !rzmalloc_ok then dbg_result.assertion_failed
  else
    let tp : rtpp_pearson_perfect :=
      { addr := addr, smethods := pp_smethods.table (some 1), rcnt := 1, fin_attached := true }
    match RTPP_OBJ_DECREF tp with
    | dbg_result.undefined => dbg_result.undefined
    | dbg_result.assertion_failed => dbg_result.assertion_failed
    | dbg_result.done tp1 =>
      match CALL_TFIN w tp1 with
      | none => dbg_result.undefined
      | some (hash_call.original _) => dbg_result.undefined
      | some (hash_call.trapped w1) =>
        if w1.naborts - naborts_s = 1 then dbg_result.done w1 else dbg_result.assertion_failed

/-! ## The parser of the U/L options (`rtpp_command_ul_opts_parse`) -/

/-- The codes `rtpp_command_ul_opts_parse` hands to `reply_error`
(`rtpp_command_ecodes.h` is not among the sources, so they stay symbolic). -/
inductive ul_parse_ecode where
  | ECODE_NOMEM_1
  | ECODE_NOMEM_2
  | ECODE_NOMEM_3
  | ECODE_PARSE_10
  | ECODE_PARSE_11
  | ECODE_PARSE_12
  | ECODE_PARSE_13
  | ECODE_PARSE_14
  | ECODE_PARSE_15
  | ECODE_PARSE_16
  | ECODE_INVLARG_1
  | ECODE_INVLARG_2
  | ECODE_INVLARG_3
  | ECODE_INVLARG_4
  | ECODE_INVLARG_6
  | ECODE_PARSE_SUBC
deriving DecidableEq, Repr

/-- The outcome of the parser or of a part of it: undefined in C, NULL after
`reply_error` with a code, or a value. -/
inductive ul_res (α : Type) where
  | undefined
  | error (e : ul_parse_ecode)
  | ok (a : α)
deriving DecidableEq, Repr

/-- The library function `isspace` in the C locale. -/
def isspace (c : Char) : Bool := decide (c.toNat = 32) || decide (9 ≤ c.toNat ∧ c.toNat ≤ 13)

/-- The library function `isdigit`. -/
def isdigit (c : Char) : Bool := decide (48 ≤ c.toNat ∧ c.toNat ≤ 57)

/-- The value of a run of decimal digits. -/
def digits_value (ds : List Char) : Nat := ds.foldl (fun a d => 10 * a + (d.toNat - 48)) 0

/-- The largest value of `long`, 64 bits wide. -/
def LONG_MAX : Int := 2 ^ 63 - 1

/-- The smallest value of `long`, 64 bits wide. -/
def LONG_MIN : Int := -(2 ^ 63)

/-- The library function `strtol(s, &end, 10)`: the value and the number of
characters up to `end`. White space and one sign are skipped, the digits
are read, and a value outside `long` is replaced by the nearest bound; with
no digit the value is 0 and `end` is `s`. -/
def strtol (s : CStr) : Int × Nat :=
  let ws := s.takeWhile isspace
  let s1 := s.dropWhile isspace
  let neg : Bool := s1.head? = some '-'
  let signlen : Nat := if s1.head? = some '-' ∨ s1.head? = some '+' then 1 else 0
  let ds := (s1.drop signlen).takeWhile isdigit
  if ds = [] then (0, 0)
  else
    let v : Int := digits_value ds
    (if neg then max (-v) LONG_MIN else min v LONG_MAX, ws.length + signlen + ds.length)

/-- The conversion of a `long` to the `int` it is assigned to: the value
modulo 2^32 in two's complement. -/
def long_to_int (x : Int) : Int := (x + 2 ^ 31) % 2 ^ 32 - 2 ^ 31

/-- The libc `htons`, the same exchange of bytes as `ntohs`. -/
def htons (be : Bool) (x : Nat) : Nat := ntohs be x

/-- The calls of the parser that are defined outside the sources, and what
they return: whether `rtpp_zmalloc` and the three `malloc` calls succeed,
the field `cfsp->aforce`, the byte order of the host, the text `url_unquote`
leaves (none for -1), `extractaddr` (the address text, the number of
characters up to the new `cp` and the family; none for -1), the methods
`host2`, `addr2` and `foraf` of the bind addresses, `resolve` with
`AI_PASSIVE` and with `AI_NUMERICHOST` (none for a non-zero result),
`local4remote` (none for -1), and `rtpp_subcommand_ul_opts_parse` (the result
of the handler it installs; none for a non-zero result). -/
structure ul_parse_env where
  zmalloc_ok : Bool
  aforce : Int
  be : Bool
  url_unquote : CStr → Option CStr
  extractaddr : CStr → Option (CStr × Nat × Int)
  host2 : CStr → Int → Option sockaddr
  resolve_passive : Int → CStr → Option sockaddr
  local4remote : sockaddr → Option sockaddr
  addr2 : sockaddr → Option sockaddr
  foraf : Int → Option sockaddr
  codecs_malloc_ok : Bool
  ia0_malloc_ok : Bool
  ia1_malloc_ok : Bool
  resolve : Int → CStr → CStr → Option sockaddr
  subc_parse : Option Int

/-- The options while the modifiers are read, and the modifiers the loop has
met so far, each with the text that follows it. -/
structure ul_parse_st where
  ulop : ul_opts
  seen : List (Char × CStr)
deriving DecidableEq, Repr

/-- The function `ul_opts_init` on the zeroed structure. -/
def ul_opts_init (cfsp : rtpp_cfg) (aforce : Int) : ul_opts :=
  { asymmetric := if aforce ≠ 0 then 1 else 0, weak := 0, requested_ptime := -1, codecs := none,
    ia0 := none, ia1 := none, lia0 := cfsp.bindaddr0, lia1 := cfsp.bindaddr0,
    reply := { ia := cfsp.bindaddr0, ia_ov := none, port := 0, subc_res := 0 }, lidx := 1,
    local_addr := none, notify_socket := none, notify_tag := none, pf := AF_INET, new_port := 0,
    onhold := 0, after_success := none }

/-- The macro `IS_IPSTR_VALID`. -/
def IS_IPSTR_VALID (ips : CStr) (pf : Int) : Bool :=
  if pf = AF_INET then decide (7 ≤ ips.length ∧ ips.length ≤ 15)
  else decide (2 ≤ ips.length ∧ ips.length ≤ 45)

/-- The assignment `ulop->lia[ulop->lidx] = a; ulop->lidx--` of the modifiers
`e` and `i`; undefined for an index outside the array. -/
def ul_set_lia (ulop : ul_opts) (a : Option sockaddr) : ul_res ul_opts :=
  if ulop.lidx = 0 then ul_res.ok { ulop with lia0 := a, lidx := ulop.lidx - 1 }
  else if ulop.lidx = 1 then ul_res.ok { ulop with lia1 := a, lidx := ulop.lidx - 1 }
  else ul_res.undefined

/-- The modifier `z`: `strtol` on the text after it. -/
def ul_mod_z (rest : CStr) (ulop : ul_opts) : ul_res (ul_opts × Nat) :=
  let requested_ptime := long_to_int (strtol rest).1
  if requested_ptime ≤ 0 then ul_res.error ul_parse_ecode.ECODE_PARSE_13
  else ul_res.ok ({ ulop with requested_ptime := requested_ptime }, (strtol rest).2)

/-- The modifier `c`: the digits and commas after it are copied. -/
def ul_mod_c (env : ul_parse_env) (rest : CStr) (ulop : ul_opts) : ul_res (ul_opts × Nat) :=
  let t := rest.takeWhile (fun ch => isdigit ch || decide (ch = ','))
  if t = [] then ul_res.error ul_parse_ecode.ECODE_PARSE_14
  else if !env.codecs_malloc_ok then ul_res.error ul_parse_ecode.ECODE_NOMEM_2
  else ul_res.ok ({ ulop with codecs := some t }, t.length)

/-- The modifier `l`: a local address by name. -/
def ul_mod_l (env : ul_parse_env) (rest : CStr) (ulop : ul_opts) : ul_res (ul_opts × Nat) :=
  match env.extractaddr rest with
  | none => ul_res.error ul_parse_ecode.ECODE_PARSE_15
  | some (t, used, tpf) =>
    match env.host2 t tpf with
    | none => ul_res.error ul_parse_ecode.ECODE_INVLARG_1
    | some a => ul_res.ok ({ ulop with local_addr := some a }, used)

/-- The modifier `r`: the local address that reaches a remote one. -/
def ul_mod_r (env : ul_parse_env) (rest : CStr) (ulop : ul_opts) : ul_res (ul_opts × Nat) :=
  match env.extractaddr rest with
  | none => ul_res.error ul_parse_ecode.ECODE_PARSE_16
  | some (t, used, tpf) =>
    match env.resolve_passive tpf t with
    | none => ul_res.error ul_parse_ecode.ECODE_INVLARG_2
    | some remote =>
      match env.local4remote remote with
      | none => ul_res.error ul_parse_ecode.ECODE_INVLARG_3
      | some local_addr =>
        match env.addr2 local_addr with
        | none => ul_res.error ul_parse_ecode.ECODE_INVLARG_4
        | some a => ul_res.ok ({ ulop with local_addr := some a }, used)

/-- The body of the loop over the modifiers, the `switch (*cp)`, for the
character `c` followed by `rest`: the options and the number of characters
of `rest` that the modifier took as its argument. -/
def ul_mod_step (cfsp : rtpp_cfg) (env : ul_parse_env) (c : Char) (rest : CStr)
    (ulop : ul_opts) : ul_res (ul_opts × Nat) :=
  if c = 'a' ∨ c = 'A' then ul_res.ok ({ ulop with asymmetric := 1 }, 0)
  else if c = 'e' ∨ c = 'E' then
    if ulop.lidx < 0 ∨ cfsp.bindaddr1 = none then ul_res.error ul_parse_ecode.ECODE_PARSE_11
    else
      match ul_set_lia ulop cfsp.bindaddr1 with
      | ul_res.ok u => ul_res.ok (u, 0)
      | ul_res.error e => ul_res.error e
      | ul_res.undefined => ul_res.undefined
  else if c = 'i' ∨ c = 'I' then
    if ulop.lidx < 0 ∨ cfsp.bindaddr1 = none then ul_res.error ul_parse_ecode.ECODE_PARSE_12
    else
      match ul_set_lia ulop cfsp.bindaddr0 with
      | ul_res.ok u => ul_res.ok (u, 0)
      | ul_res.error e => ul_res.error e
      | ul_res.undefined => ul_res.undefined
  else if c = '6' then ul_res.ok ({ ulop with pf := AF_INET6 }, 0)
  else if c = 's' ∨ c = 'S' then ul_res.ok ({ ulop with asymmetric := 0 }, 0)
  else if c = 'w' ∨ c = 'W' then ul_res.ok ({ ulop with weak := 1 }, 0)
  else if c = 'z' ∨ c = 'Z' then ul_mod_z rest ulop
  else if c = 'c' ∨ c = 'C' then ul_mod_c env rest ulop
  else if c = 'l' ∨ c = 'L' then ul_mod_l env rest ulop
  else if c = 'r' ∨ c = 'R' then ul_mod_r env rest ulop
  else if c = 'n' ∨ c = 'N' then ul_res.ok ({ ulop with new_port := 1 }, 0)
  else ul_res.ok (ulop, 0)

/-- The loop `for (cp = cmd->args.v[0] + 1; *cp != '\0'; cp++)`: `skip`
characters belong to the argument of the last modifier and are passed over,
the next one is a modifier. -/
def ul_mods (cfsp : rtpp_cfg) (env : ul_parse_env) :
    Nat → CStr → ul_parse_st → ul_res ul_parse_st
  | _, [], st => ul_res.ok st
  | skip + 1, _ :: cs, st => ul_mods cfsp env skip cs st
  | 0, c :: cs, st =>
    match ul_mod_step cfsp env c cs st.ulop with
    | ul_res.undefined => ul_res.undefined
    | ul_res.error e => ul_res.error e
    | ul_res.ok (u, skip) => ul_mods cfsp env skip cs { ulop := u, seen := st.seen ++ [(c, cs)] }

/-- The notify socket and tag of an update with more than six arguments. The
tag is decoded in place by `url_unquote`; the reset of `cmd->cca.to_tag` for
a count other than eight is left out. -/
def ul_parse_notify (env : ul_parse_env) (cmd : rtpp_command) (args : List CStr)
    (ulop : ul_opts) : ul_res ul_opts :=
  if cmd.op = rtpp_cmd_op.UPDATE ∧ args.length > 6 then
    let notify_socket := if args.length = 8 then args.get? 6 else args.get? 5
    let notify_tag := if args.length = 8 then args.get? 7 else args.get? 6
    match notify_tag with
    | none => ul_res.undefined
    | some tag =>
      match env.url_unquote tag with
      | none => ul_res.error ul_parse_ecode.ECODE_PARSE_10
      | some t => ul_res.ok { ulop with notify_socket := notify_socket, notify_tag := some t }
  else ul_res.ok ulop

/-- The local address for the family of the stream, when neither a direction
nor a local address was named; undefined when `ulop->lia[0]` is NULL. -/
def ul_parse_foraf (env : ul_parse_env) (ulop : ul_opts) : ul_res ul_opts :=
  if ulop.local_addr = none ∧ ulop.lidx = 1 then
    match ulop.lia0 with
    | none => ul_res.undefined
    | some lia0 =>
      if ulop.pf ≠ lia0.sa_family then
        match env.foraf ulop.pf with
        | none => ul_res.error ul_parse_ecode.ECODE_INVLARG_6
        | some a => ul_res.ok { ulop with local_addr := some a }
      else ul_res.ok ulop
  else ul_res.ok ulop

/-- The port of RTCP: `n = ntohs(sin_port); sin_port = htons(n + 1)` on the
copy of the address whose port is `port`; a port is 16 bits wide. -/
def ul_rtcp_port (be : Bool) (port : Nat) : Nat :=
  let sin_port := htons be port
  let n := ntohs be sin_port
  ntohs be (htons be (n + 1))

/-- The remote address of the command: `addr` and `port` are resolved; the
null host puts the side on hold, another host is copied to `ia[0]` and, with
the next port, to `ia[1]`. -/
def ul_parse_addr (env : ul_parse_env) (addr port : Option CStr) (ulop : ul_opts) :
    ul_res ul_opts :=
  match addr, port with
  | some a, some p =>
    if IS_IPSTR_VALID a ulop.pf then
      match env.resolve ulop.pf a p with
      | some tia =>
        if !ishostnull tia then
          if !env.ia0_malloc_ok then ul_res.error ul_parse_ecode.ECODE_NOMEM_3
          else if !env.ia1_malloc_ok then ul_res.error ul_parse_ecode.ECODE_NOMEM_3
          else
            ul_res.ok { ulop with ia0 := some tia,
                                  ia1 := some { tia with port := ul_rtcp_port env.be tia.port } }
        else ul_res.ok { ulop with onhold := 1 }
      | none => ul_res.ok ulop
    else ul_res.ok ulop
  | _, _ => ul_res.ok ulop

/-- The subcommand, when the command has one. -/
def ul_parse_subc (env : ul_parse_env) (subc_args_c : Nat) (ulop : ul_opts) : ul_res ul_opts :=
  if subc_args_c > 0 then
    match env.subc_parse with
    | none => ul_res.error ul_parse_ecode.ECODE_PARSE_SUBC
    | some r => ul_res.ok { ulop with after_success := some r }
  else ul_res.ok ulop

/-- The steps of the parser after the loop over the modifiers. -/
def ul_parse_finish (env : ul_parse_env) (args : List CStr) (subc_args_c : Nat)
    (st : ul_parse_st) : ul_res ul_parse_st :=
  match ul_parse_foraf env st.ulop with
  | ul_res.undefined => ul_res.undefined
  | ul_res.error e => ul_res.error e
  | ul_res.ok u1 =>
    match ul_parse_addr env (args.get? 2) (args.get? 3) u1 with
    | ul_res.undefined => ul_res.undefined
    | ul_res.error e => ul_res.error e
    | ul_res.ok u2 =>
      match ul_parse_subc env subc_args_c u2 with
      | ul_res.undefined => ul_res.undefined
      | ul_res.error e => ul_res.error e
      | ul_res.ok u3 => ul_res.ok { st with ulop := u3 }

/-- The function `rtpp_command_ul_opts_parse` for the arguments `args` of the
command (`cmd->args`) and the number `subc_args_c` of arguments of its
subcommand. The fields `addr` and `port` of the options are the arguments 2
and 3, NULL when the command has fewer; log calls are left out. The result
is undefined when the command name is missing or empty. Beside the options
the result lists the modifiers the loop met. -/
def rtpp_command_ul_opts_parse (cfsp : rtpp_cfg) (env : ul_parse_env) (cmd : rtpp_command)
    (args : List CStr) (subc_args_c : Nat) : ul_res ul_parse_st :=
  if !env.zmalloc_ok then ul_res.error ul_parse_ecode.ECODE_NOMEM_1
  else
    match ul_parse_notify env cmd args (ul_opts_init cfsp env.aforce) with
    | ul_res.undefined => ul_res.undefined
    | ul_res.error e => ul_res.error e
    | ul_res.ok u0 =>
      match args.head? with
      | none => ul_res.undefined
      | some [] => ul_res.undefined
      | some (_ :: mods) =>
        match ul_mods cfsp env 0 mods { ulop := u0, seen := [] } with
        | ul_res.undefined => ul_res.undefined
        | ul_res.error e => ul_res.error e
        | ul_res.ok st => ul_parse_finish env args subc_args_c st

/-- The modifiers `z` and `Z`. -/
def is_z (m : Char × CStr) : Bool := decide (m.1 = 'z' ∨ m.1 = 'Z')

/-- The modifiers `c` and `C`. -/
def is_c (m : Char × CStr) : Bool := decide (m.1 = 'c' ∨ m.1 = 'C')

/-- The requested ptime as the specification words it, from the modifiers
the loop met: -1 without `z`, else the value after the last `z`, as an
`int`. -/
def ptime_of_seen (seen : List (Char × CStr)) : Int :=
  match (seen.filter is_z).getLast? with
  | none => -1
  | some m => long_to_int (strtol m.2).1

/-- The codec list from the modifiers the loop met: none without `c`, else
the digits and commas after the last `c`. -/
def codecs_of_seen (seen : List (Char × CStr)) : Option CStr :=
  match (seen.filter is_c).getLast? with
  | none => none
  | some m => some (m.2.takeWhile (fun ch => isdigit ch || decide (ch = ',')))

/-- The address the positional arguments `addr` and `port` resolve to for the
family `pf`: both are present, `addr` passes `IS_IPSTR_VALID` and `resolve`
returns 0. -/
def ul_resolved (env : ul_parse_env) (args : List CStr) (pf : Int) : Option sockaddr :=
  match args.get? 2, args.get? 3 with
  | some a, some p => if IS_IPSTR_VALID a pf then env.resolve pf a p else none
  | _, _ => none

/-- A parser environment in which every call succeeds: addresses resolve to
192.0.2.10 with the port `port`, on a little-endian host. -/
def ex_parse_env (port : Nat) : ul_parse_env :=
  { zmalloc_ok := true, aforce := 0, be := false, url_unquote := fun s => some s,
    extractaddr := fun _ => none, host2 := fun _ _ => none, resolve_passive := fun _ _ => none,
    local4remote := fun _ => none, addr2 := fun _ => none, foraf := fun _ => none,
    codecs_malloc_ok := true, ia0_malloc_ok := true, ia1_malloc_ok := true,
    resolve := fun pf _ _ => some ⟨pf, [192, 0, 2, 10], port⟩, subc_parse := some 0 }

/-- The arguments of the command `<mods> call-1 <addr> <port> from-1`. -/
def ex_args (mods addr port : String) : List CStr :=
  [mods.toList, "call-1".toList, addr.toList, port.toList, "from-1".toList]

/-- The arguments of an update with a notify socket and a notify tag. -/
def ex_args_notify : List CStr :=
  ex_args "U" "192.0.2.10" "12000" ++ ["to-1".toList, "tcp:sock".toList, "bad%zz".toList]

/-- The parser environment of the scenario with a `url_unquote` that refuses
every text with a percent sign. -/
def ex_parse_env_url : ul_parse_env :=
  { ex_parse_env 12000 with url_unquote := fun s => if '%' ∈ s then none else some s }

/-- The parser environment of the scenario in which addresses resolve to the
null host. -/
def ex_parse_env_null : ul_parse_env :=
  { ex_parse_env 0 with resolve := fun pf _ _ => some ⟨pf, [0, 0, 0, 0], 0⟩ }

/-- The value of an outcome of the parser, if it has one. -/
def ul_res.toOption {α : Type} : ul_res α → Option α
  | ul_res.ok a => some a
  | _ => none

/-- The options of `U call-1 192.0.2.10 12000 from-1`. -/
def ex_parse_to : ul_parse_st :=
  (rtpp_command_ul_opts_parse ex_cfg (ex_parse_env 12000) ex_cmd_u
    (ex_args "U" "192.0.2.10" "12000") 0).toOption.get (by decide)

/-- The options of `U call-1 0.0.0.0 0 from-1`. -/
def ex_parse_hold : ul_parse_st :=
  (rtpp_command_ul_opts_parse ex_cfg ex_parse_env_null ex_cmd_u
    (ex_args "U" "0.0.0.0" "0") 0).toOption.get (by decide)

/-- Modelled from the spec: the CSRC count of the fixed header of RFC 3550,
the low four bits of the first byte (`rtp.h` is not among the sources). -/
def rtp_cc (pkt : rtp_packet) : Nat := byte_at pkt.buf 0 % 16

/-- Modelled from the spec: the offset of the payload of a packet: the fixed
header, then four bytes for each contributing source. -/
def payload_offset (pkt : rtp_packet) : Nat := sizeof_rtp_hdr_t + 4 * rtp_cc pkt

/-- The fields of `struct rtp_dtmf_event` overlaid on the four bytes at the
offset `o` of the packet, in the order the structure declares them for the
host byte order. -/
def dtmf_at (be : Bool) (pkt : rtp_packet) (o : Nat) : rtp_dtmf_event :=
  let w := host_u32 be (byte_at pkt.buf o) (byte_at pkt.buf (o + 1))
    (byte_at pkt.buf (o + 2)) (byte_at pkt.buf (o + 3))
  if be then
    { event := bitfield be w 0 8, end_bit := bitfield be w 8 1, res := bitfield be w 9 1,
      volume := bitfield be w 10 6, duration := bitfield be w 16 16 }
  else
    { event := bitfield be w 0 8, volume := bitfield be w 8 6, res := bitfield be w 14 1,
      end_bit := bitfield be w 15 1, duration := bitfield be w 16 16 }

/-- The digit of a packet, `dtmf_events[dtmf->event]`, when its event passes
the guard of the worker; none for an event the worker drops. -/
def pkt_digit (be : Bool) (pkt : rtp_packet) : Option Int :=
  if (dtmf_of be pkt).event > sizeof_dtmf_events - 1 then none
  else some (dtmf_digit (dtmf_of be pkt).event)

/-- A packet from a mixer: one contributing source, whose identifier has the
bytes 5, 138, 0, 160, and the payload of the start of event 1 with volume 10
and duration 160, at the timestamp 1000. -/
def ex_pkt_csrc : rtp_packet :=
  { buf := [129, 101, 0, 1, 0, 0, 3, 232, 0, 0, 0, 7, 5, 138, 0, 160, 1, 10, 0, 160] }

/-- A freshly constructed history of a caller stream. -/
def ex_edata : catch_dtmf_edata :=
  (rtpp_catch_dtmf_edata_ctor true rtpp_stream_side.RTPP_SSIDE_CALLER).get (by decide)

/-- The notification data of the scenarios: target 1, tag "my-tag". -/
def ex_rtdp : rtpp_timeout_data := ⟨1, "my-tag".toList⟩

/-- The history after the start of event 5 at the timestamp 1000 with the
duration 480. -/
def ex_edata_started : catch_dtmf_edata :=
  (rtpp_catch_dtmf_worker false ex_edata ex_rtdp (mk_dtmf_pkt 101 1000 5 0 10 480)).1

/-- The history after the start and the end of event 5 at the timestamp 1000. -/
def ex_edata_ended : catch_dtmf_edata :=
  (rtpp_catch_dtmf_worker false ex_edata_started ex_rtdp (mk_dtmf_pkt 101 1000 5 1 10 480)).1

/-- The modifiers that take an argument: `z`, `c`, `l` and `r`. -/
def takes_arg (c : Char) : Bool :=
  decide (c = 'z' ∨ c = 'Z' ∨ c = 'c' ∨ c = 'C' ∨ c = 'l' ∨ c = 'L' ∨ c = 'r' ∨ c = 'R')

/-- The characters the `switch` of the loop has a case for: `a`, `s`, `e`,
`i`, `w`, `z`, `c`, `l`, `r`, `n` in either case, and `6`. -/
def is_known_mod (c : Char) : Bool :=
  decide (c = 'a' ∨ c = 'A' ∨ c = 's' ∨ c = 'S' ∨ c = 'e' ∨ c = 'E' ∨ c = 'i' ∨ c = 'I'
    ∨ c = 'w' ∨ c = 'W' ∨ c = 'z' ∨ c = 'Z' ∨ c = 'c' ∨ c = 'C' ∨ c = 'l' ∨ c = 'L'
    ∨ c = 'r' ∨ c = 'R' ∨ c = 'n' ∨ c = 'N' ∨ c = '6')

/-- The options of an outcome of the parser, without the list of the
modifiers met. -/
def ul_opts_of : ul_res ul_parse_st → ul_res ul_opts
  | ul_res.ok st => ul_res.ok st.ulop
  | ul_res.error e => ul_res.error e
  | ul_res.undefined => ul_res.undefined

/-- The parser environment of the scenario with a bind address for IPv6. -/
def ex_parse_env6 : ul_parse_env :=
  { ex_parse_env 12000 with
    foraf := fun pf => some ⟨pf, [32, 1, 13, 184, 0, 0, 0, 0, 0, 0, 0, 0, 0, 0, 0, 1], 0⟩ }

/-- The options of an update that asks for a ptime of 20. -/
def ex_ulop_ptime : ul_opts := { ex_ulop with requested_ptime := 20 }

/-- The outcome of the update of the scenario with a ptime of 20. -/
def ex_out_ptime : ul_outcome :=
  (rtpp_command_ul_handle ex_cfg ex_env ex_cmd_u ex_world (-1) ex_ulop_ptime).get (by decide)

/-! ## The subcommand that turns DTMF detection on -/

/-- The configuration of a stream, `struct catch_dtmf_stream_cfg`: the payload
type, the history and the notification data, NULL when
`rtpp_timeout_data_ctor` returned NULL. -/
structure catch_dtmf_stream_cfg where
  pt : Int
  edata : catch_dtmf_edata
  rtdp : Option rtpp_timeout_data
deriving DecidableEq, Repr

/-- The parts of `struct rtpp_subc_ctx` the command reads:
`sessp->timeout_data`, `strmp->side`, `strmp->catch_dtmf_data` and the
arguments `subc_args`, whose count `c` is the length of the list. -/
structure rtpp_subc_ctx where
  timeout_data : Option rtpp_timeout_data
  side : rtpp_stream_side
  catch_dtmf_data : Option catch_dtmf_stream_cfg
  subc_args : List CStr
deriving DecidableEq, Repr

/-- The calls of the command that are defined outside the sources, and what
they return: the text `url_unquote` leaves (none for -1), whether
`rtpp_zmalloc`, `rtpp_timeout_data_ctor` and the `rtpp_rzmalloc` of the
history succeed, and what `atomic_compare_exchange_strong` finds in
`strmp->catch_dtmf_data`: none when it is still NULL, the configuration
another thread has installed since the `atomic_load` otherwise. -/
structure dtmf_cmd_env where
  url_unquote : CStr → Option CStr
  zmalloc_ok : Bool
  tdata_ok : Bool
  rzmalloc_ok : Bool
  cas_found : Option catch_dtmf_stream_cfg

/-- Modelled from the spec: `atoi_saferange(s, &res, min, max)`, whose
definition is not among the sources: the decimal number `s` when the whole
of `s` is one number from `min` to `max`; none for a non-zero result. -/
def atoi_saferange (s : CStr) (min max : Int) : Option Int :=
  if s = [] then none
  else if (strtol s).2 = 0 ∨ (strtol s).2 ≠ s.length then none
  else if (strtol s).1 < min ∨ (max ≥ min ∧ (strtol s).1 > max) then none
  else some (strtol s).1

/-- The outcome of the command: the value it returns and
`strmp->catch_dtmf_data` after it. -/
structure dtmf_cmd_outcome where
  ret : Int
  catch_dtmf_data : Option catch_dtmf_stream_cfg
deriving DecidableEq, Repr

/-- The function `rtpp_catch_dtmf_handle_command`; log calls and the decoding
of the tag in place are left out. When the exchange finds a configuration of
another thread, the new one is dropped and the payload type of the one found
is replaced. -/
def rtpp_catch_dtmf_handle_command (env : dtmf_cmd_env) (ctxp : rtpp_subc_ctx) :
    dtmf_cmd_outcome :=
  match ctxp.timeout_data with
  | none => { ret := -1, catch_dtmf_data := ctxp.catch_dtmf_data }
  | some td =>
    match ctxp.catch_dtmf_data with
    | some rtps_c => { ret := 0, catch_dtmf_data := some rtps_c }
    | none =>
      if ctxp.subc_args.length < 2 then { ret := -1, catch_dtmf_data := none }
      else
        match env.url_unquote (ctxp.subc_args.getD 1 []) with
        | none => { ret := -1, catch_dtmf_data := none }
        | some dtmf_tag =>
          let new_pt : Option Int :=
            if ctxp.subc_args.length > 2 then atoi_saferange (ctxp.subc_args.getD 2 []) 0 127
            else some 101
          match new_pt with
          | none => { ret := -1, catch_dtmf_data := none }
          | some pt =>
            if !env.zmalloc_ok then { ret := -1, catch_dtmf_data := none }
            else
              let rtdp : Option rtpp_timeout_data :=
                if env.tdata_ok then some ⟨td.notify_target, dtmf_tag⟩ else none
              match rtpp_catch_dtmf_edata_ctor env.rzmalloc_ok ctxp.side with
              | none => { ret := -1, catch_dtmf_data := none }
              | some edata =>
                match env.cas_found with
                | some rtps_c_prev =>
                  { ret := -1, catch_dtmf_data := some { rtps_c_prev with pt := pt } }
                | none =>
                  { ret := 0, catch_dtmf_data := some { pt := pt, edata := edata, rtdp := rtdp } }

/-- Every call of the command succeeds and no other thread interferes. -/
def ex_dtmf_env : dtmf_cmd_env :=
  { url_unquote := fun s => some s, zmalloc_ok := true, tdata_ok := true, rzmalloc_ok := true,
    cas_found := none }

/-- The subcommand `catch_dtmf my-tag <pt>` on a caller stream without a
configuration, in a session with notification data. -/
def ex_dtmf_ctx (pt : String) : rtpp_subc_ctx :=
  { timeout_data := some ⟨1, "tag".toList⟩, side := rtpp_stream_side.RTPP_SSIDE_CALLER,
    catch_dtmf_data := none, subc_args := ["catch_dtmf".toList, "my-tag".toList, pt.toList] }

/-- A configuration with the payload type 96 and a history that holds an
ended event. -/
def ex_dtmf_cfg : catch_dtmf_stream_cfg :=
  { pt := 96, edata := ex_edata_ended, rtdp := some ⟨1, "old-tag".toList⟩ }

/-! ## Theorems: decoding -/

/-- C6: the worker reads the four payload bytes b0 b1 b2 b3 after the 12-byte
header as event = b0, end = the top bit of b1, volume = the low six bits of
b1 and duration = 256*b2 + b3, and the timestamp as the big-endian value of
bytes 4..7 of the header, on a host of either byte order. -/
theorem dtmf_decode_wire (be : Bool) (h0 h1 h2 h3 t0 t1 t2 t3 s0 s1 s2 s3 b0 b1 b2 b3 : Nat)
    (rest : List Nat)
    (ht : t0 < 256 ∧ t1 < 256 ∧ t2 < 256 ∧ t3 < 256)
    (hb : b0 < 256 ∧ b1 < 256 ∧ b2 < 256 ∧ b3 < 256) :
    (dtmf_of be ⟨[h0, h1, h2, h3, t0, t1, t2, t3, s0, s1, s2, s3, b0, b1, b2, b3] ++ rest⟩).event
        = b0
      ∧ (dtmf_of be
          ⟨[h0, h1, h2, h3, t0, t1, t2, t3, s0, s1, s2, s3, b0, b1, b2, b3] ++ rest⟩).end_bit
        = b1 / 128
      ∧ (dtmf_of be
          ⟨[h0, h1, h2, h3, t0, t1, t2, t3, s0, s1, s2, s3, b0, b1, b2, b3] ++ rest⟩).volume
        = b1 % 64
      ∧ ntohs be (dtmf_of be
          ⟨[h0, h1, h2, h3, t0, t1, t2, t3, s0, s1, s2, s3, b0, b1, b2, b3] ++ rest⟩).duration
        = 256 * b2 + b3
      ∧ event_ts be ⟨[h0, h1, h2, h3, t0, t1, t2, t3, s0, s1, s2, s3, b0, b1, b2, b3] ++ rest⟩
        = 2 ^ 24 * t0 + 2 ^ 16 * t1 + 2 ^ 8 * t2 + t3 := by
  obtain ⟨ht0, ht1, ht2, ht3⟩ := ht
  obtain ⟨hb0, hb1, hb2, hb3⟩ := hb
  cases be <;>
    simp [dtmf_of, event_ts, header_ts, ntohl, ntohs, bitfield, host_u32, byte_at,
      sizeof_rtp_hdr_t] <;>
    omega

/-- Witness of C6: an event 5, end bit set, volume 10, duration 480 at the
timestamp 0x01020304. -/
theorem dtmf_decode_wire_witness :
    (dtmf_of false ⟨[128, 101, 0, 1, 1, 2, 3, 4, 0, 0, 0, 7, 5, 138, 1, 224] ++ []⟩).event = 5
      ∧ (dtmf_of false ⟨[128, 101, 0, 1, 1, 2, 3, 4, 0, 0, 0, 7, 5, 138, 1, 224] ++ []⟩).end_bit
        = 138 / 128
      ∧ (dtmf_of false ⟨[128, 101, 0, 1, 1, 2, 3, 4, 0, 0, 0, 7, 5, 138, 1, 224] ++ []⟩).volume
        = 138 % 64
      ∧ ntohs false
          (dtmf_of false ⟨[128, 101, 0, 1, 1, 2, 3, 4, 0, 0, 0, 7, 5, 138, 1, 224] ++ []⟩).duration
        = 256 * 1 + 224
      ∧ event_ts false ⟨[128, 101, 0, 1, 1, 2, 3, 4, 0, 0, 0, 7, 5, 138, 1, 224] ++ []⟩
        = 2 ^ 24 * 1 + 2 ^ 16 * 2 + 2 ^ 8 * 3 + 4 :=
  dtmf_decode_wire false 128 101 0 1 1 2 3 4 0 0 0 7 5 138 1 224 []
    (by decide) (by decide)

/-! ## Theorems: one packet -/

/-- C2: whatever the history, a packet whose end bit is 0 schedules no
notification. -/
theorem no_end_bit_no_notification (be : Bool) (ed : catch_dtmf_edata)
    (rtdp : rtpp_timeout_data) (pkt : rtp_packet) (hend : (dtmf_of be pkt).end_bit = 0) :
    (rtpp_catch_dtmf_worker be ed rtdp pkt).2 = [] := by
  unfold rtpp_catch_dtmf_worker
  simp only [hend]
  split
  · rfl
  · split
    · rfl
    · split
      · rfl
      · split <;> rfl

/-- Witness of C2: a mid-event packet (end bit 0) on a history that holds its
event as pending. -/
theorem no_end_bit_no_notification_witness :
    (dtmf_of false (mk_dtmf_pkt 101 1000 5 0 10 320)).end_bit = 0
      ∧ (rtpp_catch_dtmf_worker false
          ⟨[⟨1, 53, 1000, 160⟩, ⟨0, -1, 0, 0⟩, ⟨0, -1, 0, 0⟩, ⟨0, -1, 0, 0⟩], 1,
            rtpp_stream_side.RTPP_SSIDE_CALLER⟩
          ⟨1, "my-tag".toList⟩ (mk_dtmf_pkt 101 1000 5 0 10 320)).2 = [] :=
  ⟨by decide, no_end_bit_no_notification false _ _ _ (by decide)⟩

/-! ## Theorems: the history over a queue of packets -/

theorem hst_get_eq_slot (ed : catch_dtmf_edata) (j : Int) (h : 0 ≤ j) :
    hst_get ed j = slot ed j.toNat := by
  simp [hst_get, slot, h]

theorem slot_hst_set (ed : catch_dtmf_edata) (j : Int) (e : catch_dtmf_einfo) (i : Nat) :
    slot (hst_set ed j e) i
      = if 0 ≤ j ∧ j.toNat = i ∧ i < ed.hst.length then e else slot ed i := by
  unfold slot hst_set
  by_cases hj : 0 ≤ j
  · by_cases hij : j.toNat = i
    · by_cases hl : i < ed.hst.length
      · simp [hj, hij, hl, List.getD_eq_getElem?_getD, List.getElem?_set]
      · have hl2 : ed.hst.length ≤ i := by omega
        simp [hj, hij, hl, List.getD_eq_getElem?_getD, List.getElem?_set,
          List.getElem?_eq_none hl2]
    · simp [hj, hij, List.getD_eq_getElem?_getD, List.getElem?_set]
  · simp [hj]

theorem hst_set_hst_next (ed : catch_dtmf_edata) (j : Int) (e : catch_dtmf_einfo) :
    (hst_set ed j e).hst_next = ed.hst_next := by
  unfold hst_set; split <;> rfl

theorem hst_set_length (ed : catch_dtmf_edata) (j : Int) (e : catch_dtmf_einfo) :
    (hst_set ed j e).hst.length = ed.hst.length := by
  unfold hst_set; split <;> simp

theorem hst_set_side (ed : catch_dtmf_edata) (j : Int) (e : catch_dtmf_einfo) :
    (hst_set ed j e).side = ed.side := by
  unfold hst_set; split <;> rfl

theorem dtmf_digit_ne_neg_one (e : Nat) : dtmf_digit e ≠ -1 := by
  unfold dtmf_digit
  omega

theorem hst_counters_eq : hst_counters = [1, 2, 3, 4] := by decide

theorem hst_search_some_mem (ed : catch_dtmf_edata) (ts : Nat) (j : Int) (is : List Int)
    (h : hst_search ed ts is = some j) :
    (∃ i ∈ is, j = hst_index ed.hst_next i)
      ∧ (hst_get ed j).ts = ts ∧ (hst_get ed j).digit ≠ -1 := by
  induction is with
  | nil => simp [hst_search] at h
  | cons i is ih =>
    simp only [hst_search] at h
    split at h
    · rename_i hc
      injection h with h
      subst h
      exact ⟨⟨i, List.mem_cons_self _ _, rfl⟩, hc⟩
    · obtain ⟨⟨k, hk, hj⟩, h2⟩ := ih h
      exact ⟨⟨k, List.mem_cons_of_mem _ hk, hj⟩, h2⟩

theorem hst_search_none_mem (ed : catch_dtmf_edata) (ts : Nat) (is : List Int)
    (h : hst_search ed ts is = none) :
    ∀ i ∈ is, ¬ ((hst_get ed (hst_index ed.hst_next i)).ts = ts
      ∧ (hst_get ed (hst_index ed.hst_next i)).digit ≠ -1) := by
  induction is with
  | nil => simp
  | cons i is ih =>
    simp only [hst_search] at h
    split at h
    · simp at h
    · rename_i hc
      intro k hk
      rcases List.mem_cons.1 hk with rfl | hk
      · exact hc
      · exact ih h k hk

theorem hst_search_some (ed : catch_dtmf_edata) (ts : Nat) (j : Int)
    (hn : 0 ≤ ed.hst_next ∧ ed.hst_next < 4)
    (h : hst_search ed ts hst_counters = some j) :
    0 ≤ j ∧ j < 4 ∧ (slot ed j.toNat).ts = ts ∧ (slot ed j.toNat).digit ≠ -1 := by
  obtain ⟨⟨i, hi, hj⟩, h1, h2⟩ := hst_search_some_mem ed ts j _ h
  rw [hst_counters_eq] at hi
  have hj0 : 0 ≤ j ∧ j < 4 := by
    simp only [hst_index, EINFO_HST_DPTH] at hj
    simp only [List.mem_cons, List.mem_singleton, List.not_mem_nil, or_false] at hi
    rcases hi with rfl | rfl | rfl | rfl <;> (split at hj <;> omega)
  rw [hst_get_eq_slot ed j hj0.1] at h1 h2
  exact ⟨hj0.1, hj0.2, h1, h2⟩

theorem hst_search_none (ed : catch_dtmf_edata) (ts : Nat)
    (hn : 0 ≤ ed.hst_next ∧ ed.hst_next < 4)
    (h : hst_search ed ts hst_counters = none) :
    ∀ i < 4, ¬ ((slot ed i).ts = ts ∧ (slot ed i).digit ≠ -1) := by
  intro i hi
  have key := hst_search_none_mem ed ts _ h
    (if (i : Int) < ed.hst_next then ed.hst_next - i else ed.hst_next - i + 4)
    (by rw [hst_counters_eq]
        simp only [List.mem_cons, List.mem_singleton, List.not_mem_nil, or_false]
        split <;> omega)
  have hidx : hst_index ed.hst_next
      (if (i : Int) < ed.hst_next then ed.hst_next - i else ed.hst_next - i + 4) = (i : Int) := by
    simp only [hst_index, EINFO_HST_DPTH]
    split <;> split <;> omega
  rw [hidx, hst_get_eq_slot ed i (by omega)] at key
  simpa using key

/-- The outcomes of one packet: dropped; recorded as a new event; a pending
slot updated; a pending slot updated, closed and notified. -/
theorem worker_cases (be : Bool) (ed : catch_dtmf_edata) (rtdp : rtpp_timeout_data)
    (pkt : rtp_packet) :
    rtpp_catch_dtmf_worker be ed rtdp pkt = (ed, [])
    ∨ (hst_search ed (event_ts be pkt) hst_counters = none
        ∧ rtpp_catch_dtmf_worker be ed rtdp pkt
          = ({ hst_set ed ed.hst_next
                ⟨1, dtmf_digit (dtmf_of be pkt).event, event_ts be pkt,
                  ntohs be (dtmf_of be pkt).duration⟩ with
               hst_next := if ed.hst_next + 1 = 4 then 0 else ed.hst_next + 1 }, []))
    ∨ (∃ j e, hst_search ed (event_ts be pkt) hst_counters = some j
        ∧ (hst_get ed j).pending ≠ 0 ∧ e.ts = (hst_get ed j).ts
        ∧ e.digit = (hst_get ed j).digit
        ∧ rtpp_catch_dtmf_worker be ed rtdp pkt = (hst_set ed j e, []))
    ∨ (∃ j e n, hst_search ed (event_ts be pkt) hst_counters = some j
        ∧ (hst_get ed j).pending ≠ 0 ∧ e.ts = (hst_get ed j).ts
        ∧ e.digit = (hst_get ed j).digit
        ∧ rtpp_catch_dtmf_worker be ed rtdp pkt
          = (hst_set (hst_set ed j e) j { e with pending := 0 }, [n])) := by
  unfold rtpp_catch_dtmf_worker
  simp only []
  split
  · exact Or.inl rfl
  · split
    · rename_i hs
      refine Or.inr (Or.inl ⟨hs, ?_⟩)
      simp [hst_set_hst_next, EINFO_HST_DPTH]
    · rename_i j hs
      split
      · exact Or.inl rfl
      · rename_i hp
        split
        · exact Or.inl rfl
        · split
          · refine Or.inr (Or.inr (Or.inl ⟨j, _, hs, hp, ?_, ?_, rfl⟩))
            · split <;> rfl
            · split <;> rfl
          · refine Or.inr (Or.inr (Or.inr ⟨j, _, _, hs, hp, ?_, ?_, rfl⟩))
            · split <;> rfl
            · split <;> rfl

theorem slot_with_hst_next (ed : catch_dtmf_edata) (n : Int) (i : Nat) :
    slot { ed with hst_next := n } i = slot ed i := rfl

theorem hst_inv_congr (ed ed1 : catch_dtmf_edata) (hl : ed1.hst.length = ed.hst.length)
    (hn : ed1.hst_next = ed.hst_next)
    (hts : ∀ i, (slot ed1 i).ts = (slot ed i).ts)
    (hdg : ∀ i, (slot ed1 i).digit = (slot ed i).digit) (h : hst_inv ed) : hst_inv ed1 := by
  unfold hst_inv at h ⊢
  simp only [hl, hn, hts, hdg]
  exact h

theorem slot_set_same_ts (ed : catch_dtmf_edata) (j : Int) (e : catch_dtmf_einfo)
    (hts : e.ts = (hst_get ed j).ts) (i : Nat) :
    (slot (hst_set ed j e) i).ts = (slot ed i).ts := by
  rw [slot_hst_set]
  split
  · rename_i h
    rw [hts, hst_get_eq_slot ed j h.1, h.2.1]
  · rfl

theorem slot_set_same_digit (ed : catch_dtmf_edata) (j : Int) (e : catch_dtmf_einfo)
    (hd : e.digit = (hst_get ed j).digit) (i : Nat) :
    (slot (hst_set ed j e) i).digit = (slot ed i).digit := by
  rw [slot_hst_set]
  split
  · rename_i h
    rw [hd, hst_get_eq_slot ed j h.1, h.2.1]
  · rfl

theorem hst_inv_set (ed : catch_dtmf_edata) (j : Int) (e : catch_dtmf_einfo)
    (hts : e.ts = (hst_get ed j).ts) (hd : e.digit = (hst_get ed j).digit)
    (h : hst_inv ed) : hst_inv (hst_set ed j e) :=
  hst_inv_congr ed _ (hst_set_length ed j e) (hst_set_hst_next ed j e)
    (slot_set_same_ts ed j e hts) (slot_set_same_digit ed j e hd) h

theorem hst_inv_new_event (ed : catch_dtmf_edata) (e : catch_dtmf_einfo)
    (hv : e.digit ≠ -1)
    (hnone : ∀ i < 4, ¬ ((slot ed i).ts = e.ts ∧ (slot ed i).digit ≠ -1))
    (h : hst_inv ed) :
    hst_inv { hst_set ed ed.hst_next e with
      hst_next := if ed.hst_next + 1 = 4 then 0 else ed.hst_next + 1 } := by
  obtain ⟨hl, h0, h4, hdist, hpre⟩ := h
  have hslot : ∀ i < 4, slot { hst_set ed ed.hst_next e with
        hst_next := if ed.hst_next + 1 = 4 then 0 else ed.hst_next + 1 } i
      = if ed.hst_next.toNat = i then e else slot ed i := by
    intro i hi
    show slot (hst_set ed ed.hst_next e) i = _
    rw [slot_hst_set]
    by_cases hk : ed.hst_next.toNat = i
    · simp [hk, h0, hl, hi]
    · simp [hk]
  refine ⟨by simp [hst_set_length, hl], by simp only []; split <;> omega,
    by simp only []; split <;> omega, ?_, ?_⟩
  · intro i hi j hj
    rw [hslot i hi, hslot j hj]
    by_cases hki : ed.hst_next.toNat = i <;> by_cases hkj : ed.hst_next.toNat = j
    · intro _ _ _; omega
    · rw [if_pos hki, if_neg hkj]
      intro _ hvj hts
      exact absurd ⟨hts.symm, hvj⟩ (hnone j hj)
    · rw [if_neg hki, if_pos hkj]
      intro hvi _ hts
      exact absurd ⟨hts, hvi⟩ (hnone i hi)
    · rw [if_neg hki, if_neg hkj]
      exact hdist i hi j hj
  · rcases hpre with hpre | hall
    · by_cases h3 : ed.hst_next + 1 = 4
      · right
        intro i hi
        rw [hslot i hi]
        by_cases hk : ed.hst_next.toNat = i
        · rw [if_pos hk]; exact hv
        · rw [if_neg hk]
          exact (hpre i hi).2 (by omega)
      · left
        intro i hi
        rw [hslot i hi]
        simp only [h3, if_false]
        by_cases hk : ed.hst_next.toNat = i
        · rw [if_pos hk]
          exact ⟨fun _ => by omega, fun _ => hv⟩
        · rw [if_neg hk, hpre i hi]
          omega
    · right
      intro i hi
      rw [hslot i hi]
      split
      · exact hv
      · exact hall i hi

theorem hst_get_set_self (ed : catch_dtmf_edata) (j : Int) (e : catch_dtmf_einfo)
    (hj : 0 ≤ j ∧ j.toNat < ed.hst.length) : hst_get (hst_set ed j e) j = e := by
  rw [hst_get_eq_slot _ _ hj.1, slot_hst_set]
  simp [hj]

theorem hst_get_set_self_ts (ed : catch_dtmf_edata) (j : Int) (e : catch_dtmf_einfo)
    (hts : e.ts = (hst_get ed j).ts) : (hst_get (hst_set ed j e) j).ts = e.ts := by
  by_cases hj : 0 ≤ j
  · rw [hst_get_eq_slot _ _ hj, slot_set_same_ts ed j e hts, hts, hst_get_eq_slot _ _ hj]
  · simp [hst_get, hj, hts]

theorem hst_get_set_self_digit (ed : catch_dtmf_edata) (j : Int) (e : catch_dtmf_einfo)
    (hd : e.digit = (hst_get ed j).digit) : (hst_get (hst_set ed j e) j).digit = e.digit := by
  by_cases hj : 0 ≤ j
  · rw [hst_get_eq_slot _ _ hj, slot_set_same_digit ed j e hd, hd, hst_get_eq_slot _ _ hj]
  · simp [hst_get, hj, hd]

/-- The invariant of the history holds after every packet. -/
theorem hst_inv_step (be : Bool) (ed : catch_dtmf_edata) (rtdp : rtpp_timeout_data)
    (pkt : rtp_packet) (h : hst_inv ed) :
    hst_inv (rtpp_catch_dtmf_worker be ed rtdp pkt).1 := by
  rcases worker_cases be ed rtdp pkt with hw | ⟨hs, hw⟩ | ⟨j, e, _, _, hts, hd, hw⟩
    | ⟨j, e, n, _, _, hts, hd, hw⟩
  · rw [hw]; exact h
  · rw [hw]
    exact hst_inv_new_event ed _ (dtmf_digit_ne_neg_one _)
      (hst_search_none ed _ ⟨h.2.1, h.2.2.1⟩ hs) h
  · rw [hw]
    exact hst_inv_set ed j e hts hd h
  · rw [hw]
    exact hst_inv_set _ j _ (hst_get_set_self_ts ed j e hts).symm
      (hst_get_set_self_digit ed j e hd).symm (hst_inv_set ed j e hts hd h)

theorem hst_within_set (ed : catch_dtmf_edata) (T : Finset Nat) (j : Int)
    (e : catch_dtmf_einfo) (hts : e.ts = (hst_get ed j).ts)
    (hd : e.digit = (hst_get ed j).digit) (h : hst_within ed T) :
    hst_within (hst_set ed j e) T := by
  intro i hi
  rw [slot_set_same_ts ed j e hts, slot_set_same_digit ed j e hd]
  exact h i hi

theorem slot_new_event (ed : catch_dtmf_edata) (e : catch_dtmf_einfo) (n : Int)
    (h : hst_inv ed) (i : Nat) (hi : i < 4) :
    slot { hst_set ed ed.hst_next e with hst_next := n } i
      = if ed.hst_next.toNat = i then e else slot ed i := by
  show slot (hst_set ed ed.hst_next e) i = _
  rw [slot_hst_set]
  by_cases hk : ed.hst_next.toNat = i
  · simp [hk, h.2.1, h.1, hi]
  · simp [hk]

theorem hst_within_step (be : Bool) (ed : catch_dtmf_edata) (rtdp : rtpp_timeout_data)
    (pkt : rtp_packet) (T : Finset Nat) (hT : event_ts be pkt ∈ T) (h : hst_inv ed)
    (hw : hst_within ed T) :
    hst_within (rtpp_catch_dtmf_worker be ed rtdp pkt).1 T := by
  rcases worker_cases be ed rtdp pkt with hr | ⟨hs, hr⟩ | ⟨j, e, _, _, hts, hd, hr⟩
    | ⟨j, e, n, _, _, hts, hd, hr⟩
  · rw [hr]; exact hw
  · rw [hr]
    intro i hi
    rw [slot_new_event ed _ _ h i hi]
    split
    · intro _; exact hT
    · exact hw i hi
  · rw [hr]
    exact hst_within_set ed T j e hts hd hw
  · rw [hr]
    exact hst_within_set _ T j _ (hst_get_set_self_ts ed j e hts).symm
      (hst_get_set_self_digit ed j e hd).symm (hst_within_set ed T j e hts hd hw)

/-- A full history whose timestamps lie in a set of at most four values holds
every value of the set. -/
theorem hst_full_covers (ed : catch_dtmf_edata) (T : Finset Nat) (h : hst_inv ed)
    (hall : ∀ i < 4, (slot ed i).digit ≠ -1) (hw : hst_within ed T) (hT : T.card ≤ 4)
    (t : Nat) (ht : t ∈ T) : ∃ i < 4, (slot ed i).ts = t := by
  by_contra hne
  push_neg at hne
  have hinj : Function.Injective (fun i : Fin 4 => (slot ed i.1).ts) := by
    intro a b hab
    exact Fin.ext (h.2.2.2.1 a.1 a.2 b.1 b.2 (hall a.1 a.2) (hall b.1 b.2) hab)
  have hnot : t ∉ Finset.univ.image (fun i : Fin 4 => (slot ed i.1).ts) := by
    intro hm
    obtain ⟨i, _, hi⟩ := Finset.mem_image.1 hm
    exact hne i.1 i.2 hi
  have hsub : insert t (Finset.univ.image (fun i : Fin 4 => (slot ed i.1).ts)) ⊆ T := by
    intro x hx
    rcases Finset.mem_insert.1 hx with rfl | hx
    · exact ht
    · obtain ⟨i, _, hi⟩ := Finset.mem_image.1 hx
      rw [← hi]
      exact hw i.1 i.2 (hall i.1 i.2)
  have hcard := Finset.card_le_card hsub
  rw [Finset.card_insert_of_not_mem hnot, Finset.card_image_of_injective _ hinj] at hcard
  simp at hcard
  omega

/-- With at most four timestamps in play, a new event is written to a slot
that never held an event. -/
theorem hst_next_free (ed : catch_dtmf_edata) (T : Finset Nat) (h : hst_inv ed)
    (hw : hst_within ed T) (hT : T.card ≤ 4) (t : Nat) (ht : t ∈ T)
    (hnone : ∀ i < 4, ¬ ((slot ed i).ts = t ∧ (slot ed i).digit ≠ -1)) :
    (slot ed ed.hst_next.toNat).digit = -1 := by
  have hk : ed.hst_next.toNat < 4 := by have := h.2.1; have := h.2.2.1; omega
  rcases h.2.2.2.2 with hpre | hall
  · by_contra hv
    have := (hpre _ hk).1 hv
    have := h.2.1
    omega
  · obtain ⟨i, hi, hts⟩ := hst_full_covers ed T h hall hw hT t ht
    exact absurd ⟨hts, hall i hi⟩ (hnone i hi)

theorem hst_done_set2 (ed : catch_dtmf_edata) (ts : Nat) (j : Int)
    (e e2 : catch_dtmf_einfo) (hp : (hst_get ed j).pending ≠ 0) (h : hst_done ed ts) :
    hst_done (hst_set ed j e) ts ∧ hst_done (hst_set (hst_set ed j e) j e2) ts := by
  obtain ⟨i, hi, h1, h2, h3⟩ := h
  have hne : ¬ (0 ≤ j ∧ j.toNat = i) := by
    rintro ⟨hj, hji⟩
    rw [hst_get_eq_slot ed j hj, hji] at hp
    exact hp h3
  have hs1 : slot (hst_set ed j e) i = slot ed i := by
    rw [slot_hst_set]; split
    · rename_i hc; exact absurd ⟨hc.1, hc.2.1⟩ hne
    · rfl
  have hs2 : slot (hst_set (hst_set ed j e) j e2) i = slot ed i := by
    rw [slot_hst_set]; split
    · rename_i hc; exact absurd ⟨hc.1, hc.2.1⟩ hne
    · exact hs1
  exact ⟨⟨i, hi, by rw [hs1]; exact ⟨h1, h2, h3⟩⟩, ⟨i, hi, by rw [hs2]; exact ⟨h1, h2, h3⟩⟩⟩

/-- A closed event stays closed while the packets carry at most four
timestamps. -/
theorem hst_done_step (be : Bool) (ed : catch_dtmf_edata) (rtdp : rtpp_timeout_data)
    (pkt : rtp_packet) (T : Finset Nat) (hT : T.card ≤ 4) (hp : event_ts be pkt ∈ T)
    (h : hst_inv ed) (hw : hst_within ed T) (ts : Nat) (hd : hst_done ed ts) :
    hst_done (rtpp_catch_dtmf_worker be ed rtdp pkt).1 ts := by
  rcases worker_cases be ed rtdp pkt with hr | ⟨hs, hr⟩ | ⟨j, e, _, hpend, _, _, hr⟩
    | ⟨j, e, n, _, hpend, _, _, hr⟩
  · rw [hr]; exact hd
  · rw [hr]
    have hfree := hst_next_free ed T h hw hT _ hp (hst_search_none ed _ ⟨h.2.1, h.2.2.1⟩ hs)
    obtain ⟨i, hi, h1, h2, h3⟩ := hd
    refine ⟨i, hi, ?_⟩
    rw [slot_new_event ed _ _ h i hi]
    have hne : ed.hst_next.toNat ≠ i := by
      intro hk; rw [hk] at hfree; exact h2 hfree
    rw [if_neg hne]
    exact ⟨h1, h2, h3⟩
  · rw [hr]; exact (hst_done_set2 ed ts j e e hpend hd).1
  · rw [hr]; exact (hst_done_set2 ed ts j e _ hpend hd).2

/-- A packet of a closed event schedules nothing. -/
theorem hst_done_silent (be : Bool) (ed : catch_dtmf_edata) (rtdp : rtpp_timeout_data)
    (pkt : rtp_packet) (h : hst_inv ed) (hd : hst_done ed (event_ts be pkt)) :
    (rtpp_catch_dtmf_worker be ed rtdp pkt).2 = [] := by
  rcases worker_cases be ed rtdp pkt with hr | ⟨_, hr⟩ | ⟨j, e, _, _, _, _, hr⟩
    | ⟨j, e, n, hs, hpend, _, _, hr⟩
  · rw [hr]
  · rw [hr]
  · rw [hr]
  · exfalso
    obtain ⟨hj0, hj4, hts, hv⟩ := hst_search_some ed _ j ⟨h.2.1, h.2.2.1⟩ hs
    obtain ⟨i, hi, h1, h2, h3⟩ := hd
    have hij := h.2.2.2.1 i hi j.toNat (by omega) h2 hv (h1.trans hts.symm)
    rw [hst_get_eq_slot ed j hj0, ← hij] at hpend
    exact hpend h3

/-- A packet schedules at most one notification, and the event it notifies is
closed afterwards. -/
theorem notified_done (be : Bool) (ed : catch_dtmf_edata) (rtdp : rtpp_timeout_data)
    (pkt : rtp_packet) (h : hst_inv ed) :
    (rtpp_catch_dtmf_worker be ed rtdp pkt).2.length ≤ 1
      ∧ ((rtpp_catch_dtmf_worker be ed rtdp pkt).2 ≠ [] →
          hst_done (rtpp_catch_dtmf_worker be ed rtdp pkt).1 (event_ts be pkt)) := by
  rcases worker_cases be ed rtdp pkt with hr | ⟨_, hr⟩ | ⟨j, e, _, _, _, _, hr⟩
    | ⟨j, e, n, hs, hpend, hts, hdg, hr⟩
  · rw [hr]; simp
  · rw [hr]; simp
  · rw [hr]; simp
  · rw [hr]
    refine ⟨by simp, fun _ => ?_⟩
    obtain ⟨hj0, hj4, hts2, hv⟩ := hst_search_some ed _ j ⟨h.2.1, h.2.2.1⟩ hs
    have hlen : j.toNat < (hst_set ed j e).hst.length := by
      rw [hst_set_length, h.1]; omega
    refine ⟨j.toNat, by omega, ?_⟩
    rw [← hst_get_eq_slot _ _ hj0, hst_get_set_self _ j _ ⟨hj0, hlen⟩]
    rw [hst_get_eq_slot ed j hj0] at hts hdg
    refine ⟨?_, ?_, rfl⟩
    · show e.ts = _
      rw [hts, hts2]
    · show e.digit ≠ _
      rw [hdg]; exact hv

theorem notifs_for_cons (be : Bool) (ts : Nat) (p : rtp_packet) (ns : List notification)
    (tr : List (rtp_packet × List notification)) :
    notifs_for be ts ((p, ns) :: tr)
      = (if event_ts be p = ts then ns else []) ++ notifs_for be ts tr := by
  unfold notifs_for
  by_cases h : event_ts be p = ts <;> simp [List.filter_cons, h]

theorem hst_inv_fresh (side : rtpp_stream_side) (ed : catch_dtmf_edata)
    (h : rtpp_catch_dtmf_edata_ctor true side = some ed) :
    hst_inv ed ∧ ∀ i < 4, (slot ed i).digit = -1 := by
  simp only [rtpp_catch_dtmf_edata_ctor, if_true, Option.some.injEq] at h
  subst h
  have hall : ∀ i < 4, (slot ⟨List.replicate EINFO_HST_DPTH { einfo_zero with digit := -1 }, 0,
      side⟩ i).digit = -1 := by
    intro i hi
    have : i = 0 ∨ i = 1 ∨ i = 2 ∨ i = 3 := by omega
    rcases this with rfl | rfl | rfl | rfl <;> rfl
  refine ⟨⟨rfl, le_refl _, by show (0 : Int) < 4; omega, ?_, Or.inl ?_⟩, hall⟩
  · intro i hi j _ hv
    exact absurd (hall i hi) hv
  · intro i hi
    constructor
    · intro hv; exact absurd (hall i hi) hv
    · intro hlt
      have hlt2 : (i : Int) < 0 := hlt
      omega

theorem notifs_for_le_one (be : Bool) (rtdp : rtpp_timeout_data) (T : Finset Nat)
    (hT : T.card ≤ 4) (ts : Nat) (pkts : List rtp_packet) :
    ∀ ed, hst_inv ed → hst_within ed T → (∀ p ∈ pkts, event_ts be p ∈ T) →
      (notifs_for be ts (worker_trace be rtdp ed pkts)).length ≤ 1
        ∧ (hst_done ed ts → notifs_for be ts (worker_trace be rtdp ed pkts) = []) := by
  induction pkts with
  | nil => intro ed _ _ _; simp [worker_trace, notifs_for]
  | cons p ps ih =>
    intro ed hinv hw hmem
    have hp : event_ts be p ∈ T := hmem p (List.mem_cons_self _ _)
    have hinv1 := hst_inv_step be ed rtdp p hinv
    have hw1 := hst_within_step be ed rtdp p T hp hinv hw
    obtain ⟨ih1, ih2⟩ := ih _ hinv1 hw1 (fun q hq => hmem q (List.mem_cons_of_mem _ hq))
    obtain ⟨hle, hnd⟩ := notified_done be ed rtdp p hinv
    simp only [worker_trace, notifs_for_cons, List.length_append]
    constructor
    · by_cases hts : event_ts be p = ts
      · rw [if_pos hts]
        by_cases hne : (rtpp_catch_dtmf_worker be ed rtdp p).2 = []
        · rw [hne]; simpa using ih1
        · rw [ih2 (hts ▸ hnd hne)]
          simpa using hle
      · rw [if_neg hts]; simpa using ih1
    · intro hd
      rw [ih2 (hst_done_step be ed rtdp p T hT hp hinv hw ts hd)]
      by_cases hts : event_ts be p = ts
      · rw [if_pos hts]
        subst hts
        rw [hst_done_silent be ed rtdp p hinv hd]
        rfl
      · rw [if_neg hts]; rfl

/-! ## Theorems: a timestamp whose packets are close together -/

theorem hst_holds_mono (ed : catch_dtmf_edata) (ts k m : Nat) (D D2 : Finset Nat)
    (hsub : D ⊆ D2) (h : hst_holds ed ts k m D) : hst_holds ed ts k m D2 := by
  obtain ⟨h1, h2, h3, h4, h5, h6⟩ := h
  exact ⟨h1, h2, h3, h4, h5, fun j hj => ⟨(h6 j hj).1, hsub (h6 j hj).2⟩⟩

theorem hst_holds_set (ed : catch_dtmf_edata) (ts k m : Nat) (D : Finset Nat) (j : Int)
    (e : catch_dtmf_einfo) (hts : e.ts = (hst_get ed j).ts)
    (hd : e.digit = (hst_get ed j).digit) (h : hst_holds ed ts k m D) :
    hst_holds (hst_set ed j e) ts k m D := by
  unfold hst_holds at h ⊢
  simp only [slot_set_same_ts ed j e hts, slot_set_same_digit ed j e hd, hst_set_hst_next]
  exact h

/-- A new event, while the slot of `ts` and the slots written since hold at
most three timestamps with it, goes to a slot after them. -/
theorem hst_holds_new (ed : catch_dtmf_edata) (ts k m u : Nat) (D : Finset Nat)
    (e : catch_dtmf_einfo) (hinv : hst_inv ed) (h : hst_holds ed ts k m D) (hu : e.ts = u)
    (hv : e.digit ≠ -1)
    (hnone : ∀ i < 4, ¬ ((slot ed i).ts = u ∧ (slot ed i).digit ≠ -1))
    (hcard : (insert u D).card ≤ 3) :
    hst_holds { hst_set ed ed.hst_next e with
        hst_next := if ed.hst_next + 1 = 4 then 0 else ed.hst_next + 1 } ts k (m + 1)
        (insert u D)
      ∧ slot { hst_set ed ed.hst_next e with
          hst_next := if ed.hst_next + 1 = 4 then 0 else ed.hst_next + 1 } k = slot ed k := by
  obtain ⟨hk, hm, hts, hdg, hnext, hoth⟩ := h
  have hm2 : m + 1 ≤ 3 := by
    have hinj : Set.InjOn (fun j => (slot ed ((k + 1 + j) % 4)).ts)
        (Finset.range m : Set Nat) := by
      intro a ha b hb hab
      have ha2 : a < m := Finset.mem_range.1 ha
      have hb2 : b < m := Finset.mem_range.1 hb
      have := hinv.2.2.2.1 ((k + 1 + a) % 4) (Nat.mod_lt _ (by norm_num))
        ((k + 1 + b) % 4) (Nat.mod_lt _ (by norm_num)) (hoth a ha2).1 (hoth b hb2).1 hab
      omega
    have himg : (Finset.range m).image (fun j => (slot ed ((k + 1 + j) % 4)).ts) ⊆ D := by
      intro x hx
      obtain ⟨a, ha, rfl⟩ := Finset.mem_image.1 hx
      exact (hoth a (Finset.mem_range.1 ha)).2
    have hnot : u ∉ (Finset.range m).image (fun j => (slot ed ((k + 1 + j) % 4)).ts) := by
      intro hx
      obtain ⟨a, ha, hau⟩ := Finset.mem_image.1 hx
      exact hnone _ (Nat.mod_lt _ (by norm_num)) ⟨hau, (hoth a (Finset.mem_range.1 ha)).1⟩
    have hle := Finset.card_le_card (Finset.insert_subset_insert u himg)
    rw [Finset.card_insert_of_not_mem hnot, Finset.card_image_of_injOn hinj,
      Finset.card_range] at hle
    omega
  have hnat : ed.hst_next.toNat = (k + 1 + m) % 4 := by
    rw [hnext]
    exact Int.toNat_ofNat _
  have hslot : ∀ i < 4, slot { hst_set ed ed.hst_next e with
        hst_next := if ed.hst_next + 1 = 4 then 0 else ed.hst_next + 1 } i
      = if (k + 1 + m) % 4 = i then e else slot ed i := by
    intro i hi
    rw [slot_new_event ed e _ hinv i hi, hnat]
  have hkk : slot { hst_set ed ed.hst_next e with
      hst_next := if ed.hst_next + 1 = 4 then 0 else ed.hst_next + 1 } k = slot ed k := by
    rw [hslot k hk, if_neg (by omega)]
  refine ⟨⟨hk, hm2, ?_, ?_, ?_, ?_⟩, hkk⟩
  · rw [hkk]; exact hts
  · rw [hkk]; exact hdg
  · show (if ed.hst_next + 1 = 4 then 0 else ed.hst_next + 1) = _
    rw [hnext]
    split <;> omega
  · intro j hj
    rw [hslot _ (Nat.mod_lt _ (by norm_num))]
    by_cases hjm : j = m
    · subst hjm
      rw [if_pos rfl]
      exact ⟨hv, by rw [hu]; exact Finset.mem_insert_self _ _⟩
    · have hjlt : j < m := by omega
      rw [if_neg (by omega)]
      exact ⟨(hoth j hjlt).1, Finset.mem_insert_of_mem (hoth j hjlt).2⟩

/-- One packet keeps the slot of `ts` and the slots written since, when the
timestamps they hold with that of the packet are at most three, or when the
packet carries `ts` itself; and a closed event of `ts` stays closed. -/
theorem hst_holds_step (be : Bool) (ed : catch_dtmf_edata) (rtdp : rtpp_timeout_data)
    (pkt : rtp_packet) (ts k m : Nat) (D : Finset Nat) (hinv : hst_inv ed)
    (h : hst_holds ed ts k m D)
    (hcard : event_ts be pkt = ts ∨ (insert (event_ts be pkt) D).card ≤ 3) :
    (∃ m2, hst_holds (rtpp_catch_dtmf_worker be ed rtdp pkt).1 ts k m2
        (if event_ts be pkt = ts then D else insert (event_ts be pkt) D))
      ∧ (hst_done ed ts → hst_done (rtpp_catch_dtmf_worker be ed rtdp pkt).1 ts) := by
  have hsub : D ⊆ (if event_ts be pkt = ts then D else insert (event_ts be pkt) D) := by
    split
    · exact Finset.Subset.refl _
    · exact Finset.subset_insert _ _
  rcases worker_cases be ed rtdp pkt with hr | ⟨hs, hr⟩ | ⟨j, e, _, hpend, hts, hd, hr⟩
    | ⟨j, e, n, _, hpend, hts, hd, hr⟩
  · rw [hr]
    exact ⟨⟨m, hst_holds_mono ed ts k m D _ hsub h⟩, fun hd => hd⟩
  · rw [hr]
    have hnone := hst_search_none ed _ ⟨hinv.2.1, hinv.2.2.1⟩ hs
    have hne : event_ts be pkt ≠ ts := by
      intro heq
      exact hnone k h.1 ⟨by rw [heq]; exact h.2.2.1, h.2.2.2.1⟩
    rcases hcard with hc | hc
    · exact absurd hc hne
    · obtain ⟨hh, hkk⟩ := hst_holds_new ed ts k m (event_ts be pkt) D
        ⟨1, dtmf_digit (dtmf_of be pkt).event, event_ts be pkt,
          ntohs be (dtmf_of be pkt).duration⟩ hinv h rfl (dtmf_digit_ne_neg_one _) hnone hc
      rw [if_neg hne]
      refine ⟨⟨m + 1, hh⟩, ?_⟩
      rintro ⟨i, hi, h1, h2, h3⟩
      have hik : i = k := hinv.2.2.2.1 i hi k h.1 h2 h.2.2.2.1 (h1.trans h.2.2.1.symm)
      subst hik
      exact ⟨i, hi, by rw [hkk]; exact ⟨h1, h2, h3⟩⟩
  · rw [hr]
    exact ⟨⟨m, hst_holds_mono _ ts k m D _ hsub (hst_holds_set ed ts k m D j e hts hd h)⟩,
      fun hdn => (hst_done_set2 ed ts j e e hpend hdn).1⟩
  · rw [hr]
    refine ⟨⟨m, hst_holds_mono _ ts k m D _ hsub ?_⟩,
      fun hdn => (hst_done_set2 ed ts j e _ hpend hdn).2⟩
    exact hst_holds_set _ ts k m D j _ (hst_get_set_self_ts ed j e hts).symm
      (hst_get_set_self_digit ed j e hd).symm (hst_holds_set ed ts k m D j e hts hd h)

/-- Packets that do not carry `ts` schedule nothing for `ts`. -/
theorem notifs_for_none (be : Bool) (rtdp : rtpp_timeout_data) (ts : Nat)
    (pkts : List rtp_packet) :
    ∀ ed, pkts.any (fun q => decide (event_ts be q = ts)) = false →
      notifs_for be ts (worker_trace be rtdp ed pkts) = [] := by
  induction pkts with
  | nil => intro ed _; rfl
  | cons p ps ih =>
    intro ed h
    simp only [List.any_cons, Bool.or_eq_false_iff, decide_eq_false_iff_not] at h
    simp only [worker_trace, notifs_for_cons, if_neg h.1, List.nil_append]
    exact ih _ h.2

theorem others_to_last_none (be : Bool) (ts : Nat) (pkts : List rtp_packet)
    (h : pkts.any (fun q => decide (event_ts be q = ts)) = false) :
    others_to_last be ts pkts = [] := by
  cases pkts with
  | nil => rfl
  | cons p ps =>
    unfold others_to_last
    rw [if_neg (by rw [h]; exact Bool.false_ne_true)]

/-- While the slot of `ts` and the slots written since it hold, with the
timestamps of the packets up to the last packet of `ts`, at most three
timestamps, the packets of `ts` get at most one notification, and none once
its event is closed. -/
theorem notifs_held_le_one (be : Bool) (rtdp : rtpp_timeout_data) (ts : Nat)
    (pkts : List rtp_packet) :
    ∀ (ed : catch_dtmf_edata) (k m : Nat) (D : Finset Nat), hst_inv ed →
      hst_holds ed ts k m D → (D ∪ (others_to_last be ts pkts).toFinset).card ≤ 3 →
      (notifs_for be ts (worker_trace be rtdp ed pkts)).length ≤ 1
        ∧ (hst_done ed ts → notifs_for be ts (worker_trace be rtdp ed pkts) = []) := by
  induction pkts with
  | nil => intro ed _ _ _ _ _ _; simp [worker_trace, notifs_for]
  | cons p ps ih =>
    intro ed k m D hinv hh hcard
    by_cases hany : (p :: ps).any (fun q => decide (event_ts be q = ts)) = true
    · have hinv1 := hst_inv_step be ed rtdp p hinv
      have hoth : others_to_last be ts (p :: ps)
          = if event_ts be p = ts then others_to_last be ts ps
            else event_ts be p :: others_to_last be ts ps := by
        rw [others_to_last, if_pos hany]
      rw [hoth] at hcard
      have hstep : event_ts be p = ts ∨ (insert (event_ts be p) D).card ≤ 3 := by
        by_cases hp : event_ts be p = ts
        · exact Or.inl hp
        · right
          rw [if_neg hp] at hcard
          refine le_trans (Finset.card_le_card ?_) hcard
          intro x hx
          rcases Finset.mem_insert.1 hx with rfl | hx
          · exact Finset.mem_union_right _ (by simp)
          · exact Finset.mem_union_left _ hx
      obtain ⟨⟨m2, hh1⟩, hd1⟩ := hst_holds_step be ed rtdp p ts k m D hinv hh hstep
      have hcard1 : ((if event_ts be p = ts then D else insert (event_ts be p) D)
          ∪ (others_to_last be ts ps).toFinset).card ≤ 3 := by
        refine le_trans (Finset.card_le_card ?_) hcard
        intro x hx
        by_cases hp : event_ts be p = ts
        · rw [if_pos hp] at hx ⊢
          exact hx
        · rw [if_neg hp] at hx ⊢
          rcases Finset.mem_union.1 hx with hx | hx
          · rcases Finset.mem_insert.1 hx with rfl | hx
            · exact Finset.mem_union_right _ (by simp)
            · exact Finset.mem_union_left _ hx
          · refine Finset.mem_union_right _ ?_
            rw [List.toFinset_cons]
            exact Finset.mem_insert_of_mem hx
      obtain ⟨ih1, ih2⟩ := ih _ k m2 _ hinv1 hh1 hcard1
      obtain ⟨hle, hnd⟩ := notified_done be ed rtdp p hinv
      simp only [worker_trace, notifs_for_cons, List.length_append]
      constructor
      · by_cases hts : event_ts be p = ts
        · rw [if_pos hts]
          by_cases hne : (rtpp_catch_dtmf_worker be ed rtdp p).2 = []
          · rw [hne]; simpa using ih1
          · rw [ih2 (hts ▸ hnd hne)]
            simpa using hle
        · rw [if_neg hts]; simpa using ih1
      · intro hd
        rw [ih2 (hd1 hd)]
        by_cases hts : event_ts be p = ts
        · rw [if_pos hts]
          subst hts
          rw [hst_done_silent be ed rtdp p hinv hd]
          rfl
        · rw [if_neg hts]; rfl
    · have hnone := notifs_for_none be rtdp ts (p :: ps) ed (by simpa using hany)
      rw [hnone]
      exact ⟨by simp, fun _ => rfl⟩

/-- A packet with another timestamp than `ts` leaves a history that does not
hold `ts` without it. -/
theorem hst_unheld_step (be : Bool) (ed : catch_dtmf_edata) (rtdp : rtpp_timeout_data)
    (pkt : rtp_packet) (ts : Nat) (hinv : hst_inv ed) (hp : event_ts be pkt ≠ ts)
    (hun : ∀ i < 4, ¬ ((slot ed i).ts = ts ∧ (slot ed i).digit ≠ -1)) :
    ∀ i < 4, ¬ ((slot (rtpp_catch_dtmf_worker be ed rtdp pkt).1 i).ts = ts
      ∧ (slot (rtpp_catch_dtmf_worker be ed rtdp pkt).1 i).digit ≠ -1) := by
  rcases worker_cases be ed rtdp pkt with hr | ⟨hs, hr⟩ | ⟨j, e, _, _, hts, hd, hr⟩
    | ⟨j, e, n, _, _, hts, hd, hr⟩
  · rw [hr]; exact hun
  · rw [hr]
    intro i hi
    rw [slot_new_event ed _ _ hinv i hi]
    split
    · rintro ⟨h1, -⟩
      exact hp h1
    · exact hun i hi
  · rw [hr]
    intro i hi
    rw [slot_set_same_ts ed j e hts, slot_set_same_digit ed j e hd]
    exact hun i hi
  · rw [hr]
    intro i hi
    have a1 : (slot (hst_set (hst_set ed j e) j { e with pending := 0 }) i).ts
        = (slot ed i).ts :=
      (slot_set_same_ts (hst_set ed j e) j { e with pending := 0 }
        (hst_get_set_self_ts ed j e hts).symm i).trans
        (slot_set_same_ts ed j e hts i)
    have a2 : (slot (hst_set (hst_set ed j e) j { e with pending := 0 }) i).digit
        = (slot ed i).digit :=
      (slot_set_same_digit (hst_set ed j e) j { e with pending := 0 }
        (hst_get_set_self_digit ed j e hd).symm i).trans
        (slot_set_same_digit ed j e hd i)
    show ¬ ((slot (hst_set (hst_set ed j e) j { e with pending := 0 }) i).ts = ts
      ∧ (slot (hst_set (hst_set ed j e) j { e with pending := 0 }) i).digit ≠ -1)
    rw [a1, a2]
    exact hun i hi

theorem others_to_last_dropWhile (be : Bool) (ts : Nat) (pkts : List rtp_packet) :
    others_to_last be ts (pkts.dropWhile (fun p => decide (event_ts be p ≠ ts)))
      ⊆ others_to_last be ts pkts := by
  induction pkts with
  | nil => intro x hx; exact hx
  | cons p ps ih =>
    by_cases hp : event_ts be p = ts
    · rw [List.dropWhile_cons_of_neg (by simp [hp])]
      exact fun x hx => hx
    · rw [List.dropWhile_cons_of_pos (by simp [hp])]
      by_cases hany : (p :: ps).any (fun q => decide (event_ts be q = ts)) = true
      · rw [others_to_last, if_pos hany, if_neg hp]
        exact fun x hx => List.mem_cons_of_mem _ (ih hx)
      · have hps : ps.any (fun q => decide (event_ts be q = ts)) = false := by
          simp only [List.any_cons, Bool.or_eq_true, not_or, Bool.not_eq_true] at hany
          exact hany.2
        intro x hx
        have := ih hx
        rw [others_to_last_none be ts ps hps] at this
        cases this

/-- A history that does not hold `ts`: when the packets between the first and
the last packet of `ts` carry at most three other timestamps, the packets of
`ts` get at most one notification. -/
theorem notifs_unheld_le_one (be : Bool) (rtdp : rtpp_timeout_data) (ts : Nat)
    (pkts : List rtp_packet) :
    ∀ ed : catch_dtmf_edata, hst_inv ed →
      (∀ i < 4, ¬ ((slot ed i).ts = ts ∧ (slot ed i).digit ≠ -1)) →
      (others_between be ts pkts).toFinset.card ≤ 3 →
      (notifs_for be ts (worker_trace be rtdp ed pkts)).length ≤ 1 := by
  induction pkts with
  | nil => intro ed _ _ _; simp [worker_trace, notifs_for]
  | cons p ps ih =>
    intro ed hinv hun hcard
    have hinv1 := hst_inv_step be ed rtdp p hinv
    simp only [worker_trace, notifs_for_cons, List.length_append]
    by_cases hp : event_ts be p = ts
    · rw [if_pos hp]
      have hany : (p :: ps).any (fun q => decide (event_ts be q = ts)) = true := by
        simp [hp]
      have hob : others_between be ts (p :: ps) = others_to_last be ts ps := by
        unfold others_between
        rw [List.dropWhile_cons_of_neg (by simp [hp]), others_to_last, if_pos hany, if_pos hp]
      rw [hob] at hcard
      rcases worker_cases be ed rtdp p with hr | ⟨hs, hr⟩ | ⟨j, e, hs, _, _, _, _⟩
        | ⟨j, e, n, hs, _, _, _, _⟩
      · rw [hr]
        have hc2 : (others_between be ts ps).toFinset.card ≤ 3 := by
          refine le_trans (Finset.card_le_card ?_) hcard
          intro x hx
          rw [List.mem_toFinset] at hx ⊢
          exact others_to_last_dropWhile be ts ps hx
        simpa using ih ed hinv hun hc2
      · have hk : ed.hst_next.toNat < 4 := by
          have := hinv.2.1
          have := hinv.2.2.1
          omega
        have hh : hst_holds (rtpp_catch_dtmf_worker be ed rtdp p).1 ts ed.hst_next.toNat 0 ∅ := by
          rw [hr]
          refine ⟨hk, by omega, ?_, ?_, ?_, fun j hj => absurd hj (Nat.not_lt_zero j)⟩
          · rw [slot_new_event ed _ _ hinv _ hk, if_pos rfl]
            exact hp
          · rw [slot_new_event ed _ _ hinv _ hk, if_pos rfl]
            exact dtmf_digit_ne_neg_one _
          · show (if ed.hst_next + 1 = 4 then 0 else ed.hst_next + 1) = _
            have := hinv.2.1
            have := hinv.2.2.1
            split <;> omega
        have hres := (notifs_held_le_one be rtdp ts ps _ _ 0 ∅ hinv1 hh
          (by rw [Finset.empty_union]; exact hcard)).1
        rw [hr] at hres ⊢
        simpa using hres
      · exfalso
        obtain ⟨hj0, hj4, h1, h2⟩ := hst_search_some ed _ j ⟨hinv.2.1, hinv.2.2.1⟩ hs
        exact hun j.toNat (by omega) ⟨h1.trans hp, h2⟩
      · exfalso
        obtain ⟨hj0, hj4, h1, h2⟩ := hst_search_some ed _ j ⟨hinv.2.1, hinv.2.2.1⟩ hs
        exact hun j.toNat (by omega) ⟨h1.trans hp, h2⟩
    · rw [if_neg hp]
      have hob : others_between be ts (p :: ps) = others_between be ts ps := by
        unfold others_between
        rw [List.dropWhile_cons_of_pos (by simp [hp])]
      rw [hob] at hcard
      simpa using ih _ hinv1 (hst_unheld_step be ed rtdp p ts hinv hp hun) hcard

/-- In a queue whose timestamps never decrease, the packets of one timestamp
follow each other. -/
theorem others_between_sorted (be : Bool) (ts : Nat) (pkts : List rtp_packet)
    (h : (pkts.map (event_ts be)).Pairwise (fun a b => a ≤ b)) :
    others_between be ts pkts = [] := by
  have key : ∀ l : List rtp_packet, (l.map (event_ts be)).Pairwise (fun a b => a ≤ b) →
      (∀ q ∈ l, ts ≤ event_ts be q) → others_to_last be ts l = [] := by
    intro l
    induction l with
    | nil => intro _ _; rfl
    | cons p ps ih =>
      intro hs hge
      rw [List.map_cons, List.pairwise_cons] at hs
      by_cases hany : (p :: ps).any (fun q => decide (event_ts be q = ts)) = true
      · rw [others_to_last, if_pos hany]
        by_cases hp : event_ts be p = ts
        · rw [if_pos hp]
          exact ih hs.2 (fun q hq => hge q (List.mem_cons_of_mem _ hq))
        · exfalso
          have hlt : ts < event_ts be p :=
            lt_of_le_of_ne (hge p (List.mem_cons_self _ _)) (Ne.symm hp)
          simp only [List.any_cons, Bool.or_eq_true, decide_eq_true_eq, List.any_eq_true] at hany
          rcases hany with hany | ⟨q, hq, hqt⟩
          · exact hp hany
          · have := hs.1 (event_ts be q) (List.mem_map_of_mem _ hq)
            omega
      · exact others_to_last_none be ts _ (by simpa using hany)
  unfold others_between
  induction pkts with
  | nil => rfl
  | cons p ps ih =>
    rw [List.map_cons, List.pairwise_cons] at h
    by_cases hp : event_ts be p = ts
    · rw [List.dropWhile_cons_of_neg (by simp [hp])]
      refine key (p :: ps) (by rw [List.map_cons, List.pairwise_cons]; exact h) ?_
      intro q hq
      rcases List.mem_cons.1 hq with rfl | hq
      · exact le_of_eq hp.symm
      · rw [← hp]
        exact h.1 _ (List.mem_map_of_mem _ hq)
    · rw [List.dropWhile_cons_of_pos (by simp [hp])]
      exact ih h.2

/-- C1 (amended): on a freshly constructed history, at most one notification
is scheduled for the packets of a timestamp `ts` when the packets between the
first and the last packet that carry `ts` carry at most three distinct other
timestamps. That is so for every timestamp of a queue whose timestamps never
decrease, and for every timestamp of a queue with at most four distinct
timestamps. -/
theorem at_most_one_notification_per_ts (be : Bool) (side : rtpp_stream_side)
    (rtdp : rtpp_timeout_data) (ed : catch_dtmf_edata) (pkts : List rtp_packet)
    (hfresh : rtpp_catch_dtmf_edata_ctor true side = some ed) :
    (∀ ts, ((others_between be ts pkts).dedup).length ≤ 3 →
        (notifs_for be ts (worker_trace be rtdp ed pkts)).length ≤ 1)
      ∧ ((pkts.map (event_ts be)).Pairwise (fun a b => a ≤ b) →
          ∀ ts, (notifs_for be ts (worker_trace be rtdp ed pkts)).length ≤ 1)
      ∧ (((pkts.map (event_ts be)).dedup).length ≤ 4 →
          ∀ ts, (notifs_for be ts (worker_trace be rtdp ed pkts)).length ≤ 1) := by
  obtain ⟨hinv, hnone⟩ := hst_inv_fresh side ed hfresh
  have hun : ∀ ts, ∀ i < 4, ¬ ((slot ed i).ts = ts ∧ (slot ed i).digit ≠ -1) :=
    fun ts i hi hc => hc.2 (hnone i hi)
  have hwin : ∀ ts, ((others_between be ts pkts).dedup).length ≤ 3 →
      (notifs_for be ts (worker_trace be rtdp ed pkts)).length ≤ 1 := by
    intro ts hc
    exact notifs_unheld_le_one be rtdp ts pkts ed hinv (hun ts)
      (by rw [List.card_toFinset]; exact hc)
  refine ⟨hwin, ?_, ?_⟩
  · intro hs ts
    apply hwin
    rw [others_between_sorted be ts pkts hs]
    exact Nat.zero_le _
  · intro hfour ts
    refine (notifs_for_le_one be rtdp (pkts.map (event_ts be)).toFinset
      (by rw [List.card_toFinset]; exact hfour) ts pkts ed hinv ?_ ?_).1
    · intro i hi hv
      exact absurd (hnone i hi) hv
    · intro p hp
      exact List.mem_toFinset.2 (List.mem_map_of_mem _ hp)

/-- Witness of C1 (amended): five key presses at the timestamps 1000 to 5000,
the first with a retransmitted end packet: the last key, like every other, is
notified at most once. -/
theorem at_most_one_notification_per_ts_witness :
    rtpp_catch_dtmf_edata_ctor true rtpp_stream_side.RTPP_SSIDE_CALLER = some ex_edata
      ∧ ((others_between false 5000
          [mk_dtmf_pkt 101 1000 1 0 10 160, mk_dtmf_pkt 101 1000 1 1 10 320,
            mk_dtmf_pkt 101 1000 1 1 10 320, mk_dtmf_pkt 101 2000 2 0 10 160,
            mk_dtmf_pkt 101 2000 2 1 10 320, mk_dtmf_pkt 101 3000 3 0 10 160,
            mk_dtmf_pkt 101 3000 3 1 10 320, mk_dtmf_pkt 101 4000 4 0 10 160,
            mk_dtmf_pkt 101 4000 4 1 10 320, mk_dtmf_pkt 101 5000 5 0 10 160,
            mk_dtmf_pkt 101 5000 5 1 10 320]).dedup).length ≤ 3
      ∧ (notifs_for false 5000 (worker_trace false ex_rtdp ex_edata
          [mk_dtmf_pkt 101 1000 1 0 10 160, mk_dtmf_pkt 101 1000 1 1 10 320,
            mk_dtmf_pkt 101 1000 1 1 10 320, mk_dtmf_pkt 101 2000 2 0 10 160,
            mk_dtmf_pkt 101 2000 2 1 10 320, mk_dtmf_pkt 101 3000 3 0 10 160,
            mk_dtmf_pkt 101 3000 3 1 10 320, mk_dtmf_pkt 101 4000 4 0 10 160,
            mk_dtmf_pkt 101 4000 4 1 10 320, mk_dtmf_pkt 101 5000 5 0 10 160,
            mk_dtmf_pkt 101 5000 5 1 10 320])).length ≤ 1 :=
  ⟨by decide, by decide,
    (at_most_one_notification_per_ts false rtpp_stream_side.RTPP_SSIDE_CALLER ex_rtdp ex_edata
      _ (by decide)).1 5000 (by decide)⟩

/-- C1 as stated fails: after the notification for timestamp 1, four events
with other timestamps overwrite its slot, and a second start and end with
timestamp 1 are notified again. -/
theorem second_notification_after_wrap :
    (rtpp_catch_dtmf_edata_ctor true rtpp_stream_side.RTPP_SSIDE_CALLER).map
        (fun ed => (notifs_for false 1 (worker_trace false ⟨1, "my-tag".toList⟩ ed
          [mk_dtmf_pkt 101 1 5 0 10 160, mk_dtmf_pkt 101 1 5 1 10 480,
            mk_dtmf_pkt 101 2 5 0 10 160, mk_dtmf_pkt 101 3 5 0 10 160,
            mk_dtmf_pkt 101 4 5 0 10 160, mk_dtmf_pkt 101 5 5 0 10 160,
            mk_dtmf_pkt 101 1 5 0 10 160, mk_dtmf_pkt 101 1 5 1 10 480])).map
          (fun n => String.mk n.buf))
      = some ["my-tag 5 10 480 0", "my-tag 5 10 480 0"] := by
  decide

/-! ## Theorems: the outcomes of one packet and of one event -/

theorem hst_search_eq_none (ed : catch_dtmf_edata) (ts : Nat)
    (hn : 0 ≤ ed.hst_next ∧ ed.hst_next < 4)
    (h : ∀ i < 4, ¬ ((slot ed i).ts = ts ∧ (slot ed i).digit ≠ -1)) :
    hst_search ed ts hst_counters = none := by
  cases hs : hst_search ed ts hst_counters with
  | none => rfl
  | some j =>
    obtain ⟨hj0, hj4, h1, h2⟩ := hst_search_some ed ts j hn hs
    exact absurd ⟨h1, h2⟩ (h j.toNat (by omega))

theorem hst_search_eq_some (ed : catch_dtmf_edata) (ts : Nat) (i : Nat) (hinv : hst_inv ed)
    (hi : i < 4) (h1 : (slot ed i).ts = ts) (h2 : (slot ed i).digit ≠ -1) :
    hst_search ed ts hst_counters = some (i : Int) := by
  cases hs : hst_search ed ts hst_counters with
  | none => exact absurd ⟨h1, h2⟩ (hst_search_none ed ts ⟨hinv.2.1, hinv.2.2.1⟩ hs i hi)
  | some j =>
    obtain ⟨hj0, hj4, h3, h4⟩ := hst_search_some ed ts j ⟨hinv.2.1, hinv.2.2.1⟩ hs
    have := hinv.2.2.2.1 i hi j.toNat (by omega) h2 h4 (h1.trans h3.symm)
    congr 1
    omega

/-- A packet whose timestamp is in no valid slot is recorded as a new,
pending event in slot `hst_next`. -/
theorem worker_new_event (be : Bool) (ed : catch_dtmf_edata) (rtdp : rtpp_timeout_data)
    (pkt : rtp_packet) (he : (dtmf_of be pkt).event ≤ 17)
    (hs : hst_search ed (event_ts be pkt) hst_counters = none) :
    rtpp_catch_dtmf_worker be ed rtdp pkt
      = ({ hst_set ed ed.hst_next
            ⟨1, dtmf_digit (dtmf_of be pkt).event, event_ts be pkt,
              ntohs be (dtmf_of be pkt).duration⟩ with
           hst_next := if ed.hst_next + 1 = 4 then 0 else ed.hst_next + 1 }, []) := by
  have he2 : ¬ (dtmf_of be pkt).event > sizeof_dtmf_events - 1 := by
    have : sizeof_dtmf_events = 18 := by decide
    omega
  unfold rtpp_catch_dtmf_worker
  simp only [he2, if_false, hs]
  simp [hst_set_hst_next, EINFO_HST_DPTH]

/-- A packet that matches a pending slot with the same digit: the slot takes
the larger duration; with the end bit set the slot is closed and one
notification is scheduled. -/
theorem worker_match (be : Bool) (ed : catch_dtmf_edata) (rtdp : rtpp_timeout_data)
    (pkt : rtp_packet) (j : Int) (he : (dtmf_of be pkt).event ≤ 17)
    (hs : hst_search ed (event_ts be pkt) hst_counters = some j)
    (hp : (hst_get ed j).pending ≠ 0)
    (hd : dtmf_digit (dtmf_of be pkt).event = (hst_get ed j).digit) :
    rtpp_catch_dtmf_worker be ed rtdp pkt
      = if (dtmf_of be pkt).end_bit = 0 then
          (hst_set ed j { hst_get ed j with
            duration := max (hst_get ed j).duration (ntohs be (dtmf_of be pkt).duration) }, [])
        else
          (hst_set (hst_set ed j { hst_get ed j with
              duration := max (hst_get ed j).duration (ntohs be (dtmf_of be pkt).duration) }) j
            { hst_get ed j with
              duration := max (hst_get ed j).duration (ntohs be (dtmf_of be pkt).duration),
              pending := 0 },
           [{ target := rtdp.notify_target,
              buf := notify_text rtdp.notify_tag (dtmf_digit (dtmf_of be pkt).event)
                (dtmf_of be pkt).volume
                (max (hst_get ed j).duration (ntohs be (dtmf_of be pkt).duration))
                (if ed.side = rtpp_stream_side.RTPP_SSIDE_CALLER then 0 else 1),
              ntype := notyfy_type }]) := by
  have he2 : ¬ (dtmf_of be pkt).event > sizeof_dtmf_events - 1 := by
    have : sizeof_dtmf_events = 18 := by decide
    omega
  have hmax : (if (hst_get ed j).duration < ntohs be (dtmf_of be pkt).duration then
        { hst_get ed j with duration := ntohs be (dtmf_of be pkt).duration }
      else hst_get ed j)
      = { hst_get ed j with
          duration := max (hst_get ed j).duration (ntohs be (dtmf_of be pkt).duration) } := by
    split
    · rw [max_eq_right (by omega)]
    · rw [max_eq_left (by omega)]
  unfold rtpp_catch_dtmf_worker
  simp only [he2, if_false, hs, hp, hd, ne_eq, not_true_eq_false, hmax]

theorem fmt_c_dtmf_digit (e : Nat) (he : e ≤ 16) :
    fmt_c (dtmf_digit e) = "0123456789*#ABCD ".toList.getD e ' ' := by
  interval_cases e <;> decide

theorem dtmf_digit_char (e : Nat) (he : e ≤ 16) :
    dtmf_digit e = (("0123456789*#ABCD ".toList.getD e ' ').toNat : Int) := by
  interval_cases e <;> decide

/-- The text of the notification for an event of the table: `%c` writes the
character of the event, which is not NUL, so the text is cut only by the
size of the buffer. -/
theorem notify_text_of_event (tag : CStr) (e v d : Nat) (he : e ≤ 16)
    (side : rtpp_stream_side) :
    notify_text tag (dtmf_digit e) v d
        (if side = rtpp_stream_side.RTPP_SSIDE_CALLER then 0 else 1)
      = (tag ++ [' ', "0123456789*#ABCD ".toList.getD e ' ', ' ']
          ++ (Nat.repr v).toList ++ [' '] ++ (Nat.repr d).toList
          ++ [' ', if side = rtpp_stream_side.RTPP_SSIDE_CALLER then '0' else '1']).take 511 := by
  have hnul : "0123456789*#ABCD ".toList.getD e ' ' ≠ Char.ofNat 0 := by
    interval_cases e <;> decide
  unfold notify_text
  rw [fmt_c_dtmf_digit e he, if_neg hnul]
  cases side <;> simp [RTPP_MAX_NOTIFY_BUF] <;> rfl

/-- C3 (amended): start, mid and end packet of one event on a fresh history
schedule exactly one notification, with the end packet, of type "DTMF"; its
text is "T digit v d3 side" cut to the 511 characters that fit the buffer. -/
theorem three_packets_one_notification (be : Bool) (side : rtpp_stream_side)
    (rtdp : rtpp_timeout_data) (ed : catch_dtmf_edata) (p1 p2 p3 : rtp_packet)
    (ts e v d1 d2 d3 : Nat)
    (hfresh : rtpp_catch_dtmf_edata_ctor true side = some ed) (he : e ≤ 16)
    (h1 : event_ts be p1 = ts ∧ (dtmf_of be p1).event = e ∧ (dtmf_of be p1).end_bit = 0
      ∧ ntohs be (dtmf_of be p1).duration = d1)
    (h2 : event_ts be p2 = ts ∧ (dtmf_of be p2).event = e ∧ (dtmf_of be p2).end_bit = 0
      ∧ ntohs be (dtmf_of be p2).duration = d2)
    (h3 : event_ts be p3 = ts ∧ (dtmf_of be p3).event = e ∧ (dtmf_of be p3).end_bit = 1
      ∧ ntohs be (dtmf_of be p3).duration = d3 ∧ (dtmf_of be p3).volume = v)
    (hd : d1 ≤ d2 ∧ d2 ≤ d3) :
    (worker_trace be rtdp ed [p1, p2, p3]).map (fun x => x.2)
      = [[], [],
          [{ target := rtdp.notify_target,
             buf := (rtdp.notify_tag ++ [' ', "0123456789*#ABCD ".toList.getD e ' ', ' ']
               ++ (Nat.repr v).toList ++ [' '] ++ (Nat.repr d3).toList
               ++ [' ', if side = rtpp_stream_side.RTPP_SSIDE_CALLER then '0' else '1']).take 511,
             ntype := "DTMF".toList }]] := by
  simp only [worker_trace, List.map]
  obtain ⟨hinv0, hall⟩ := hst_inv_fresh side ed hfresh
  have hnx : ed.hst_next = 0 ∧ ed.side = side := by
    simp only [rtpp_catch_dtmf_edata_ctor, if_true, Option.some.injEq] at hfresh
    subst hfresh
    exact ⟨rfl, rfl⟩
  obtain ⟨t1, e1, n1, hd1⟩ := h1
  obtain ⟨t2, e2, n2, hd2⟩ := h2
  obtain ⟨t3, e3, n3, hd3, hv3⟩ := h3
  -- the start packet is a new event
  have hs1 : hst_search ed (event_ts be p1) hst_counters = none :=
    hst_search_eq_none ed _ ⟨hinv0.2.1, hinv0.2.2.1⟩
      (fun i hi hm => hm.2 (hall i hi))
  have hr1 := worker_new_event be ed rtdp p1 (by omega) hs1
  have hinv1 := hst_inv_step be ed rtdp p1 hinv0
  have hslot1 : slot (rtpp_catch_dtmf_worker be ed rtdp p1).1 0 = ⟨1, dtmf_digit e, ts, d1⟩ := by
    rw [hr1, slot_new_event ed _ _ hinv0 0 (by omega), hnx.1, e1, t1, hd1]
    rfl
  have hside1 : (rtpp_catch_dtmf_worker be ed rtdp p1).1.side = side := by
    rw [hr1]; simp [hst_set_side, hnx.2]
  have hn1 : (rtpp_catch_dtmf_worker be ed rtdp p1).2 = [] := by rw [hr1]
  rw [hn1]
  generalize (rtpp_catch_dtmf_worker be ed rtdp p1).1 = s1 at hinv1 hslot1 hside1 ⊢
  -- the mid packet matches slot 0
  have hs2 : hst_search s1 (event_ts be p2) hst_counters = some ((0 : Nat) : Int) :=
    hst_search_eq_some s1 _ 0 hinv1 (by omega) (by rw [hslot1, t2])
      (by rw [hslot1]; exact dtmf_digit_ne_neg_one e)
  have hget1 : hst_get s1 ((0 : Nat) : Int) = ⟨1, dtmf_digit e, ts, d1⟩ := by
    rw [hst_get_eq_slot _ _ (by omega)]; exact hslot1
  have hr2 := worker_match be s1 rtdp p2 _ (by omega) hs2 (by rw [hget1]; simp)
    (by rw [hget1, e2])
  rw [n2, if_pos rfl, hget1, hd2] at hr2
  have hinv2 := hst_inv_step be s1 rtdp p2 hinv1
  have hslot2 : slot (rtpp_catch_dtmf_worker be s1 rtdp p2).1 0
      = ⟨1, dtmf_digit e, ts, max d1 d2⟩ := by
    rw [hr2, slot_hst_set]
    simp [hinv1.1]
  have hside2 : (rtpp_catch_dtmf_worker be s1 rtdp p2).1.side = side := by
    rw [hr2]; simp [hst_set_side, hside1]
  have hn2 : (rtpp_catch_dtmf_worker be s1 rtdp p2).2 = [] := by rw [hr2]
  rw [hn2]
  generalize (rtpp_catch_dtmf_worker be s1 rtdp p2).1 = s2 at hinv2 hslot2 hside2 ⊢
  -- the end packet matches slot 0 and closes it
  have hs3 : hst_search s2 (event_ts be p3) hst_counters = some ((0 : Nat) : Int) :=
    hst_search_eq_some s2 _ 0 hinv2 (by omega) (by rw [hslot2, t3])
      (by rw [hslot2]; exact dtmf_digit_ne_neg_one e)
  have hget2 : hst_get s2 ((0 : Nat) : Int) = ⟨1, dtmf_digit e, ts, max d1 d2⟩ := by
    rw [hst_get_eq_slot _ _ (by omega)]; exact hslot2
  have hr3 := worker_match be s2 rtdp p3 _ (by omega) hs3 (by rw [hget2]; simp)
    (by rw [hget2, e3])
  rw [n3, if_neg (by decide), hget2, hd3, e3, hv3, hside2] at hr3
  have hmax : max (max d1 d2) d3 = d3 := by
    rw [max_eq_right (by rw [max_eq_right hd.1]; exact hd.2)]
  have htext : notify_text rtdp.notify_tag (dtmf_digit e) v d3
      (if side = rtpp_stream_side.RTPP_SSIDE_CALLER then 0 else 1)
      = (rtdp.notify_tag ++ [' ', "0123456789*#ABCD ".toList.getD e ' ', ' ']
          ++ (Nat.repr v).toList ++ [' '] ++ (Nat.repr d3).toList
          ++ [' ', if side = rtpp_stream_side.RTPP_SSIDE_CALLER then '0' else '1']).take 511 :=
    notify_text_of_event rtdp.notify_tag e v d3 he side
  rw [hr3, hmax, htext]
  rfl

/-- Witness of C3 (amended): tag my-tag, event 5, volume 10, durations 160,
320 and 480 on the caller side give exactly "my-tag 5 10 480 0". -/
theorem three_packets_one_notification_witness :
    (worker_trace false ⟨1, "my-tag".toList⟩
        ⟨List.replicate 4 ⟨0, -1, 0, 0⟩, 0, rtpp_stream_side.RTPP_SSIDE_CALLER⟩
        [mk_dtmf_pkt 101 1000 5 0 10 160, mk_dtmf_pkt 101 1000 5 0 10 320,
          mk_dtmf_pkt 101 1000 5 1 10 480]).map (fun x => x.2)
      = [[], [], [{ target := 1, buf := "my-tag 5 10 480 0".toList, ntype := "DTMF".toList }]] :=
  (three_packets_one_notification false rtpp_stream_side.RTPP_SSIDE_CALLER
    ⟨1, "my-tag".toList⟩ _ (mk_dtmf_pkt 101 1000 5 0 10 160) (mk_dtmf_pkt 101 1000 5 0 10 320)
    (mk_dtmf_pkt 101 1000 5 1 10 480) 1000 5 10 160 320 480 (by decide) (by decide)
    (by decide) (by decide) (by decide) (by decide)).trans (by decide)

set_option maxRecDepth 100000 in
/-- C3 as stated fails for a long tag: with a tag of 512 characters the text
of the notification is the first 511 characters of the tag, not the tag
followed by " 5 10 480 0". -/
theorem long_tag_text_is_cut :
    (rtpp_catch_dtmf_edata_ctor true rtpp_stream_side.RTPP_SSIDE_CALLER).map
        (fun ed => (worker_trace false ⟨1, List.replicate 512 'a'⟩ ed
          [mk_dtmf_pkt 101 1000 5 0 10 160, mk_dtmf_pkt 101 1000 5 0 10 320,
            mk_dtmf_pkt 101 1000 5 1 10 480]).map (fun x => x.2.map (fun n => n.buf)))
        = some [[], [], [List.replicate 511 'a']]
      ∧ List.replicate 511 'a' ≠ List.replicate 512 'a' ++ " 5 10 480 0".toList := by
  decide

/-- C4 fails for the event byte 17: on a fresh history the packet is not
dropped but recorded in slot 0 as a pending event with the digit NUL, and
`hst_next` advances to 1. -/
theorem event_17_is_recorded :
    (rtpp_catch_dtmf_edata_ctor true rtpp_stream_side.RTPP_SSIDE_CALLER).map
        (fun ed => rtpp_catch_dtmf_worker false ed ⟨1, "my-tag".toList⟩
          (mk_dtmf_pkt 101 1000 17 0 10 160))
      = some (⟨[⟨1, 0, 1000, 160⟩, ⟨0, -1, 0, 0⟩, ⟨0, -1, 0, 0⟩, ⟨0, -1, 0, 0⟩], 1,
          rtpp_stream_side.RTPP_SSIDE_CALLER⟩, []) := by
  decide

/-- Every event byte above 17 is dropped: the history is unchanged and nothing
is scheduled. -/
theorem event_above_17_dropped (be : Bool) (ed : catch_dtmf_edata) (rtdp : rtpp_timeout_data)
    (pkt : rtp_packet) (he : 17 < (dtmf_of be pkt).event) :
    rtpp_catch_dtmf_worker be ed rtdp pkt = (ed, []) := by
  have he2 : (dtmf_of be pkt).event > sizeof_dtmf_events - 1 := by
    have : sizeof_dtmf_events = 18 := by decide
    omega
  unfold rtpp_catch_dtmf_worker
  simp only [he2, if_true]

/-- C5: for an event id e in 0..16 the digit is the e-th character of
"0123456789*#ABCD ": '0'..'9' for 0..9, '*' for 10, '#' for 11, 'A'..'D' for
12..15 and ' ' for 16; this is the digit a new event records in its slot and
the digit in the text of every notification the packet schedules. -/
theorem digit_of_event (be : Bool) (ed : catch_dtmf_edata) (rtdp : rtpp_timeout_data)
    (pkt : rtp_packet) (e : Nat) (he : (dtmf_of be pkt).event = e ∧ e ≤ 16)
    (hlen : ed.hst.length = 4) (hnext : 0 ≤ ed.hst_next ∧ ed.hst_next < 4) :
    "0123456789*#ABCD ".toList.getD e ' '
        = (if e < 10 then Char.ofNat (48 + e) else if e = 10 then '*' else if e = 11 then '#'
            else if e < 16 then Char.ofNat (65 + (e - 12)) else ' ')
      ∧ (hst_search ed (event_ts be pkt) hst_counters = none →
          (hst_get (rtpp_catch_dtmf_worker be ed rtdp pkt).1 ed.hst_next).digit
            = (("0123456789*#ABCD ".toList.getD e ' ').toNat : Int))
      ∧ (∀ n ∈ (rtpp_catch_dtmf_worker be ed rtdp pkt).2, ∃ d s,
          n.buf = (rtdp.notify_tag ++ [' ', "0123456789*#ABCD ".toList.getD e ' ', ' ']
            ++ (Nat.repr (dtmf_of be pkt).volume).toList ++ [' '] ++ (Nat.repr d).toList
            ++ [' ', s]).take 511) := by
  obtain ⟨hev, he16⟩ := he
  refine ⟨by interval_cases e <;> decide, ?_, ?_⟩
  · intro hs
    rw [worker_new_event be ed rtdp pkt (by omega) hs]
    have hget : hst_get (hst_set ed ed.hst_next
        ⟨1, dtmf_digit (dtmf_of be pkt).event, event_ts be pkt,
          ntohs be (dtmf_of be pkt).duration⟩) ed.hst_next
        = ⟨1, dtmf_digit (dtmf_of be pkt).event, event_ts be pkt,
          ntohs be (dtmf_of be pkt).duration⟩ :=
      hst_get_set_self ed _ _ ⟨hnext.1, by omega⟩
    show (hst_get (hst_set ed ed.hst_next _) ed.hst_next).digit = _
    rw [hget, hev]
    exact dtmf_digit_char e he16
  · intro n hn
    rcases worker_cases be ed rtdp pkt with hr | ⟨_, hr⟩ | ⟨j, x, _, _, _, _, hr⟩
      | ⟨j, x, m, hs, hp, _, _, hr⟩
    · rw [hr] at hn; simp at hn
    · rw [hr] at hn; simp at hn
    · rw [hr] at hn; simp at hn
    · by_cases hdg : dtmf_digit (dtmf_of be pkt).event = (hst_get ed j).digit
      · have hm := worker_match be ed rtdp pkt j (by omega) hs hp hdg
        by_cases hend : (dtmf_of be pkt).end_bit = 0
        · rw [hm, if_pos hend] at hn; simp at hn
        · rw [hm, if_neg hend] at hn
          simp only [List.mem_singleton] at hn
          subst hn
          refine ⟨max (hst_get ed j).duration (ntohs be (dtmf_of be pkt).duration),
            if ed.side = rtpp_stream_side.RTPP_SSIDE_CALLER then '0' else '1', ?_⟩
          show notify_text _ _ _ _ _ = _
          rw [hev]
          exact notify_text_of_event rtdp.notify_tag e _ _ he16 ed.side
      · exfalso
        have hdrop : rtpp_catch_dtmf_worker be ed rtdp pkt = (ed, []) := by
          unfold rtpp_catch_dtmf_worker
          simp only [hs, hp, hdg, if_false, ne_eq, not_false_eq_true, if_true]
          split <;> rfl
        rw [hdrop] at hn; simp at hn

/-- Witness of C5: the event id 11 is recorded and reported as '#'. -/
theorem digit_of_event_witness :
    "0123456789*#ABCD ".toList.getD 11 ' ' = '#'
      ∧ (rtpp_catch_dtmf_worker false
          ⟨[⟨1, 35, 1000, 160⟩, ⟨0, -1, 0, 0⟩, ⟨0, -1, 0, 0⟩, ⟨0, -1, 0, 0⟩], 1,
            rtpp_stream_side.RTPP_SSIDE_CALLEE⟩ ⟨1, "t".toList⟩
          (mk_dtmf_pkt 101 1000 11 1 10 480)).2.map (fun n => String.mk n.buf)
        = ["t # 10 480 1"]
      ∧ ∀ n ∈ (rtpp_catch_dtmf_worker false
          ⟨[⟨1, 35, 1000, 160⟩, ⟨0, -1, 0, 0⟩, ⟨0, -1, 0, 0⟩, ⟨0, -1, 0, 0⟩], 1,
            rtpp_stream_side.RTPP_SSIDE_CALLEE⟩ ⟨1, "t".toList⟩
          (mk_dtmf_pkt 101 1000 11 1 10 480)).2, ∃ d s,
          n.buf = ("t".toList ++ [' ', "0123456789*#ABCD ".toList.getD 11 ' ', ' ']
            ++ (Nat.repr (dtmf_of false (mk_dtmf_pkt 101 1000 11 1 10 480)).volume).toList
            ++ [' '] ++ (Nat.repr d).toList ++ [' ', s]).take 511 :=
  ⟨by decide, by decide,
    (digit_of_event false _ ⟨1, "t".toList⟩ (mk_dtmf_pkt 101 1000 11 1 10 480) 11
      ⟨by decide, by decide⟩ (by decide) ⟨by decide, by decide⟩).2.2⟩

/-! ## Theorems: the pipe and the reply -/

/-- C7: `get_ttl` of a pipe is the minimum of the remaining TTL of
`stream[0]` and of `stream[1]`. -/
theorem pipe_get_ttl_is_min (p : rtpp_pipe) :
    rtpp_pipe_get_ttl p
      = min (rtpp_ttl_get_remaining p.stream0.ttl) (rtpp_ttl_get_remaining p.stream1.ttl) := by
  unfold rtpp_pipe_get_ttl MIN
  simp only []
  rw [min_def]
  split <;> split <;> omega

/-- C8: after a successful `rtpp_pipe_ctor` each stream holds the id of the
other as its peer id, `stream[i]` was constructed with side `i`, and the
stream registry resolves the id of each stream to that stream. -/
theorem pipe_ctor_links_streams (env : pipe_ctor_env) (w w1 : rtpp_world) (seuid : Nat)
    (session_type : Int) (p : rtpp_pipe)
    (h : rtpp_pipe_ctor env w seuid session_type = (some p, w1)) :
    p.stream0.stuid_sendr = p.stream1.stuid ∧ p.stream1.stuid_sendr = p.stream0.stuid
      ∧ p.stream0.side = 0 ∧ p.stream1.side = 1
      ∧ rtpp_weakref_lookup w1.streams_wrt p.stream0.stuid = some p.stream0.rcnt
      ∧ rtpp_weakref_lookup w1.streams_wrt p.stream1.stuid = some p.stream1.rcnt := by
  obtain ⟨a, b, c, d, e, f, g, t⟩ := env
  cases a <;> cases b <;> cases c <;> cases d <;> cases e <;> cases f <;> cases g <;>
    simp [rtpp_pipe_ctor, pipe_ctor_pass, rtpp_stream_ctor, rtpp_weakref_reg, rtpp_gen_uid,
      pipe_ctor_e1] at h
  obtain ⟨rfl, rfl⟩ := h
  have hne : (w.next_uid + 1 == w.next_uid) = false := by simp
  simp [rtpp_weakref_lookup, List.find?, hne]

/-- Witness of C8: the constructor with every step succeeding, on a state
whose id counter stands at 7: the pipe takes id 7 and its streams ids 8 and
9. -/
theorem pipe_ctor_links_streams_witness :
    rtpp_pipe_ctor ex_pipe_env ⟨7, 3, [], [], []⟩ 5 1
        = (some ex_pipe, ⟨10, 5, [(9, 4), (8, 3)], [], []⟩)
      ∧ (ex_pipe.stream0.stuid_sendr = ex_pipe.stream1.stuid
        ∧ ex_pipe.stream1.stuid_sendr = ex_pipe.stream0.stuid
        ∧ ex_pipe.stream0.side = 0 ∧ ex_pipe.stream1.side = 1
        ∧ rtpp_weakref_lookup [(9, 4), (8, 3)] ex_pipe.stream0.stuid = some ex_pipe.stream0.rcnt
        ∧ rtpp_weakref_lookup [(9, 4), (8, 3)] ex_pipe.stream1.stuid
            = some ex_pipe.stream1.rcnt) :=
  ⟨by decide,
    pipe_ctor_links_streams ex_pipe_env ⟨7, 3, [], [], []⟩ ⟨10, 5, [(9, 4), (8, 3)], [], []⟩ 5 1
      ex_pipe (by decide)⟩

/-- C10 (amended): when the reply text with its newline and terminator fits
`cmd->buf_t`, `ul_reply_port` writes exactly the port, the address part, the
subcommand part and one newline, and does not mark the reply as an error;
with no record it writes "0" and a newline and marks the reply as an error. -/
theorem ul_reply_port_text (addr2char_r : sockaddr → CStr) (sizeof_buf_t : Nat) (r : ul_reply)
    (hfit : (ul_reply_text_spec addr2char_r r).length + 2 ≤ sizeof_buf_t)
    (h3 : 3 ≤ sizeof_buf_t) :
    ul_reply_port addr2char_r sizeof_buf_t (some r)
        = some (ul_reply_text_spec addr2char_r r ++ ['\n'], 0)
      ∧ ul_reply_port addr2char_r sizeof_buf_t none = some ("0\n".toList, 1) := by
  have hhead : ul_reply_text_spec addr2char_r r
      = ul_reply_head addr2char_r (some r)
        ++ (if r.subc_res ≠ 0 then " && ".toList ++ fmt_d r.subc_res else []) := by
    obtain ⟨ia, ov, port, sub⟩ := r
    cases ia with
    | none => simp [ul_reply_text_spec, ul_reply_head]
    | some ia =>
      by_cases hn : ishostnull ia = true
      · simp [ul_reply_text_spec, ul_reply_head, hn]
      · by_cases hf : ia.sa_family = AF_INET <;> cases ov <;>
          simp [ul_reply_text_spec, ul_reply_head, hn, hf]
  constructor
  · rw [hhead] at hfit ⊢
    unfold ul_reply_port
    simp only []
    generalize ul_reply_head addr2char_r (some r) = head at hfit ⊢
    by_cases hs : r.subc_res = 0
    · simp only [hs, ne_eq, not_true_eq_false, if_false, List.append_nil] at hfit ⊢
      have h1 : head.length + 1 < sizeof_buf_t := by omega
      have h2 : head.length ≤ sizeof_buf_t - 1 := by omega
      simp [h1, List.take_of_length_le h2]
    · simp only [hs, ne_eq, not_false_eq_true, if_true, List.length_append] at hfit ⊢
      have h1 : head.length < sizeof_buf_t := by omega
      have h2 : head.length ≤ sizeof_buf_t - 1 := by omega
      have h4 : (" && ".toList ++ fmt_d r.subc_res).length ≤ sizeof_buf_t - head.length - 1 := by
        simp only [List.length_append]; omega
      have h5 : head.length + (" && ".toList ++ fmt_d r.subc_res).length + 1 < sizeof_buf_t := by
        simp only [List.length_append]; omega
      simp only [h1, if_true, List.take_of_length_le h2, List.take_of_length_le h4, h5]
      rw [List.take_of_length_le (by simp only [List.length_append]; omega)]
      have h6 : " && ".toList.length = 4 := by decide
      simp
      omega
  · have h0 : ul_reply_head addr2char_r none = ['0'] := by
      show fmt_d 0 = ['0']
      decide
    unfold ul_reply_port
    simp only [h0]
    have : (1 : Nat) + 1 < sizeof_buf_t := by omega
    simp only [List.length_singleton, this, if_true, Option.isSome_none]
    rw [List.take_of_length_le (l := ['0']) (i := sizeof_buf_t - 1)
      (by simp only [List.length_singleton]; omega)]
    rfl

/-- Witness of C10 (amended): port 12000 with an advertised IPv6 address and
the subcommand result 3 in a buffer of 256 bytes. -/
theorem ul_reply_port_text_witness :
    ul_reply_port (fun _ => "192.0.2.1".toList) 256
        (some ⟨some ⟨AF_INET6, [32, 1, 13, 184, 0, 0, 0, 0, 0, 0, 0, 0, 0, 0, 0, 1], 0⟩,
          some "2001:db8::1".toList, 12000, 3⟩)
      = some ("12000 2001:db8::1 6 && 3\n".toList, 0) :=
  (ul_reply_port_text (fun _ => "192.0.2.1".toList) 256
    ⟨some ⟨AF_INET6, [32, 1, 13, 184, 0, 0, 0, 0, 0, 0, 0, 0, 0, 0, 0, 1], 0⟩,
      some "2001:db8::1".toList, 12000, 3⟩ (by decide) (by decide)).1.trans (by decide)

set_option maxRecDepth 100000 in
/-- C10 as stated fails for a record whose text does not fit the buffer: with
a buffer of 256 bytes and an advertised address of 300 characters the first
`snprintf` stores 255 characters and returns 306, and the newline is written
outside the buffer. -/
theorem ul_reply_port_overflow :
    ul_reply_port (fun _ => "192.0.2.1".toList) 256
        (some ⟨some ⟨AF_INET, [192, 0, 2, 1], 0⟩, some (List.replicate 300 'a'), 12000, 0⟩)
      = none := by
  decide

/-! ## Theorems: the U/L command handler -/

@[simp] theorem pipe_upd_stream0 (p : rtpp_pipe) (i : Int) (f : rtpp_stream → rtpp_stream) :
    (pipe_upd p i f).stream0 = if i = 0 then f p.stream0 else p.stream0 := by
  unfold pipe_upd pipe_with_stream pipe_stream
  split <;> rfl

@[simp] theorem pipe_upd_stream1 (p : rtpp_pipe) (i : Int) (f : rtpp_stream → rtpp_stream) :
    (pipe_upd p i f).stream1 = if i = 0 then p.stream1 else f p.stream1 := by
  unfold pipe_upd pipe_with_stream pipe_stream
  split <;> rfl

theorem ul_frame_refl (pidx : Int) (s : rtpp_session) : ul_frame pidx s s :=
  ⟨rfl, rfl, fun _ => rfl⟩

theorem ul_frame_trans (pidx : Int) (s t u : rtpp_session) (h1 : ul_frame pidx s t)
    (h2 : ul_frame pidx t u) : ul_frame pidx s u :=
  ⟨h2.1.trans h1.1, h2.2.1.trans h1.2.1, fun h => (h2.2.2 h).trans (h1.2.2 h)⟩

theorem ul_tail_timeout_frame (cfsp : rtpp_cfg) (env : ul_env) (cmd : rtpp_command)
    (ulop : ul_opts) (pidx : Int) (spa : rtpp_session) :
    ul_frame pidx spa (ul_tail_timeout cfsp env cmd ulop spa) := by
  unfold ul_tail_timeout
  repeat' split
  all_goals exact ⟨rfl, rfl, fun _ => rfl⟩

theorem ul_tail_prefill_frame (ulop : ul_opts) (pidx : Int) (spa : rtpp_session) :
    ul_frame pidx spa (ul_tail_prefill ulop pidx spa) := by
  unfold ul_tail_prefill
  split
  · refine ⟨rfl, ?_, fun h => ?_⟩
    · simp only [pipe_upd_stream1]; split <;> rfl
    · simp only [pipe_upd_stream0, if_neg h]
  · exact ul_frame_refl _ _

theorem ul_tail_onhold_frame (ulop : ul_opts) (pidx : Int) (spa : rtpp_session) :
    ul_frame pidx spa (ul_tail_onhold ulop pidx spa) := by
  unfold ul_tail_onhold
  split
  · refine ⟨rfl, ?_, fun h => ?_⟩
    · simp only [pipe_upd_stream1]; split <;> rfl
    · simp only [pipe_upd_stream0, if_neg h]
  · exact ul_frame_refl _ _

theorem ul_tail_asym_frame (ulop : ul_opts) (pidx : Int) (spa : rtpp_session) :
    ul_frame pidx spa (ul_tail_asym ulop pidx spa) := by
  unfold ul_tail_asym
  refine ⟨rfl, ?_, fun h => ?_⟩
  · simp only [pipe_upd_stream1]; split <;> rfl
  · simp only [pipe_upd_stream0, if_neg h]

theorem ul_tail_codecs_frame (ulop : ul_opts) (pidx : Int) (spa : rtpp_session) :
    ul_frame pidx spa (ul_tail_codecs ulop pidx spa) := by
  unfold ul_tail_codecs
  refine ⟨rfl, ?_, fun h => ?_⟩
  · simp only [pipe_upd_stream1]; split <;> rfl
  · simp only [pipe_upd_stream0, if_neg h]

theorem ul_tail_ptime_frame (env : ul_env) (ulop : ul_opts) (pidx : Int)
    (spa : rtpp_session) : ul_frame pidx spa (ul_tail_ptime env ulop pidx spa) := by
  unfold ul_tail_ptime
  refine ⟨rfl, ?_, fun h => ?_⟩
  · simp only [pipe_upd_stream1]; split <;> split <;> rfl
  · simp only [pipe_upd_stream0, if_neg h]; split <;> rfl

/-- The common tail keeps the complete flag, the callee's socket and, when it
works on the callee's side, the caller's remote address. -/
theorem ul_tail_session_frame (cfsp : rtpp_cfg) (env : ul_env) (cmd : rtpp_command)
    (ulop : ul_opts) (c : ul_ctx) :
    ul_frame c.pidx c.spa (ul_tail_session cfsp env cmd ulop c) := by
  unfold ul_tail_session
  exact ul_frame_trans _ _ _ _ (ul_tail_timeout_frame cfsp env cmd ulop c.pidx c.spa)
    (ul_frame_trans _ _ _ _ (ul_tail_prefill_frame ulop c.pidx _)
      (ul_frame_trans _ _ _ _ (ul_tail_onhold_frame ulop c.pidx _)
        (ul_frame_trans _ _ _ _ (ul_tail_asym_frame ulop c.pidx _)
          (ul_frame_trans _ _ _ _ (ul_tail_codecs_frame ulop c.pidx _)
            (ul_tail_ptime_frame env ulop c.pidx _)))))

theorem ul_existing_flags_frame (cmd : rtpp_command) (sidx : Int) (ulop : ul_opts)
    (spa : rtpp_session) :
    (ul_existing_flags cmd sidx ulop spa).complete = spa.complete
      ∧ (ul_existing_flags cmd sidx ulop spa).rtp.stream1.skt = spa.rtp.stream1.skt
      ∧ (ul_existing_flags cmd sidx ulop spa).rtp.stream0.rem_addr
          = spa.rtp.stream0.rem_addr := by
  by_cases hw : ulop.weak = 0 <;> by_cases hop : cmd.op = rtpp_cmd_op.UPDATE <;>
    by_cases hs : sidx = 0 <;>
    simp [ul_existing_flags, pipe_upd_both, hw, hop, hs]

/-- The first block either marks the session complete or, finding a socket on
the side and no request for a new port, leaves the session as it is; a
failed allocation changes at most the local address. -/
theorem ul_existing_alloc_cases (cfsp : rtpp_cfg) (env : ul_env) (cmd : rtpp_command)
    (sidx : Int) (ulop : ul_opts) (spa : rtpp_session) :
    (∃ spa1, ul_existing_alloc cfsp env cmd sidx ulop spa = Except.error spa1
        ∧ spa1.complete = spa.complete ∧ spa1.rtp.stream1.skt = spa.rtp.stream1.skt
        ∧ spa1.rtp.stream0.rem_addr = spa.rtp.stream0.rem_addr)
    ∨ (∃ spa5 n k, ul_existing_alloc cfsp env cmd sidx ulop spa = Except.ok (spa5, n, k)
        ∧ spa5.complete = 1)
    ∨ (∃ n k, ul_existing_alloc cfsp env cmd sidx ulop spa = Except.ok (spa, n, k)
        ∧ (pipe_stream spa.rtp sidx).skt ≠ none) := by
  by_cases h : (pipe_stream spa.rtp sidx).skt = none ∨ ulop.new_port ≠ 0
  · cases hl : env.listener with
    | none =>
      left
      unfold ul_existing_alloc
      rw [if_pos h]
      simp only [hl]
      refine ⟨_, rfl, ?_⟩
      by_cases hla : ulop.local_addr = none <;> by_cases hs : sidx = 0 <;> simp [hla, hs]
    | some l =>
      obtain ⟨lport, fd0, fd1⟩ := l
      right; left
      unfold ul_existing_alloc
      rw [if_pos h]
      simp only [hl]
      exact ⟨_, _, _, rfl, rfl⟩
  · right; right
    refine ⟨cmd.nsess_complete, 0, ?_, fun hn => h (Or.inl hn)⟩
    unfold ul_existing_alloc
    rw [if_neg h]

theorem pipe_ctor_fresh (env : pipe_ctor_env) (w w1 : rtpp_world) (seuid : Nat)
    (session_type : Int) (p : rtpp_pipe)
    (h : rtpp_pipe_ctor env w seuid session_type = (some p, w1)) :
    p.stream0.rem_addr = none ∧ p.stream1.rem_addr = none ∧ p.stream0.skt = none
      ∧ p.stream1.skt = none := by
  obtain ⟨a, b, c, d, e, f, g, t⟩ := env
  cases a <;> cases b <;> cases c <;> cases d <;> cases e <;> cases f <;> cases g <;>
    simp [rtpp_pipe_ctor, pipe_ctor_pass, rtpp_stream_ctor, rtpp_weakref_reg, rtpp_gen_uid,
      pipe_ctor_e1] at h
  obtain ⟨rfl, rfl⟩ := h
  exact ⟨rfl, rfl, rfl, rfl⟩

/-- A new session has no socket on the callee's RTP stream, no remote address
on the caller's, and is not complete. -/
theorem session_ctor_fresh (env : ul_env) (w w1 : rtpp_world) (call_id : CStr)
    (lia0 lia1 : Option sockaddr) (weak lport : Int) (fd0 fd1 : Nat) (s : rtpp_session)
    (h : rtpp_session_ctor env w call_id lia0 lia1 weak lport fd0 fd1 = (some s, w1)) :
    s.rtp.stream1.skt = none ∧ s.rtp.stream0.rem_addr = none ∧ s.complete = 0 := by
  unfold rtpp_session_ctor at h
  split at h
  · simp at h
  · simp only [] at h
    split at h
    · simp at h
    · rename_i rtp w2 hrtp
      split at h
      · simp at h
      · rename_i rtcp w3 hrtcp
        obtain ⟨h1, h2, h3, h4⟩ := pipe_ctor_fresh _ _ _ _ _ _ hrtp
        simp only [Prod.mk.injEq, Option.some.injEq] at h
        obtain ⟨rfl, -⟩ := h
        simp [sessinfo_install, h1, h4]

/-- The branch for a new session hands the tail a session with no socket on
the callee's RTP stream and no remote address on the caller's, to work on
side 1. -/
theorem ul_handle_new_ok (cfsp : rtpp_cfg) (env : ul_env) (cmd : rtpp_command)
    (w : rtpp_world) (ulop : ul_opts) (c : ul_ctx)
    (h : ul_handle_new cfsp env cmd w ulop = Except.ok c) :
    c.pidx = 1 ∧ c.spa.rtp.stream1.skt = none ∧ c.spa.rtp.stream0.rem_addr = none := by
  unfold ul_handle_new at h
  simp only [] at h
  split at h
  · simp at h
  · split at h
    · simp at h
    · split at h
      · simp at h
      · split at h
        · simp at h
        · rename_i hctor
          split at h
          · simp at h
          · split at h
            · simp at h
            · simp only [Except.ok.injEq] at h
              subst h
              obtain ⟨h1, h2, -⟩ := session_ctor_fresh _ _ _ _ _ _ _ _ _ _ _ hctor
              exact ⟨rfl, h1, h2⟩

theorem ul_handle_new_error (cfsp : rtpp_cfg) (env : ul_env) (cmd : rtpp_command)
    (w : rtpp_world) (ulop : ul_opts) (out : ul_outcome)
    (h : ul_handle_new cfsp env cmd w ulop = Except.error out) : out.sp = cmd.sp := by
  unfold ul_handle_new at h
  simp only [] at h
  repeat' split at h
  all_goals first
    | (simp only [Except.error.injEq] at h; subst h; rfl)
    | simp at h

theorem ul_handle_tail_sp (cfsp : rtpp_cfg) (env : ul_env) (cmd : rtpp_command)
    (ulop : ul_opts) (c : ul_ctx) (out : ul_outcome)
    (h : ul_handle_tail cfsp env cmd ulop c = some out) :
    out.sp = some (ul_tail_session cfsp env cmd ulop c) := by
  unfold ul_handle_tail at h
  split at h
  · simp at h
  · simp only [Option.some.injEq] at h
    subst h
    rfl

/-- The session a command creates satisfies the invariant. -/
theorem ul_inv_created (cfsp : rtpp_cfg) (env : ul_env) (cmd : rtpp_command)
    (w : rtpp_world) (ulop : ul_opts) (out : ul_outcome) (s : rtpp_session)
    (hsp : cmd.sp = none)
    (h : rtpp_command_ul_handle cfsp env cmd w (-1) ulop = some out) (hs : out.sp = some s) :
    ul_inv s := by
  unfold rtpp_command_ul_handle at h
  split at h
  · simp only [Option.some.injEq] at h
    subst h
    simp [ul_fail, hsp] at hs
  · simp only [ne_eq, not_true_eq_false, if_false] at h
    cases hn : ul_handle_new cfsp env cmd w ulop with
    | error o =>
      rw [hn] at h
      simp only [Option.some.injEq] at h
      subst h
      rw [ul_handle_new_error _ _ _ _ _ _ hn, hsp] at hs
      simp at hs
    | ok c =>
      rw [hn] at h
      simp only [] at h
      rw [ul_handle_tail_sp _ _ _ _ _ _ h] at hs
      simp only [Option.some.injEq] at hs
      subst hs
      obtain ⟨hp, h1, h2⟩ := ul_handle_new_ok _ _ _ _ _ _ hn
      obtain ⟨-, f2, f3⟩ := ul_tail_session_frame cfsp env cmd ulop c
      intro hor
      rw [f2, f3 (by rw [hp]; decide), h1, h2] at hor
      simp at hor

/-- A command on a side of a session keeps the invariant. -/
theorem ul_inv_step (cfsp : rtpp_cfg) (env : ul_env) (cmd : rtpp_command)
    (w : rtpp_world) (sidx : Int) (ulop : ul_opts) (out : ul_outcome) (s0 s : rtpp_session)
    (hinv : ul_inv s0) (hsp : cmd.sp = some s0) (hsidx : sidx ≠ -1)
    (h : rtpp_command_ul_handle cfsp env cmd w sidx ulop = some out) (hs : out.sp = some s) :
    ul_inv s := by
  unfold rtpp_command_ul_handle at h
  split at h
  · simp only [Option.some.injEq] at h
    subst h
    simp only [ul_fail, hsp, Option.some.injEq] at hs
    subst hs
    exact hinv
  · simp only [ne_eq, hsidx, not_false_eq_true, if_true, hsp] at h
    by_cases h01 : sidx = 0 ∨ sidx = 1
    · simp only [h01, if_true] at h
      unfold ul_handle_existing at h
      rcases ul_existing_alloc_cases cfsp env cmd sidx ulop s0 with
        ⟨spa1, he, e1, e2, e3⟩ | ⟨spa5, n, k, he, hc⟩ | ⟨n, k, he, hskt⟩
      · rw [he] at h
        simp only [Option.some.injEq] at h
        subst h
        simp only [ul_fail, Option.some.injEq] at hs
        subst hs
        intro hor
        rw [e1]
        rw [e2, e3] at hor
        exact hinv hor
      · rw [he] at h
        simp only [] at h
        rw [ul_handle_tail_sp _ _ _ _ _ _ h] at hs
        simp only [Option.some.injEq] at hs
        subst hs
        intro _
        rw [(ul_tail_session_frame cfsp env cmd ulop _).1]
        simp only []
        rw [(ul_existing_flags_frame cmd sidx ulop spa5).1]
        exact hc
      · rw [he] at h
        simp only [] at h
        rw [ul_handle_tail_sp _ _ _ _ _ _ h] at hs
        simp only [Option.some.injEq] at hs
        subst hs
        obtain ⟨f1, f2, f3⟩ := ul_tail_session_frame cfsp env cmd ulop
          { spa := ul_existing_flags cmd sidx ulop s0,
            lport := (pipe_stream (ul_existing_flags cmd sidx ulop s0).rtp sidx).port,
            pidx := if sidx = 0 then 1 else 0,
            lia0 := (pipe_stream (ul_existing_flags cmd sidx ulop s0).rtp sidx).laddr,
            nsess_complete := n, nsess_created := cmd.nsess_created, world := w,
            listener_calls := k }
        obtain ⟨g1, g2, g3⟩ := ul_existing_flags_frame cmd sidx ulop s0
        simp only [] at f1 f2 f3
        intro hor
        rw [f1, g1]
        rcases h01 with h0 | h1
        · subst h0
          rw [f2, f3 (by decide), g2, g3] at hor
          exact hinv hor
        · subst h1
          have : s0.rtp.stream1.skt ≠ none := by
            simpa [pipe_stream] using hskt
          exact hinv (Or.inl this)
    · simp [h01] at h

/-- Every reachable session satisfies the invariant. -/
theorem ul_inv_reachable (s : rtpp_session) (h : ul_reachable s) : ul_inv s := by
  induction h with
  | created cfsp env cmd w ulop out s hsp hh hs => exact ul_inv_created cfsp env cmd w ulop out s hsp hh hs
  | step cfsp env cmd w sidx ulop out s0 s _ hsp hsidx hh hs ih =>
    exact ul_inv_step cfsp env cmd w sidx ulop out s0 s ih hsp hsidx hh hs

/-- C9 (amended): in every session state reachable through U/L command
handling, if both sides of the RTP pipe have a remote address then the
complete flag is set. -/
theorem complete_of_remote_addrs (s : rtpp_session) (h : ul_reachable s)
    (hr : s.rtp.stream0.rem_addr ≠ none ∧ s.rtp.stream1.rem_addr ≠ none) :
    s.complete = 1 :=
  ul_inv_reachable s h (Or.inr hr.1)

/-- The sessions of the scenario are reachable. -/
theorem ex_run_reachable (u1 u2 : ul_opts) (s : rtpp_session) (h : ex_run u1 u2 = some s) :
    ul_reachable s := by
  unfold ex_run at h
  split at h
  · simp at h
  · rename_i o1 h1
    split at h
    · simp at h
    · rename_i s0 hs0
      split at h
      · simp at h
      · rename_i o2 h2
        exact ul_reachable.step ex_cfg ex_env_l (ex_cmd_l o1) o1.world 1 u2 o2 s0 s
          (ul_reachable.created ex_cfg ex_env ex_cmd_u ex_world u1 o1 s0 rfl h1 hs0)
          hs0 (by decide) h2 h

/-- Witness of C9 (amended): after an update towards 192.0.2.10 and a lookup
towards 198.51.100.7 both sides have a remote address and the session is
complete. -/
theorem complete_of_remote_addrs_witness :
    ul_reachable ex_session_both
      ∧ (ex_session_both.rtp.stream0.rem_addr ≠ none
          ∧ ex_session_both.rtp.stream1.rem_addr ≠ none)
      ∧ ex_session_both.complete = 1 :=
  ⟨ex_run_reachable _ _ _ (Option.some_get _).symm, by decide,
    complete_of_remote_addrs ex_session_both
      (ex_run_reachable _ _ _ (Option.some_get _).symm) (by decide)⟩

/-- C9 as stated fails: after an update and a lookup that carry no remote
address the session is complete, yet neither side of its RTP pipe has a
remote address. -/
theorem complete_without_remote_addr :
    ul_reachable ex_session_bare ∧ ex_session_bare.complete = 1
      ∧ ex_session_bare.rtp.stream0.rem_addr = none
      ∧ ex_session_bare.rtp.stream1.rem_addr = none :=
  ⟨ex_run_reachable _ _ _ (Option.some_get _).symm, by decide, by decide, by decide⟩

/-! ## Theorems: rejected and repeated commands -/

/-- The text `ul_reply_port` hands over is the reply text of the
specification and a newline, without the error mark. -/
theorem ul_reply_port_some (addr2char_r : sockaddr → CStr) (sizeof_buf_t : Nat) (r : ul_reply)
    (buf : CStr) (errd : Int)
    (h : ul_reply_port addr2char_r sizeof_buf_t (some r) = some (buf, errd)) :
    buf = ul_reply_text_spec addr2char_r r ++ ['\n'] ∧ errd = 0 := by
  have hhead : ul_reply_text_spec addr2char_r r
      = ul_reply_head addr2char_r (some r)
        ++ (if r.subc_res ≠ 0 then " && ".toList ++ fmt_d r.subc_res else []) := by
    obtain ⟨ia, ov, port, sub⟩ := r
    cases ia with
    | none => simp [ul_reply_text_spec, ul_reply_head]
    | some ia =>
      by_cases hn : ishostnull ia = true
      · simp [ul_reply_text_spec, ul_reply_head, hn]
      · by_cases hf : ia.sa_family = AF_INET <;> cases ov <;>
          simp [ul_reply_text_spec, ul_reply_head, hn, hf]
  rw [hhead]
  unfold ul_reply_port at h
  simp only [] at h
  generalize ul_reply_head addr2char_r (some r) = head at h ⊢
  by_cases hs : r.subc_res = 0
  · simp only [hs, ne_eq, not_true_eq_false, if_false, List.append_nil] at h ⊢
    by_cases h1 : head.length + 1 < sizeof_buf_t
    · simp only [h1, if_true, Option.some.injEq, Prod.mk.injEq, Option.isSome_some] at h
      have h2 : head.length ≤ sizeof_buf_t - 1 := by omega
      rw [List.take_of_length_le h2, List.take_of_length_le (le_refl _)] at h
      exact ⟨h.1.symm, h.2.symm⟩
    · simp [h1] at h
  · simp only [hs, ne_eq, not_false_eq_true, if_true] at h ⊢
    by_cases h1 : head.length < sizeof_buf_t
    · simp only [h1, if_true] at h
      by_cases h5 : head.length + (" && ".toList ++ fmt_d r.subc_res).length + 1 < sizeof_buf_t
      · simp only [h5, if_true, Option.some.injEq, Prod.mk.injEq, Option.isSome_some] at h
        have h2 : head.length ≤ sizeof_buf_t - 1 := by omega
        have h4 : (" && ".toList ++ fmt_d r.subc_res).length
            ≤ sizeof_buf_t - head.length - 1 := by omega
        rw [List.take_of_length_le h2, List.take_of_length_le h4,
          List.take_of_length_le (by simp only [List.length_append]; omega)] at h
        exact ⟨h.1.symm, h.2.symm⟩
      · simp only [h5, if_false] at h
        cases h
    · simp [h1] at h

/-- C16 (amended): an UPDATE that matches no session and passes the check of
its notify socket is rejected with the slow-shutdown code when the process
is in slow-shutdown, and else with the configured overload code when one is
configured and the overload check reports overload; the handler returns -1,
calls no listener allocation, leaves the registries and the call-id table
as they are, creates no session and leaves `nsess_created` unchanged. -/
theorem ul_new_session_rejected (cfsp : rtpp_cfg) (env : ul_env) (cmd : rtpp_command)
    (w : rtpp_world) (ulop : ul_opts)
    (hns : cmd.op = rtpp_cmd_op.UPDATE →
      cfsp.tnset_enabled = true ∨ ulop.notify_socket = none)
    (hrej : cfsp.slowshutdown ≠ 0 ∨ (cfsp.overload_ecode ≠ 0 ∧ cfsp.chk_overload ≠ 0)) :
    ∃ out, rtpp_command_ul_handle cfsp env cmd w (-1) ulop = some out
      ∧ out.reply = cmd_reply.error
          (if cfsp.slowshutdown ≠ 0 then ecode.ECODE_SLOWSHTDN
            else ecode.raw cfsp.overload_ecode)
      ∧ out.ret = -1 ∧ out.listener_calls = 0 ∧ out.world = w ∧ out.sp = cmd.sp
      ∧ out.nsess_created = cmd.nsess_created := by
  have hg : ¬ (cmd.op = rtpp_cmd_op.UPDATE ∧ cfsp.tnset_enabled = false
      ∧ ulop.notify_socket ≠ none) := by
    rintro ⟨h0, h1, h2⟩
    rcases hns h0 with h | h
    · rw [h] at h1; exact Bool.noConfusion h1
    · exact h2 h
  unfold rtpp_command_ul_handle
  rw [if_neg hg]
  simp only [ne_eq, not_true_eq_false, if_false]
  unfold ul_handle_new
  by_cases hsl : cfsp.slowshutdown = 0
  · have hov : cfsp.overload_ecode ≠ 0 ∧ cfsp.chk_overload ≠ 0 := by
      rcases hrej with h | h
      · exact absurd hsl h
      · exact h
    simp only [hsl, ne_eq, not_true_eq_false, if_false, hov, not_false_eq_true, and_self, if_true]
    exact ⟨_, rfl, rfl, rfl, rfl, rfl, rfl, rfl⟩
  · simp only [ne_eq, hsl, not_false_eq_true, if_true]
    exact ⟨_, rfl, rfl, rfl, rfl, rfl, rfl, rfl⟩

/-- Witness of C16 (amended): a process in slow-shutdown with notifications
enabled rejects the update of the scenario. -/
theorem ul_new_session_rejected_witness :
    ∃ out, rtpp_command_ul_handle { ex_cfg with slowshutdown := 1 } ex_env ex_cmd_u ex_world (-1)
          ex_ulop = some out
      ∧ out.reply = cmd_reply.error ecode.ECODE_SLOWSHTDN
      ∧ out.ret = -1 ∧ out.listener_calls = 0 ∧ out.world = ex_world ∧ out.sp = none
      ∧ out.nsess_created = 0 :=
  ul_new_session_rejected { ex_cfg with slowshutdown := 1 } ex_env ex_cmd_u ex_world ex_ulop
    (fun _ => Or.inl rfl) (Or.inl (by decide))

/-- C16 as stated fails: in slow-shutdown, an update that names a notify
socket while notifications are disabled is rejected with the code for the
disabled notifications, not with the slow-shutdown code. -/
theorem ul_new_session_nsoff_first :
    (rtpp_command_ul_handle ex_cfg_shutdown ex_env ex_cmd_u ex_world (-1) ex_ulop_notify).map
        (fun o => (o.ret, o.reply))
      = some (-1, cmd_reply.error ecode.ECODE_NSOFF) := by
  decide

theorem stream_keeps_refl (x : rtpp_stream) : stream_keeps x x := ⟨rfl, rfl, rfl⟩

theorem stream_keeps_trans (x y z : rtpp_stream) (h1 : stream_keeps x y)
    (h2 : stream_keeps y z) : stream_keeps x z :=
  ⟨h2.1.trans h1.1, h2.2.1.trans h1.2.1, h2.2.2.trans h1.2.2⟩

theorem pipe_upd_keeps (p : rtpp_pipe) (j i : Int) (f : rtpp_stream → rtpp_stream)
    (hf : ∀ s, stream_keeps s (f s)) :
    stream_keeps (pipe_stream p i) (pipe_stream (pipe_upd p j f) i) := by
  unfold pipe_stream
  by_cases hi : i = 0 <;> by_cases hj : j = 0 <;>
    simp only [hi, hj, if_true, if_false, pipe_upd_stream0, pipe_upd_stream1]
  all_goals first
    | exact hf _
    | exact stream_keeps_refl _

theorem ul_keeps_refl (s : rtpp_session) : ul_keeps s s :=
  fun _ => ⟨stream_keeps_refl _, stream_keeps_refl _⟩

theorem ul_keeps_trans (s t u : rtpp_session) (h1 : ul_keeps s t) (h2 : ul_keeps t u) :
    ul_keeps s u := fun i =>
  ⟨stream_keeps_trans _ _ _ (h1 i).1 (h2 i).1, stream_keeps_trans _ _ _ (h1 i).2 (h2 i).2⟩

/-- An update of side `j` of the RTP pipe and of side `k` of the RTCP pipe
that keeps socket, port and local address of the stream. -/
theorem ul_keeps_upd (s : rtpp_session) (j k : Int) (f g : rtpp_stream → rtpp_stream)
    (hf : ∀ x, stream_keeps x (f x)) (hg : ∀ x, stream_keeps x (g x)) :
    ul_keeps s { s with rtp := pipe_upd s.rtp j f, rtcp := pipe_upd s.rtcp k g } :=
  fun i => ⟨pipe_upd_keeps s.rtp j i f hf, pipe_upd_keeps s.rtcp k i g hg⟩

theorem ul_keeps_upd_rtp (s : rtpp_session) (j : Int) (f : rtpp_stream → rtpp_stream)
    (hf : ∀ x, stream_keeps x (f x)) : ul_keeps s { s with rtp := pipe_upd s.rtp j f } :=
  fun i => ⟨pipe_upd_keeps s.rtp j i f hf, stream_keeps_refl _⟩

theorem ul_tail_timeout_keeps (cfsp : rtpp_cfg) (env : ul_env) (cmd : rtpp_command)
    (ulop : ul_opts) (spa : rtpp_session) :
    ul_keeps spa (ul_tail_timeout cfsp env cmd ulop spa) := by
  unfold ul_tail_timeout
  repeat' split
  all_goals exact ul_keeps_refl _

theorem ul_tail_prefill_keeps (ulop : ul_opts) (pidx : Int) (spa : rtpp_session) :
    ul_keeps spa (ul_tail_prefill ulop pidx spa) := by
  unfold ul_tail_prefill
  split
  · exact ul_keeps_upd spa pidx pidx _ _ (fun _ => ⟨rfl, rfl, rfl⟩) (fun _ => ⟨rfl, rfl, rfl⟩)
  · exact ul_keeps_refl _

theorem ul_tail_onhold_keeps (ulop : ul_opts) (pidx : Int) (spa : rtpp_session) :
    ul_keeps spa (ul_tail_onhold ulop pidx spa) := by
  unfold ul_tail_onhold
  split
  · exact ul_keeps_upd spa pidx pidx _ _ (fun _ => ⟨rfl, rfl, rfl⟩) (fun _ => ⟨rfl, rfl, rfl⟩)
  · exact ul_keeps_refl _

theorem ul_tail_asym_keeps (ulop : ul_opts) (pidx : Int) (spa : rtpp_session) :
    ul_keeps spa (ul_tail_asym ulop pidx spa) :=
  ul_keeps_upd spa pidx pidx _ _ (fun _ => ⟨rfl, rfl, rfl⟩) (fun _ => ⟨rfl, rfl, rfl⟩)

theorem ul_tail_codecs_keeps (ulop : ul_opts) (pidx : Int) (spa : rtpp_session) :
    ul_keeps spa (ul_tail_codecs ulop pidx spa) :=
  ul_keeps_upd_rtp spa pidx _ (fun _ => ⟨rfl, rfl, rfl⟩)

theorem ul_tail_ptime_keeps (env : ul_env) (ulop : ul_opts) (pidx : Int)
    (spa : rtpp_session) : ul_keeps spa (ul_tail_ptime env ulop pidx spa) := fun i =>
  ⟨stream_keeps_trans _ _ _
      (pipe_upd_keeps spa.rtp (NOT pidx) i
        (fun s => { s with ptime := ulop.requested_ptime }) (fun _ => ⟨rfl, rfl, rfl⟩))
      (pipe_upd_keeps _ pidx i
        (fun s => { s with
          resizer :=
            if ulop.requested_ptime > 0 then
              if s.resizer ≠ none then some ulop.requested_ptime
              else if env.resizer_ok then some ulop.requested_ptime else none
            else none })
        (fun _ => ⟨rfl, rfl, rfl⟩)),
    stream_keeps_refl _⟩

/-- The common tail keeps the sockets, the ports and the local addresses of
all streams. -/
theorem ul_tail_session_keeps (cfsp : rtpp_cfg) (env : ul_env) (cmd : rtpp_command)
    (ulop : ul_opts) (c : ul_ctx) : ul_keeps c.spa (ul_tail_session cfsp env cmd ulop c) := by
  unfold ul_tail_session
  exact ul_keeps_trans _ _ _ (ul_tail_timeout_keeps cfsp env cmd ulop c.spa)
    (ul_keeps_trans _ _ _ (ul_tail_prefill_keeps ulop c.pidx _)
      (ul_keeps_trans _ _ _ (ul_tail_onhold_keeps ulop c.pidx _)
        (ul_keeps_trans _ _ _ (ul_tail_asym_keeps ulop c.pidx _)
          (ul_keeps_trans _ _ _ (ul_tail_codecs_keeps ulop c.pidx _)
            (ul_tail_ptime_keeps env ulop c.pidx _)))))

theorem ul_keeps_both (s : rtpp_session) (f : rtpp_stream → rtpp_stream)
    (hf : ∀ x, stream_keeps x (f x)) : ul_keeps s { s with rtp := pipe_upd_both s.rtp f } :=
  fun i => ⟨stream_keeps_trans _ _ _ (pipe_upd_keeps s.rtp 0 i f hf)
    (pipe_upd_keeps _ 1 i f hf), stream_keeps_refl _⟩

/-- The flags and the restart of the TTLs keep the sockets, the ports and the
local addresses of all streams. -/
theorem ul_existing_flags_keeps (cmd : rtpp_command) (sidx : Int) (ulop : ul_opts)
    (spa : rtpp_session) : ul_keeps spa (ul_existing_flags cmd sidx ulop spa) := by
  unfold ul_existing_flags
  refine ul_keeps_trans _ _ _ ?_ (ul_keeps_both _ _ (fun _ => ⟨rfl, rfl, rfl⟩))
  split
  · exact ul_keeps_upd_rtp spa sidx _ (fun _ => ⟨rfl, rfl, rfl⟩)
  · split
    · exact fun _ => ⟨stream_keeps_refl _, stream_keeps_refl _⟩
    · exact ul_keeps_refl _

/-- A record whose text fits the buffer with its newline and terminator is
written whole, without the error mark. -/
theorem ul_reply_port_fits (addr2char_r : sockaddr → CStr) (sizeof_buf_t : Nat) (r : ul_reply)
    (hfit : (ul_reply_text_spec addr2char_r r).length + 2 ≤ sizeof_buf_t) :
    ul_reply_port addr2char_r sizeof_buf_t (some r)
      = some (ul_reply_text_spec addr2char_r r ++ ['\n'], 0) := by
  cases h : ul_reply_port addr2char_r sizeof_buf_t (some r) with
  | some v =>
    obtain ⟨buf, errd⟩ := v
    obtain ⟨rfl, rfl⟩ := ul_reply_port_some _ _ _ _ _ h
    rfl
  | none =>
    exfalso
    have hhead : ul_reply_text_spec addr2char_r r
        = ul_reply_head addr2char_r (some r)
          ++ (if r.subc_res ≠ 0 then " && ".toList ++ fmt_d r.subc_res else []) := by
      obtain ⟨ia, ov, port, sub⟩ := r
      cases ia with
      | none => simp [ul_reply_text_spec, ul_reply_head]
      | some ia =>
        by_cases hn : ishostnull ia = true
        · simp [ul_reply_text_spec, ul_reply_head, hn]
        · by_cases hf : ia.sa_family = AF_INET <;> cases ov <;>
            simp [ul_reply_text_spec, ul_reply_head, hn, hf]
    rw [hhead] at hfit
    unfold ul_reply_port at h
    simp only [] at h
    generalize ul_reply_head addr2char_r (some r) = head at h hfit
    by_cases hs : r.subc_res = 0
    · simp only [hs, ne_eq, not_true_eq_false, if_false, List.append_nil] at h hfit
      have h1 : head.length + 1 < sizeof_buf_t := by omega
      simp [h1] at h
    · simp only [hs, ne_eq, not_false_eq_true, if_true, List.length_append] at h hfit
      have h1 : head.length < sizeof_buf_t := by omega
      have h4 : " && ".toList.length = 4 := rfl
      simp [h1] at h
      omega

/-- C17 (amended): a U or L command on side `sidx` of an existing session
whose RTP stream of that side has a socket, with options without `n`, calls
no listener allocation and leaves socket, port and local address of every
RTP and RTCP stream as they were. Unless it is an update that names a notify
socket while notifications are disabled, and when the reply fits the
buffer, it returns 0 and replies with the RTP port the side already had. -/
theorem ul_existing_side_keeps_port (cfsp : rtpp_cfg) (env : ul_env) (cmd : rtpp_command)
    (w : rtpp_world) (sidx : Int) (ulop : ul_opts) (spa : rtpp_session)
    (hsp : cmd.sp = some spa) (hs : sidx = 0 ∨ sidx = 1)
    (hskt : (pipe_stream spa.rtp sidx).skt ≠ none) (hn : ulop.new_port = 0)
    (hfit : (ul_reply_text_spec cfsp.addr2char_r
        (ul_tail_reply cfsp ulop ⟨spa, (pipe_stream spa.rtp sidx).port, NOT sidx,
          (pipe_stream spa.rtp sidx).laddr, 0, 0, w, 0⟩)).length + 2 ≤ cmd.sizeof_buf_t) :
    ∃ out s, rtpp_command_ul_handle cfsp env cmd w sidx ulop = some out
      ∧ out.listener_calls = 0 ∧ out.sp = some s ∧ ul_keeps spa s
      ∧ ((cmd.op = rtpp_cmd_op.UPDATE → cfsp.tnset_enabled = true ∨ ulop.notify_socket = none) →
          out.ret = 0 ∧ ∃ r : ul_reply, r.port = (pipe_stream spa.rtp sidx).port
            ∧ out.reply = cmd_reply.text (ul_reply_text_spec cfsp.addr2char_r r ++ ['\n']) 0) := by
  unfold rtpp_command_ul_handle
  by_cases hg : cmd.op = rtpp_cmd_op.UPDATE ∧ cfsp.tnset_enabled = false
      ∧ ulop.notify_socket ≠ none
  · rw [if_pos hg]
    refine ⟨_, spa, rfl, rfl, hsp, ul_keeps_refl _, ?_⟩
    intro hns
    exfalso
    rcases hns hg.1 with h | h
    · rw [h] at hg; exact Bool.noConfusion hg.2.1
    · exact hg.2.2 h
  · rw [if_neg hg]
    have hs1 : sidx ≠ -1 := by rcases hs with h | h <;> rw [h] <;> decide
    simp only [ne_eq, hs1, not_false_eq_true, if_true, hs, hsp]
    have halloc : ul_existing_alloc cfsp env cmd sidx ulop spa
        = Except.ok (spa, cmd.nsess_complete, 0) := by
      unfold ul_existing_alloc
      rw [if_neg]
      rintro (h | h)
      · exact hskt h
      · exact h hn
    unfold ul_handle_existing
    rw [halloc]
    simp only []
    have hk := ul_existing_flags_keeps cmd sidx ulop spa
    have hport : (pipe_stream (ul_existing_flags cmd sidx ulop spa).rtp sidx).port
        = (pipe_stream spa.rtp sidx).port := (hk sidx).1.2.1
    have hladdr : (pipe_stream (ul_existing_flags cmd sidx ulop spa).rtp sidx).laddr
        = (pipe_stream spa.rtp sidx).laddr := (hk sidx).1.2.2
    rw [hport, hladdr]
    unfold ul_handle_tail
    have hr : ∀ c : ul_ctx, c.lport = (pipe_stream spa.rtp sidx).port →
        c.lia0 = (pipe_stream spa.rtp sidx).laddr →
        ul_tail_reply cfsp ulop c = ul_tail_reply cfsp ulop ⟨spa, (pipe_stream spa.rtp sidx).port,
          NOT sidx, (pipe_stream spa.rtp sidx).laddr, 0, 0, w, 0⟩ := by
      intro c h1 h2
      unfold ul_tail_reply
      rw [h1, h2]
    rw [hr _ rfl rfl, ul_reply_port_fits _ _ _ hfit]
    refine ⟨_, _, rfl, rfl, rfl, ?_, fun _ => ⟨rfl, _, ?_, rfl⟩⟩
    · exact ul_keeps_trans _ _ _ hk (ul_tail_session_keeps cfsp env cmd ulop _)
    · rfl

/-- Witness of C17 (amended): after the update of the scenario created the
session with the listener on port 35000, a lookup on side 0 is answered with
port 35000 although the listener on offer is on port 35002. -/
theorem ul_existing_side_keeps_port_witness :
    ∃ out s, rtpp_command_ul_handle ex_cfg ex_env_l (ex_cmd_again rtpp_cmd_op.LOOKUP) ex_out_u.world
          0 ex_ulop = some out
      ∧ out.listener_calls = 0 ∧ out.sp = some s ∧ ul_keeps ex_session_u s
      ∧ ((rtpp_cmd_op.LOOKUP = rtpp_cmd_op.UPDATE →
            ex_cfg.tnset_enabled = true ∨ ex_ulop.notify_socket = none) →
          out.ret = 0 ∧ ∃ r : ul_reply, r.port = 35000
            ∧ out.reply = cmd_reply.text (ul_reply_text_spec ex_cfg.addr2char_r r ++ ['\n']) 0) :=
  ul_existing_side_keeps_port ex_cfg ex_env_l (ex_cmd_again rtpp_cmd_op.LOOKUP) ex_out_u.world 0
    ex_ulop ex_session_u rfl (Or.inl rfl) (by decide) rfl (by decide)

/-- C17 as stated fails: an update on side 0 of the session of the scenario
that names a notify socket while notifications are disabled is answered with
an error, not with the port of the side. -/
theorem ul_existing_side_nsoff :
    (rtpp_command_ul_handle ex_cfg_nsoff ex_env_l (ex_cmd_again rtpp_cmd_op.UPDATE)
        ex_out_u.world 0 ex_ulop_notify).map (fun o => (o.ret, o.reply))
      = some (-1, cmd_reply.error ecode.ECODE_NSOFF)
    ∧ (pipe_stream ex_session_u.rtp 0).skt ≠ none ∧ ex_ulop_notify.new_port = 0 := by
  decide

/-! ## Theorems: the module interface -/

theorem strcmp_eq_zero (a b : CStr) : strcmp a b = 0 ↔ a = b := by
  induction a generalizing b with
  | nil => cases b <;> simp [strcmp]
  | cons x xs ih =>
    cases b with
    | nil => simp [strcmp]
    | cons y ys =>
      by_cases h : x = y
      · simp [strcmp, h, ih]
      · by_cases h2 : x.toNat < y.toNat <;> simp [strcmp, h, h2]

theorem MI_VER_CHCK_iff (env : mif_env) (mi : rtpp_minfo) :
    MI_VER_CHCK env mi = true ↔
      mi.descr.ver.rev = 11 ∧ mi.descr.ver.mi_size = env.sizeof_rtpp_minfo
        ∧ mi.descr.ver.build = env.RTPP_SW_VERSION := by
  simp [MI_VER_CHCK, MODULE_API_REVISION, strcmp_eq_zero, and_assoc]

@[simp] theorem mif_load_e2_fst (h : Nat) (pvt : rtpp_module_if_priv) :
    (mif_load_e2 h pvt).1 = -1 := rfl

@[simp] theorem mif_load_e3_fst (env : mif_env) (h : Nat) (pvt : rtpp_module_if_priv) :
    (mif_load_e3 env h pvt).1 = -1 := rfl

@[simp] theorem mif_load_e4_fst (env : mif_env) (h : Nat) (mi : rtpp_minfo)
    (pvt : rtpp_module_if_priv) : (mif_load_e4 env h mi pvt).1 = -1 := rfl

@[simp] theorem mif_load_e5_fst (env : mif_env) (h : Nat) (mi : rtpp_minfo)
    (pvt : rtpp_module_if_priv) : (mif_load_e5 env h mi pvt).1 = -1 := rfl

/-- C18: `rtpp_mif_load` returns 0 only for a module whose descriptor carries
revision 11, the host's `sizeof(struct rtpp_minfo)` and the host's build
string; when the library opens and has a descriptor in which one of the three
differs, `load` returns -1, its only calls outside the object are `dlopen`
and `dlclose` of the handle, `pvt->mip` is NULL and `self->descr` is as it
was, which is NULL on an object that was never loaded. -/
theorem mif_load_version_check (env : mif_env) (pvt : rtpp_module_if_priv) :
    ((rtpp_mif_load env pvt).1 = 0 →
        ∃ mi, env.dlsym = some mi ∧ mi.descr.ver.rev = 11
          ∧ mi.descr.ver.mi_size = env.sizeof_rtpp_minfo
          ∧ mi.descr.ver.build = env.RTPP_SW_VERSION)
      ∧ (∀ h mi, env.dlopen = some h → env.dlsym = some mi →
          (mi.descr.ver.rev ≠ 11 ∨ mi.descr.ver.mi_size ≠ env.sizeof_rtpp_minfo
            ∨ mi.descr.ver.build ≠ env.RTPP_SW_VERSION) →
          (rtpp_mif_load env pvt).1 = -1
            ∧ (rtpp_mif_load env pvt).2.trace
                = pvt.trace ++ [mif_event.dlopen h, mif_event.dlclose h]
            ∧ (rtpp_mif_load env pvt).2.mip = none
            ∧ (rtpp_mif_load env pvt).2.descr = pvt.descr)
      ∧ (∀ a b, (rtpp_module_if_ctor a b).all (fun p => p.descr = none ∧ p.mip = none)) := by
  refine ⟨?_, ?_, ?_⟩
  · intro h0
    unfold rtpp_mif_load at h0
    cases hd : env.dlopen with
    | none => rw [hd] at h0; simp at h0
    | some h =>
      rw [hd] at h0
      cases hs : env.dlsym with
      | none => rw [hs] at h0; simp at h0
      | some mi =>
        rw [hs] at h0
        refine ⟨mi, rfl, ?_⟩
        by_cases hv : MI_VER_CHCK env mi = true
        · exact (MI_VER_CHCK_iff env mi).1 hv
        · simp [hv] at h0
  · intro h mi hd hs hne
    have hv : MI_VER_CHCK env mi = false := by
      cases hc : MI_VER_CHCK env mi with
      | false => rfl
      | true =>
        obtain ⟨h1, h2, h3⟩ := (MI_VER_CHCK_iff env mi).1 hc
        rcases hne with h | h | h
        · exact absurd h1 h
        · exact absurd h2 h
        · exact absurd h3 h
    unfold rtpp_mif_load
    rw [hd, hs]
    simp [hv, mif_load_e2, mif_log]
  · intro a b
    cases a <;> cases b <;> simp [rtpp_module_if_ctor]

/-- Witness of C18: a module built for revision 10 is refused by the host of
the scenario, and the module of the scenario is accepted. -/
theorem mif_load_version_check_witness :
    ((rtpp_mif_load (ex_mif_env ex_minfo_rev10) ex_mif).1 = -1
      ∧ (rtpp_mif_load (ex_mif_env ex_minfo_rev10) ex_mif).2.trace
          = ex_mif.trace ++ [mif_event.dlopen 7, mif_event.dlclose 7]
      ∧ (rtpp_mif_load (ex_mif_env ex_minfo_rev10) ex_mif).2.mip = none
      ∧ (rtpp_mif_load (ex_mif_env ex_minfo_rev10) ex_mif).2.descr = ex_mif.descr)
      ∧ (rtpp_mif_load (ex_mif_env (ex_minfo 0)) ex_mif).1 = 0 :=
  ⟨(mif_load_version_check (ex_mif_env ex_minfo_rev10) ex_mif).2.1 7 ex_minfo_rev10 rfl rfl
      (Or.inl (by decide)),
    by decide⟩

theorem dtor_calls_log (pvt : rtpp_module_if_priv) (e : mif_event) :
    dtor_calls (mif_log pvt e).trace
      = dtor_calls pvt.trace + (match e with
          | mif_event.mod_dtor _ => 1
          | _ => 0) := by
  unfold dtor_calls mif_log
  cases e <;> simp [List.countP_append]

/-- The method `load` never calls the destructor of the module. -/
theorem mif_load_no_dtor (env : mif_env) (pvt : rtpp_module_if_priv) :
    dtor_calls (rtpp_mif_load env pvt).2.trace = dtor_calls pvt.trace := by
  unfold rtpp_mif_load
  cases env.dlopen with
  | none => rfl
  | some h =>
    cases env.dlsym with
    | none => simp [mif_load_e2, dtor_calls_log]
    | some mi =>
      simp only []
      repeat' split
      all_goals simp [mif_load_e2, mif_load_e3, mif_load_e4, mif_load_e5, dtor_calls_log]
      all_goals split <;> simp [dtor_calls_log]

/-- The method `load` returns 0 only with the descriptor attached. -/
theorem mif_load_ok_mip (env : mif_env) (pvt p1 : rtpp_module_if_priv)
    (h : rtpp_mif_load env pvt = (0, p1)) : p1.mip ≠ none ∧ p1.started = pvt.started := by
  unfold rtpp_mif_load at h
  cases hd : env.dlopen with
  | none => rw [hd] at h; simp at h
  | some hh =>
    rw [hd] at h
    cases hs : env.dlsym with
    | none => rw [hs] at h; simp [mif_load_e2] at h
    | some mi =>
      rw [hs] at h
      simp only [] at h
      repeat' split at h
      all_goals first
        | (simp only [Prod.mk.injEq] at h; obtain ⟨-, rfl⟩ := h; exact ⟨by simp, rfl⟩)
        | (have h1 := congrArg Prod.fst h; simp at h1)

/-- The method `start` never calls the destructor of the module, and it
returns where the descriptor is attached. -/
theorem mif_start_no_dtor (env : mif_env) (pvt : rtpp_module_if_priv) (hm : pvt.mip ≠ none) :
    ∃ r p, rtpp_mif_start env pvt = some (r, p) ∧ dtor_calls p.trace = dtor_calls pvt.trace
      ∧ p.mip = pvt.mip ∧ p.dmp = pvt.dmp ∧ p.mpvt = pvt.mpvt := by
  unfold rtpp_mif_start
  cases hmi : pvt.mip with
  | none => exact absurd hmi hm
  | some mi =>
    simp only []
    cases mi.aapi with
    | none =>
      simp only []
      repeat' split
      all_goals exact ⟨_, _, rfl, by simp [dtor_calls_log], hmi, by simp [mif_log], by simp [mif_log]⟩
    | some a =>
      simp only []
      repeat' split
      all_goals exact ⟨_, _, rfl, by simp [dtor_calls_log], hmi, by simp [mif_log], by simp [mif_log]⟩

/-- The method `construct` returns where the descriptor is attached; it calls
the destructor of the module exactly when the constructor did not fail, the
hook `config` returns non-zero and the module has a destructor. -/
theorem mif_construct_dtor (pvt : rtpp_module_if_priv) (mi : rtpp_minfo)
    (hm : pvt.mip = some mi) :
    ∃ r p, rtpp_mif_construct pvt = some (r, p) ∧ p.mip = pvt.mip ∧ p.started = pvt.started
      ∧ (r = 0 → dtor_calls p.trace = dtor_calls pvt.trace)
      ∧ dtor_calls p.trace = dtor_calls pvt.trace
          + (if mi.proc.ctor ≠ some none ∧ (∃ rc, mi.proc.config = some rc ∧ rc ≠ 0)
                ∧ mi.proc.dtor = true then 1 else 0) := by
  unfold rtpp_mif_construct
  rw [hm]
  simp only []
  obtain ⟨descr, ⟨ctor, dtor, config⟩, aapi, capi, wapi, memdeb_p, log, sigterm, mod_q⟩ := mi
  simp only []
  rcases ctor with _ | _ | v <;> rcases config with _ | rc
  · exact ⟨_, _, rfl, hm, rfl, fun _ => rfl, by simp⟩
  · by_cases hrc : rc = 0
    · subst hrc
      simp only [ne_eq, not_true_eq_false, if_false]
      exact ⟨_, _, rfl, hm, rfl, fun _ => by simp [dtor_calls_log], by simp [dtor_calls_log]⟩
    · cases dtor
      · simp only [ne_eq, hrc, not_false_eq_true, if_true]
        exact ⟨_, _, rfl, hm, rfl, fun h => absurd h (by decide), by simp [dtor_calls_log]⟩
      · simp only [ne_eq, hrc, not_false_eq_true, if_true]
        exact ⟨_, _, rfl, hm, rfl, fun h => absurd h (by decide),
          by simp [dtor_calls_log, hrc]⟩
  · exact ⟨_, _, rfl, hm, rfl, fun h => absurd h (by decide), by simp [dtor_calls_log]⟩
  · exact ⟨_, _, rfl, hm, rfl, fun h => absurd h (by decide), by simp [dtor_calls_log]⟩
  · exact ⟨_, _, rfl, hm, rfl, fun _ => by simp [dtor_calls_log], by simp [dtor_calls_log]⟩
  · by_cases hrc : rc = 0
    · subst hrc
      simp only [ne_eq, not_true_eq_false, if_false]
      exact ⟨_, _, rfl, hm, rfl, fun _ => by simp [dtor_calls_log], by simp [dtor_calls_log]⟩
    · cases dtor
      · simp only [ne_eq, hrc, not_false_eq_true, if_true]
        exact ⟨_, _, rfl, hm, rfl, fun h => absurd h (by decide), by simp [dtor_calls_log]⟩
      · simp only [ne_eq, hrc, not_false_eq_true, if_true]
        exact ⟨_, _, rfl, hm, rfl, fun h => absurd h (by decide),
          by simp [dtor_calls_log, hrc]⟩

/-- The method `kaput` returns where the descriptor is attached or no worker
was started, and calls the destructor of the module at most once. -/
theorem mif_kaput_dtor (env : mif_env) (pvt : rtpp_module_if_priv)
    (hm : pvt.started ≠ 0 → pvt.mip ≠ none) :
    ∃ pf, rtpp_mif_kaput env pvt = some pf
      ∧ dtor_calls pvt.trace ≤ dtor_calls pf.trace
      ∧ dtor_calls pf.trace ≤ dtor_calls pvt.trace + 1 := by
  unfold rtpp_mif_kaput
  cases pvt.dmp with
  | none => exact ⟨_, rfl, by simp [dtor_calls_log], by simp [dtor_calls_log]⟩
  | some h =>
    simp only []
    have hg : ¬ (pvt.started ≠ 0 ∧ pvt.mip = none) := fun hh => hm hh.1 hh.2
    rw [if_neg hg]
    cases hmi : pvt.mip with
    | none =>
      have : (mif_log (if pvt.started ≠ 0 then mif_log pvt mif_event.thread_join else pvt)
          mif_event.module_if_fin).mip = none := by
        split <;> simp [mif_log, hmi]
      rw [this]
      refine ⟨_, rfl, ?_, ?_⟩ <;> split <;> simp [dtor_calls_log]
    | some mi =>
      have : (mif_log (if pvt.started ≠ 0 then mif_log pvt mif_event.thread_join else pvt)
          mif_event.module_if_fin).mip = some mi := by
        split <;> simp [mif_log, hmi]
      rw [this]
      refine ⟨_, rfl, ?_, ?_⟩
      all_goals simp only [dtor_calls_log]
      all_goals repeat' split
      all_goals simp [dtor_calls_log]

/-- C19 (amended): in a lifecycle whose `load` and `construct` return 0 the
destructor of the module is called by neither of them nor by `start`, and the
whole lifecycle through `kaput` calls it at most once. In general `load`
never calls it, and `construct` calls it exactly when the constructor of the
module did not fail, its hook `config` returns non-zero and it has a
destructor. -/
theorem mod_dtor_only_in_kaput (env : mif_env) (do_start : Bool)
    (pvt p1 p2 : rtpp_module_if_priv) (hload : rtpp_mif_load env pvt = (0, p1))
    (hcon : rtpp_mif_construct p1 = some (0, p2)) :
    dtor_calls p1.trace = dtor_calls pvt.trace
      ∧ dtor_calls p2.trace = dtor_calls pvt.trace
      ∧ (∃ r3 p3, rtpp_mif_start env p2 = some (r3, p3)
          ∧ dtor_calls p3.trace = dtor_calls pvt.trace)
      ∧ (∃ pf, mif_lifecycle env do_start pvt = some pf
          ∧ dtor_calls pf.trace ≤ dtor_calls pvt.trace + 1)
      ∧ (∀ e q, dtor_calls (rtpp_mif_load e q).2.trace = dtor_calls q.trace)
      ∧ (∀ q mi, q.mip = some mi → ∃ r p, rtpp_mif_construct q = some (r, p)
          ∧ dtor_calls p.trace = dtor_calls q.trace
            + (if mi.proc.ctor ≠ some none ∧ (∃ rc, mi.proc.config = some rc ∧ rc ≠ 0)
                ∧ mi.proc.dtor = true then 1 else 0)) := by
  have h1 : dtor_calls p1.trace = dtor_calls pvt.trace := by
    have := mif_load_no_dtor env pvt
    rw [hload] at this
    exact this
  have hm1 : p1.mip ≠ none := (mif_load_ok_mip env pvt p1 hload).1
  obtain ⟨mi, hmi⟩ := Option.ne_none_iff_exists'.1 hm1
  obtain ⟨r, p, hc, hpm, -, hz, -⟩ := mif_construct_dtor p1 mi hmi
  rw [hcon] at hc
  simp only [Option.some.injEq, Prod.mk.injEq] at hc
  obtain ⟨rfl, rfl⟩ := hc
  have h2 : dtor_calls p2.trace = dtor_calls pvt.trace := (hz rfl).trans h1
  have hm2 : p2.mip ≠ none := by rw [hpm]; exact hm1
  obtain ⟨r3, p3, hs, hd3, hm3, -, -⟩ := mif_start_no_dtor env p2 hm2
  refine ⟨h1, h2, ⟨r3, p3, hs, hd3.trans h2⟩, ?_, mif_load_no_dtor, ?_⟩
  · unfold mif_lifecycle
    rw [hload]
    simp only [ne_eq, not_true_eq_false, if_false, hcon]
    cases do_start with
    | true =>
      simp only [if_true, hs]
      obtain ⟨pf, hk, -, hle⟩ := mif_kaput_dtor env p3 (fun _ => by rw [hm3]; exact hm2)
      exact ⟨pf, hk, by omega⟩
    | false =>
      obtain ⟨pf, hk, -, hle⟩ := mif_kaput_dtor env p2 (fun _ => hm2)
      exact ⟨pf, hk, by simpa [h2] using hle⟩
  · intro q mi hq
    obtain ⟨r, p, hc, -, -, -, hd⟩ := mif_construct_dtor q mi hq
    exact ⟨r, p, hc, hd⟩

/-- Witness of C19 (amended): the module of the scenario, whose `config`
returns 0, is loaded, constructed and started, and the lifecycle calls its
destructor once, in `kaput`. -/
theorem mod_dtor_only_in_kaput_witness :
    (rtpp_mif_load (ex_mif_env (ex_minfo 0)) ex_mif = (0, ex_mif_loaded)
      ∧ rtpp_mif_construct ex_mif_loaded = some (0, ex_mif_constructed))
    ∧ (dtor_calls ex_mif_loaded.trace = dtor_calls ex_mif.trace
      ∧ dtor_calls ex_mif_constructed.trace = dtor_calls ex_mif.trace)
    ∧ (mif_lifecycle (ex_mif_env (ex_minfo 0)) true ex_mif).map
        (fun p => dtor_calls p.trace) = some 1 :=
  ⟨⟨by decide, by decide⟩,
    ⟨(mod_dtor_only_in_kaput (ex_mif_env (ex_minfo 0)) true ex_mif ex_mif_loaded
        ex_mif_constructed (by decide) (by decide)).1,
      (mod_dtor_only_in_kaput (ex_mif_env (ex_minfo 0)) true ex_mif ex_mif_loaded
        ex_mif_constructed (by decide) (by decide)).2.1⟩,
    by decide⟩

/-- C19 as stated fails: when the hook `config` of the module of the scenario
returns -1, `construct` returns -1 and has called the destructor of the
module before `kaput` runs, and `kaput` after it calls the destructor a
second time. -/
theorem mod_dtor_in_construct :
    (rtpp_mif_construct (rtpp_mif_load (ex_mif_env (ex_minfo (-1))) ex_mif).2).map
        (fun x => (x.1, x.2.trace))
      = some (-1, [mif_event.dlopen 7, mif_event.log_incref, mif_event.mod_ctor,
          mif_event.mod_config (some 4096), mif_event.mod_dtor (some 4096)])
    ∧ (mif_lifecycle (ex_mif_env (ex_minfo (-1))) false ex_mif).map
        (fun p => dtor_calls p.trace) = some 2 := by
  decide

/-! ## Theorems: the finaliser of `rtpp_pearson_perfect` -/

/-- C20: when the last reference to an object with a method table of its own
is dropped and `rtpp_pearson_perfect_fin` runs as its destructor, the table
of the object is the trap table; every later call of `hash` runs the trap,
which reports the object and counts exactly one abort, and not the function
of the old table; a second run of the finaliser fails its assertion; the
finaliser is done exactly on a table that is neither NULL nor the trap table
and has a `hash`; and the test of the finaliser passes. -/
theorem fin_installs_trap (pub : rtpp_pearson_perfect) (f : Nat)
    (hs : pub.smethods = pp_smethods.table (some f)) (hr : pub.rcnt = 1)
    (ha : pub.fin_attached = true) :
    ∃ q, RTPP_OBJ_DECREF pub = dbg_result.done q
      ∧ q.smethods = pp_smethods.smethods_fin
      ∧ (∀ w, CALL_TFIN w q
          = some (hash_call.trapped ⟨w.naborts + 1, w.reports ++ [pub.addr]⟩))
      ∧ rtpp_pearson_perfect_fin q = dbg_result.assertion_failed
      ∧ (∀ p, (∃ p1, rtpp_pearson_perfect_fin p = dbg_result.done p1)
          ↔ p.smethods ≠ pp_smethods.null ∧ p.smethods ≠ pp_smethods.smethods_fin
            ∧ p.smethods ≠ pp_smethods.table none)
      ∧ (∀ w addr, rtpp_pearson_perfect_fintest w addr true
          = dbg_result.done ⟨w.naborts + 1, w.reports ++ [addr]⟩) := by
  refine ⟨{ pub with rcnt := 0, smethods := pp_smethods.smethods_fin }, ?_, rfl, ?_, rfl, ?_, ?_⟩
  · unfold RTPP_OBJ_DECREF rtpp_pearson_perfect_fin
    simp [hr, ha, hs]
  · intro w
    rfl
  · intro p
    obtain ⟨addr, sm, rcnt, att⟩ := p
    rcases sm with _ | _ | _ | g <;> simp [rtpp_pearson_perfect_fin]
  · intro w addr
    simp [rtpp_pearson_perfect_fintest, RTPP_OBJ_DECREF, rtpp_pearson_perfect_fin, CALL_TFIN,
      rtpp_pearson_perfect_hash_fin, RTPP_AUTOTRAP]

/-- Witness of C20: the object of the test, at address 4096 with the dummy
table, after two aborts were counted. -/
theorem fin_installs_trap_witness :
    ∃ q, RTPP_OBJ_DECREF ⟨4096, pp_smethods.table (some 1), 1, true⟩ = dbg_result.done q
      ∧ q.smethods = pp_smethods.smethods_fin
      ∧ CALL_TFIN ⟨2, []⟩ q = some (hash_call.trapped ⟨3, [4096]⟩)
      ∧ rtpp_pearson_perfect_fin q = dbg_result.assertion_failed :=
  (fin_installs_trap ⟨4096, pp_smethods.table (some 1), 1, true⟩ 1 rfl rfl rfl).imp
    (fun _ h => ⟨h.1, h.2.1, h.2.2.1 ⟨2, []⟩, h.2.2.2.1⟩)

/-! ## Theorems: the parser of the U/L options -/

theorem ntohs_ntohs (be : Bool) (x : Nat) : ntohs be (ntohs be x) = x % 65536 := by
  have h8 : (2 : Nat) ^ 8 = 256 := by norm_num
  have h16 : (2 : Nat) ^ 16 = 65536 := by norm_num
  unfold ntohs
  cases be
  · simp only [Bool.false_eq_true, if_false, h8]
    have hx : x % 65536 = x / 256 % 256 * 256 + x % 256 := by omega
    have hlo : x % 256 < 256 := Nat.mod_lt _ (by norm_num)
    have hhi : x / 256 % 256 < 256 := Nat.mod_lt _ (by norm_num)
    rw [hx]
    generalize x % 256 = lo at hlo ⊢
    generalize x / 256 % 256 = hi at hhi ⊢
    omega
  · simp only [if_true, h16]
    omega

/-- The RTCP port is the next port modulo 2^16. -/
theorem ul_rtcp_port_eq (be : Bool) (port : Nat) :
    ul_rtcp_port be port = (port % 65536 + 1) % 65536 := by
  unfold ul_rtcp_port htons
  simp only [ntohs_ntohs]

/-- A property of the parser state that every modifier keeps holds after the
loop when it holds before. -/
theorem ul_mods_inv (cfsp : rtpp_cfg) (env : ul_parse_env) (P : ul_parse_st → Prop)
    (hstep : ∀ c rest st u skip, P st →
      ul_mod_step cfsp env c rest st.ulop = ul_res.ok (u, skip) →
      P { ulop := u, seen := st.seen ++ [(c, rest)] }) :
    ∀ (cs : CStr) (skip : Nat) (st st1 : ul_parse_st), P st →
      ul_mods cfsp env skip cs st = ul_res.ok st1 → P st1 := by
  intro cs
  induction cs with
  | nil =>
    intro skip st st1 hP h
    cases skip <;> simp only [ul_mods, ul_res.ok.injEq] at h <;> exact h ▸ hP
  | cons c cs ih =>
    intro skip st st1 hP h
    cases skip with
    | succ n =>
      simp only [ul_mods] at h
      exact ih n st st1 hP h
    | zero =>
      simp only [ul_mods] at h
      cases hs : ul_mod_step cfsp env c cs st.ulop with
      | undefined => rw [hs] at h; cases h
      | error e => rw [hs] at h; cases h
      | ok v =>
        obtain ⟨u, k⟩ := v
        rw [hs] at h
        exact ih k _ st1 (hstep c cs st u k hP hs) h

theorem ul_mod_step_z (cfsp : rtpp_cfg) (env : ul_parse_env) (c : Char) (rest : CStr)
    (ulop : ul_opts) (hz : c = 'z' ∨ c = 'Z') :
    ul_mod_step cfsp env c rest ulop = ul_mod_z rest ulop := by
  unfold ul_mod_step
  rcases hz with rfl | rfl <;> simp

theorem ul_mod_step_c (cfsp : rtpp_cfg) (env : ul_parse_env) (c : Char) (rest : CStr)
    (ulop : ul_opts) (hz : c = 'c' ∨ c = 'C') :
    ul_mod_step cfsp env c rest ulop = ul_mod_c env rest ulop := by
  unfold ul_mod_step
  rcases hz with rfl | rfl <;> simp

theorem ul_set_lia_effect (ulop u : ul_opts) (a : Option sockaddr)
    (h : ul_set_lia ulop a = ul_res.ok u) :
    u.onhold = ulop.onhold ∧ u.ia0 = ulop.ia0 ∧ u.ia1 = ulop.ia1
      ∧ u.notify_socket = ulop.notify_socket ∧ u.notify_tag = ulop.notify_tag
      ∧ u.requested_ptime = ulop.requested_ptime ∧ u.codecs = ulop.codecs := by
  unfold ul_set_lia at h
  repeat' split at h
  all_goals cases h
  all_goals exact ⟨rfl, rfl, rfl, rfl, rfl, rfl, rfl⟩

/-- What one modifier does to the options: the hold flag, the remote
addresses and the notify fields stay; the ptime is set by `z` alone, to the
positive value `strtol` reads; the codecs are set by `c` alone, to the
non-empty run of digits and commas that follows. -/
theorem ul_mod_step_effect (cfsp : rtpp_cfg) (env : ul_parse_env) (c : Char) (rest : CStr)
    (ulop u : ul_opts) (skip : Nat)
    (h : ul_mod_step cfsp env c rest ulop = ul_res.ok (u, skip)) :
    u.onhold = ulop.onhold ∧ u.ia0 = ulop.ia0 ∧ u.ia1 = ulop.ia1
      ∧ u.notify_socket = ulop.notify_socket ∧ u.notify_tag = ulop.notify_tag
      ∧ (is_z (c, rest) = true →
          u.requested_ptime = long_to_int (strtol rest).1 ∧ 0 < u.requested_ptime)
      ∧ (is_z (c, rest) = false → u.requested_ptime = ulop.requested_ptime)
      ∧ (is_c (c, rest) = true →
          u.codecs = some (rest.takeWhile (fun ch => isdigit ch || decide (ch = ',')))
            ∧ rest.takeWhile (fun ch => isdigit ch || decide (ch = ',')) ≠ [])
      ∧ (is_c (c, rest) = false → u.codecs = ulop.codecs) := by
  by_cases hz : c = 'z' ∨ c = 'Z'
  · rw [ul_mod_step_z _ _ _ _ _ hz] at h
    have hnc : is_c (c, rest) = false := by
      rcases hz with rfl | rfl <;> simp [is_c]
    have hisz : is_z (c, rest) = true := by simp [is_z, hz]
    unfold ul_mod_z at h
    simp only [] at h
    split at h
    · cases h
    · rename_i hpos
      simp only [ul_res.ok.injEq, Prod.mk.injEq] at h
      obtain ⟨rfl, -⟩ := h
      refine ⟨rfl, rfl, rfl, rfl, rfl, fun _ => ⟨rfl, by simpa using hpos⟩, ?_, ?_, fun _ => rfl⟩
      · intro hh; rw [hisz] at hh; cases hh
      · intro hh; rw [hnc] at hh; cases hh
  · have hnz : is_z (c, rest) = false := by simp [is_z, hz]
    by_cases hc : c = 'c' ∨ c = 'C'
    · rw [ul_mod_step_c _ _ _ _ _ hc] at h
      have hisc : is_c (c, rest) = true := by simp [is_c, hc]
      unfold ul_mod_c at h
      simp only [] at h
      split at h
      · cases h
      · rename_i hne
        split at h
        · cases h
        · simp only [ul_res.ok.injEq, Prod.mk.injEq] at h
          obtain ⟨rfl, -⟩ := h
          refine ⟨rfl, rfl, rfl, rfl, rfl, ?_, fun _ => rfl, fun _ => ⟨rfl, hne⟩, ?_⟩
          · intro hh; rw [hnz] at hh; cases hh
          · intro hh; rw [hisc] at hh; cases hh
    · have hnc : is_c (c, rest) = false := by simp [is_c, hc]
      have hrest : u.onhold = ulop.onhold ∧ u.ia0 = ulop.ia0 ∧ u.ia1 = ulop.ia1
          ∧ u.notify_socket = ulop.notify_socket ∧ u.notify_tag = ulop.notify_tag
          ∧ u.requested_ptime = ulop.requested_ptime ∧ u.codecs = ulop.codecs := by
        unfold ul_mod_step at h
        simp only [hz, hc, if_false] at h
        unfold ul_mod_l ul_mod_r at h
        repeat' split at h
        all_goals cases h
        all_goals first
          | exact ⟨rfl, rfl, rfl, rfl, rfl, rfl, rfl⟩
          | exact ul_set_lia_effect _ _ _ (by assumption)
      obtain ⟨h1, h2, h3, h4, h5, h6, h7⟩ := hrest
      refine ⟨h1, h2, h3, h4, h5, ?_, fun _ => h6, ?_, fun _ => h7⟩
      · intro hh; rw [hnz] at hh; cases hh
      · intro hh; rw [hnc] at hh; cases hh

theorem ptime_of_seen_append (seen : List (Char × CStr)) (m : Char × CStr) :
    ptime_of_seen (seen ++ [m])
      = if is_z m = true then long_to_int (strtol m.2).1 else ptime_of_seen seen := by
  unfold ptime_of_seen
  cases h : is_z m <;> simp [List.filter_append, List.filter_cons, h]

theorem codecs_of_seen_append (seen : List (Char × CStr)) (m : Char × CStr) :
    codecs_of_seen (seen ++ [m])
      = if is_c m = true then some (m.2.takeWhile (fun ch => isdigit ch || decide (ch = ',')))
        else codecs_of_seen seen := by
  unfold codecs_of_seen
  cases h : is_c m <;> simp [List.filter_append, List.filter_cons, h]

/-- Every modifier the loop adds to the list of the modifiers it met stands
in the text it read, followed by the text recorded with it. -/
theorem ul_mods_seen (cfsp : rtpp_cfg) (env : ul_parse_env) :
    ∀ (cs : CStr) (skip : Nat) (st st1 : ul_parse_st),
      ul_mods cfsp env skip cs st = ul_res.ok st1 →
      ∀ m ∈ st1.seen, m ∈ st.seen ∨ ∃ pre, cs = pre ++ m.1 :: m.2 := by
  intro cs
  induction cs with
  | nil =>
    intro skip st st1 h m hm
    cases skip <;> simp only [ul_mods, ul_res.ok.injEq] at h <;> subst h <;> exact Or.inl hm
  | cons c cs ih =>
    intro skip st st1 h m hm
    cases skip with
    | succ n =>
      simp only [ul_mods] at h
      rcases ih n st st1 h m hm with h1 | ⟨pre, h1⟩
      · exact Or.inl h1
      · exact Or.inr ⟨c :: pre, by rw [h1]; rfl⟩
    | zero =>
      simp only [ul_mods] at h
      cases hs : ul_mod_step cfsp env c cs st.ulop with
      | undefined => rw [hs] at h; cases h
      | error e => rw [hs] at h; cases h
      | ok v =>
        obtain ⟨u, k⟩ := v
        rw [hs] at h
        rcases ih k _ st1 h m hm with h1 | ⟨pre, h1⟩
        · simp only [List.mem_append, List.mem_singleton] at h1
          rcases h1 with h1 | h1
          · exact Or.inl h1
          · exact Or.inr ⟨[], by rw [h1]; rfl⟩
        · exact Or.inr ⟨c :: pre, by rw [h1]; rfl⟩

/-- After the loop from options with ptime -1 and no codecs: the hold flag,
the remote addresses and the notify fields are those of the start, the ptime
and the codecs are those of the last `z` and the last `c` the loop met, the
ptime of a `z` is positive and the codecs of a `c` are not empty. -/
theorem ul_mods_result (cfsp : rtpp_cfg) (env : ul_parse_env) (mods : CStr) (u0 : ul_opts)
    (st1 : ul_parse_st) (hp : u0.requested_ptime = -1) (hc : u0.codecs = none)
    (h : ul_mods cfsp env 0 mods { ulop := u0, seen := [] } = ul_res.ok st1) :
    st1.ulop.onhold = u0.onhold ∧ st1.ulop.ia0 = u0.ia0 ∧ st1.ulop.ia1 = u0.ia1
      ∧ st1.ulop.notify_socket = u0.notify_socket ∧ st1.ulop.notify_tag = u0.notify_tag
      ∧ st1.ulop.requested_ptime = ptime_of_seen st1.seen
      ∧ (st1.seen.filter is_z ≠ [] → 0 < st1.ulop.requested_ptime)
      ∧ st1.ulop.codecs = codecs_of_seen st1.seen
      ∧ (∀ cs, st1.ulop.codecs = some cs → cs ≠ []) := by
  refine ul_mods_inv cfsp env (fun st =>
    st.ulop.onhold = u0.onhold ∧ st.ulop.ia0 = u0.ia0 ∧ st.ulop.ia1 = u0.ia1
      ∧ st.ulop.notify_socket = u0.notify_socket ∧ st.ulop.notify_tag = u0.notify_tag
      ∧ st.ulop.requested_ptime = ptime_of_seen st.seen
      ∧ (st.seen.filter is_z ≠ [] → 0 < st.ulop.requested_ptime)
      ∧ st.ulop.codecs = codecs_of_seen st.seen
      ∧ (∀ cs, st.ulop.codecs = some cs → cs ≠ [])) ?_ mods 0 _ st1 ?_ h
  · intro c rest st u skip hP hs
    obtain ⟨p1, p2, p3, p4, p5, p6, p7, p8, p9⟩ := hP
    obtain ⟨e1, e2, e3, e4, e5, e6, e7, e8, e9⟩ := ul_mod_step_effect cfsp env c rest _ u skip hs
    simp only [ptime_of_seen_append, codecs_of_seen_append]
    refine ⟨e1.trans p1, e2.trans p2, e3.trans p3, e4.trans p4, e5.trans p5, ?_, ?_, ?_, ?_⟩
    · cases hz : is_z (c, rest)
      · simp only [Bool.false_eq_true, if_false]
        exact (e7 hz).trans p6
      · simp only [if_true]
        exact (e6 hz).1
    · cases hz : is_z (c, rest)
      · intro hne
        rw [e7 hz]
        apply p7
        simpa [List.filter_append, List.filter_cons, hz] using hne
      · exact fun _ => (e6 hz).2
    · cases hcc : is_c (c, rest)
      · simp only [Bool.false_eq_true, if_false]
        exact (e9 hcc).trans p8
      · simp only [if_true]
        exact (e8 hcc).1
    · intro cs hcs
      cases hcc : is_c (c, rest)
      · rw [e9 hcc] at hcs
        exact p9 cs hcs
      · rw [(e8 hcc).1] at hcs
        simp only [Option.some.injEq] at hcs
        rw [← hcs]
        exact (e8 hcc).2
  · exact ⟨rfl, rfl, rfl, rfl, rfl, hp, fun hne => absurd rfl hne, hc,
      by rw [hc]; intro cs hcs; cases hcs⟩

/-- A successful parse went through the allocation, the notify arguments, the
loop over the modifiers and the steps after it. -/
theorem ul_parse_ok (cfsp : rtpp_cfg) (env : ul_parse_env) (cmd : rtpp_command)
    (args : List CStr) (n : Nat) (r : ul_parse_st)
    (h : rtpp_command_ul_opts_parse cfsp env cmd args n = ul_res.ok r) :
    env.zmalloc_ok = true ∧ ∃ u0 x mods st,
      ul_parse_notify env cmd args (ul_opts_init cfsp env.aforce) = ul_res.ok u0
        ∧ args.head? = some (x :: mods)
        ∧ ul_mods cfsp env 0 mods { ulop := u0, seen := [] } = ul_res.ok st
        ∧ ul_parse_finish env args n st = ul_res.ok r := by
  unfold rtpp_command_ul_opts_parse at h
  cases hz : env.zmalloc_ok with
  | false => rw [hz] at h; cases h
  | true =>
    rw [hz] at h
    simp only [Bool.not_true, Bool.false_eq_true, if_false] at h
    refine ⟨rfl, ?_⟩
    cases hn : ul_parse_notify env cmd args (ul_opts_init cfsp env.aforce) with
    | undefined => rw [hn] at h; cases h
    | error e => rw [hn] at h; cases h
    | ok u0 =>
      rw [hn] at h
      simp only [] at h
      cases hh : args.head? with
      | none => rw [hh] at h; cases h
      | some v0 =>
        rw [hh] at h
        cases v0 with
        | nil => cases h
        | cons x mods =>
          simp only [] at h
          cases hm : ul_mods cfsp env 0 mods { ulop := u0, seen := [] } with
          | undefined => rw [hm] at h; cases h
          | error e => rw [hm] at h; cases h
          | ok st =>
            rw [hm] at h
            exact ⟨u0, x, mods, st, rfl, rfl, hm, h⟩

/-- The notify arguments touch the notify fields alone, and only those of an
update. -/
theorem ul_parse_notify_effect (env : ul_parse_env) (cmd : rtpp_command) (args : List CStr)
    (u u0 : ul_opts) (h : ul_parse_notify env cmd args u = ul_res.ok u0) :
    u0.requested_ptime = u.requested_ptime ∧ u0.codecs = u.codecs ∧ u0.onhold = u.onhold
      ∧ u0.ia0 = u.ia0 ∧ u0.ia1 = u.ia1 ∧ (cmd.op ≠ rtpp_cmd_op.UPDATE → u0 = u) := by
  unfold ul_parse_notify at h
  split at h
  · rename_i hup
    simp only [] at h
    repeat' split at h
    all_goals cases h
    all_goals exact ⟨rfl, rfl, rfl, rfl, rfl, fun hne => absurd hup.1 hne⟩
  · cases h
    exact ⟨rfl, rfl, rfl, rfl, rfl, fun _ => rfl⟩

theorem ul_parse_foraf_effect (env : ul_parse_env) (u u1 : ul_opts)
    (h : ul_parse_foraf env u = ul_res.ok u1) :
    u1.requested_ptime = u.requested_ptime ∧ u1.codecs = u.codecs ∧ u1.onhold = u.onhold
      ∧ u1.ia0 = u.ia0 ∧ u1.ia1 = u.ia1 ∧ u1.notify_socket = u.notify_socket
      ∧ u1.notify_tag = u.notify_tag ∧ u1.pf = u.pf := by
  unfold ul_parse_foraf at h
  repeat' split at h
  all_goals cases h
  all_goals exact ⟨rfl, rfl, rfl, rfl, rfl, rfl, rfl, rfl⟩

theorem ul_parse_subc_effect (env : ul_parse_env) (n : Nat) (u u1 : ul_opts)
    (h : ul_parse_subc env n u = ul_res.ok u1) :
    u1.requested_ptime = u.requested_ptime ∧ u1.codecs = u.codecs ∧ u1.onhold = u.onhold
      ∧ u1.ia0 = u.ia0 ∧ u1.ia1 = u.ia1 ∧ u1.notify_socket = u.notify_socket
      ∧ u1.notify_tag = u.notify_tag ∧ u1.pf = u.pf := by
  unfold ul_parse_subc at h
  repeat' split at h
  all_goals cases h
  all_goals exact ⟨rfl, rfl, rfl, rfl, rfl, rfl, rfl, rfl⟩

/-- The remote address of the command: what `ul_parse_addr` leaves in the
hold flag and the two remote addresses of options that had none. -/
theorem ul_parse_addr_effect (env : ul_parse_env) (args : List CStr) (u u1 : ul_opts)
    (h0 : u.onhold = 0 ∧ u.ia0 = none ∧ u.ia1 = none)
    (h : ul_parse_addr env (args.get? 2) (args.get? 3) u = ul_res.ok u1) :
    u1.requested_ptime = u.requested_ptime ∧ u1.codecs = u.codecs
      ∧ u1.notify_socket = u.notify_socket ∧ u1.notify_tag = u.notify_tag ∧ u1.pf = u.pf
      ∧ (match ul_resolved env args u.pf with
         | some tia =>
           if ishostnull tia = true then u1.onhold = 1 ∧ u1.ia0 = none ∧ u1.ia1 = none
           else u1.onhold = 0 ∧ u1.ia0 = some tia
             ∧ u1.ia1 = some { tia with port := ul_rtcp_port env.be tia.port }
         | none => u1.onhold = 0 ∧ u1.ia0 = none ∧ u1.ia1 = none) := by
  obtain ⟨h1, h2, h3⟩ := h0
  unfold ul_parse_addr at h
  unfold ul_resolved
  cases ha : args.get? 2 with
  | none =>
    rw [ha] at h
    cases h
    exact ⟨rfl, rfl, rfl, rfl, rfl, h1, h2, h3⟩
  | some a =>
    cases hp : args.get? 3 with
    | none =>
      rw [ha, hp] at h
      cases h
      exact ⟨rfl, rfl, rfl, rfl, rfl, h1, h2, h3⟩
    | some p =>
      rw [ha, hp] at h
      simp only [] at h ⊢
      cases hv : IS_IPSTR_VALID a u.pf with
      | false =>
        rw [hv] at h
        cases h
        exact ⟨rfl, rfl, rfl, rfl, rfl, h1, h2, h3⟩
      | true =>
        rw [hv] at h
        simp only [if_true] at h ⊢
        cases hr : env.resolve u.pf a p with
        | none =>
          rw [hr] at h
          cases h
          exact ⟨rfl, rfl, rfl, rfl, rfl, h1, h2, h3⟩
        | some tia =>
          rw [hr] at h
          simp only [] at h ⊢
          cases hn : ishostnull tia with
          | true =>
            rw [hn] at h
            cases h
            exact ⟨rfl, rfl, rfl, rfl, rfl, by simp [h2, h3]⟩
          | false =>
            rw [hn] at h
            simp only [Bool.not_false, if_true] at h
            repeat' split at h
            all_goals cases h
            exact ⟨rfl, rfl, rfl, rfl, rfl, by simp [h1]⟩

/-- The steps after the loop keep the list of modifiers, the ptime, the
codecs, the notify fields and the family, and set the hold flag and the
remote addresses from the address the positional arguments resolve to. -/
theorem ul_parse_finish_effect (env : ul_parse_env) (args : List CStr) (n : Nat)
    (st st1 : ul_parse_st) (h0 : st.ulop.onhold = 0 ∧ st.ulop.ia0 = none ∧ st.ulop.ia1 = none)
    (h : ul_parse_finish env args n st = ul_res.ok st1) :
    st1.seen = st.seen ∧ st1.ulop.requested_ptime = st.ulop.requested_ptime
      ∧ st1.ulop.codecs = st.ulop.codecs ∧ st1.ulop.notify_socket = st.ulop.notify_socket
      ∧ st1.ulop.notify_tag = st.ulop.notify_tag ∧ st1.ulop.pf = st.ulop.pf
      ∧ (match ul_resolved env args st1.ulop.pf with
         | some tia =>
           if ishostnull tia = true then
             st1.ulop.onhold = 1 ∧ st1.ulop.ia0 = none ∧ st1.ulop.ia1 = none
           else st1.ulop.onhold = 0 ∧ st1.ulop.ia0 = some tia
             ∧ st1.ulop.ia1 = some { tia with port := ul_rtcp_port env.be tia.port }
         | none => st1.ulop.onhold = 0 ∧ st1.ulop.ia0 = none ∧ st1.ulop.ia1 = none) := by
  unfold ul_parse_finish at h
  cases hf : ul_parse_foraf env st.ulop with
  | undefined => rw [hf] at h; cases h
  | error e => rw [hf] at h; cases h
  | ok u1 =>
    rw [hf] at h
    simp only [] at h
    obtain ⟨f1, f2, f3, f4, f5, f6, f7, f8⟩ := ul_parse_foraf_effect env _ _ hf
    cases ha : ul_parse_addr env (args.get? 2) (args.get? 3) u1 with
    | undefined => rw [ha] at h; cases h
    | error e => rw [ha] at h; cases h
    | ok u2 =>
      rw [ha] at h
      simp only [] at h
      obtain ⟨a1, a2, a3, a4, a5, a6⟩ := ul_parse_addr_effect env args u1 u2
        ⟨f3.trans h0.1, f4.trans h0.2.1, f5.trans h0.2.2⟩ ha
      cases hs : ul_parse_subc env n u2 with
      | undefined => rw [hs] at h; cases h
      | error e => rw [hs] at h; cases h
      | ok u3 =>
        rw [hs] at h
        cases h
        obtain ⟨s1, s2, s3, s4, s5, s6, s7, s8⟩ := ul_parse_subc_effect env n _ _ hs
        refine ⟨rfl, s1.trans (a1.trans f1), s2.trans (a2.trans f2), s6.trans (a3.trans f6),
          s7.trans (a4.trans f7), s8.trans (a5.trans f8), ?_⟩
        simp only []
        rw [s3, s4, s5, s8, a5]
        exact a6

theorem isdigit_not_isspace (c : Char) (h : isdigit c = true) : isspace c = false := by
  unfold isdigit at h
  unfold isspace
  simp only [decide_eq_true_eq] at h
  simp only [Bool.or_eq_false_iff, decide_eq_false_iff_not]
  omega

theorem isdigit_not_sign (c : Char) (h : isdigit c = true) : c ≠ '-' ∧ c ≠ '+' := by
  constructor <;> rintro rfl <;> exact absurd h (by decide)

/-- The function `strtol` on a run of digits followed by a text that does not
begin with a digit: the value of the digits, at most `LONG_MAX`, and the
length of the run. -/
theorem strtol_digits (ds tail : CStr) (hne : ds ≠ []) (hd : ∀ c ∈ ds, isdigit c = true)
    (ht : ∀ c, tail.head? = some c → isdigit c = false) :
    strtol (ds ++ tail) = (min (digits_value ds : Int) LONG_MAX, ds.length) := by
  obtain ⟨d, ds1, rfl⟩ := List.exists_cons_of_ne_nil hne
  have hdd : isdigit d = true := hd d (List.mem_cons_self _ _)
  have hsp : isspace d = false := isdigit_not_isspace d hdd
  obtain ⟨hm, hpl⟩ := isdigit_not_sign d hdd
  have htail : tail.takeWhile isdigit = [] := by
    cases tail with
    | nil => rfl
    | cons t ts => simp [List.takeWhile, ht t rfl]
  have htw : ((d :: ds1) ++ tail).takeWhile isdigit = d :: ds1 := by
    rw [List.takeWhile_append_of_pos hd, htail, List.append_nil]
  unfold strtol
  simp only [List.cons_append, List.takeWhile_cons, List.dropWhile_cons, hsp, Bool.false_eq_true,
    if_false, List.head?_cons, Option.some.injEq, hm, hpl, or_self, List.drop_zero,
    decide_False]
  have htw2 : List.takeWhile isdigit (d :: (ds1 ++ tail)) = d :: ds1 := htw
  simp only [List.takeWhile_cons] at htw2
  rw [htw2]
  simp

/-- What a successful parse returns, read off its steps. -/
theorem ul_parse_result (cfsp : rtpp_cfg) (env : ul_parse_env) (cmd : rtpp_command)
    (args : List CStr) (n : Nat) (r : ul_parse_st)
    (h : rtpp_command_ul_opts_parse cfsp env cmd args n = ul_res.ok r) :
    ∃ x mods, args.head? = some (x :: mods)
      ∧ r.ulop.requested_ptime = ptime_of_seen r.seen
      ∧ (r.seen.filter is_z ≠ [] → 0 < r.ulop.requested_ptime)
      ∧ r.ulop.codecs = codecs_of_seen r.seen
      ∧ (∀ cs, r.ulop.codecs = some cs → cs ≠ [])
      ∧ (∀ m ∈ r.seen, ∃ pre, mods = pre ++ m.1 :: m.2)
      ∧ (cmd.op ≠ rtpp_cmd_op.UPDATE →
          r.ulop.notify_socket = none ∧ r.ulop.notify_tag = none)
      ∧ (match ul_resolved env args r.ulop.pf with
         | some tia =>
           if ishostnull tia = true then
             r.ulop.onhold = 1 ∧ r.ulop.ia0 = none ∧ r.ulop.ia1 = none
           else r.ulop.onhold = 0 ∧ r.ulop.ia0 = some tia
             ∧ r.ulop.ia1 = some { tia with port := ul_rtcp_port env.be tia.port }
         | none => r.ulop.onhold = 0 ∧ r.ulop.ia0 = none ∧ r.ulop.ia1 = none) := by
  obtain ⟨-, u0, x, mods, st, hn, ha, hm, hf⟩ := ul_parse_ok cfsp env cmd args n r h
  obtain ⟨n1, n2, n3, n4, n5, n6⟩ := ul_parse_notify_effect env cmd args _ u0 hn
  obtain ⟨m1, m2, m3, m4, m5, m6, m7, m8, m9⟩ :=
    ul_mods_result cfsp env mods u0 st (n1.trans rfl) (n2.trans rfl) hm
  have hseen := ul_mods_seen cfsp env mods 0 _ st hm
  obtain ⟨f1, f2, f3, f4, f5, f6, f7⟩ := ul_parse_finish_effect env args n st r
    ⟨m1.trans (n3.trans rfl), m2.trans (n4.trans rfl), m3.trans (n5.trans rfl)⟩ hf
  refine ⟨x, mods, ha, ?_, ?_, ?_, ?_, ?_, ?_, f7⟩
  · rw [f2, f1]; exact m6
  · rw [f2, f1]; exact m7
  · rw [f3, f1]; exact m8
  · intro cs hcs; rw [f3] at hcs; exact m9 cs hcs
  · intro m hm1
    rw [f1] at hm1
    rcases hseen m hm1 with h1 | h1
    · cases h1
    · exact h1
  · intro hop
    have hu : u0 = ul_opts_init cfsp env.aforce := n6 hop
    rw [f4, f5, m4, m5, hu]
    exact ⟨rfl, rfl⟩

/-- C11 (amended): when the parse succeeds and the positional address and
port resolve to a host that is not the null host, with a port of 16 bits,
`ia[0]` is the resolved address with its port p and `ia[1]` the same address
with the port p + 1 modulo 2^16, which is p + 1 for p up to 65534. -/
theorem rtcp_port_follows_rtp_port (cfsp : rtpp_cfg) (env : ul_parse_env) (cmd : rtpp_command)
    (args : List CStr) (n : Nat) (r : ul_parse_st) (tia : sockaddr)
    (h : rtpp_command_ul_opts_parse cfsp env cmd args n = ul_res.ok r)
    (hres : ul_resolved env args r.ulop.pf = some tia) (hnull : ishostnull tia = false)
    (hp : tia.port ≤ 65535) :
    r.ulop.ia0 = some tia
      ∧ r.ulop.ia1 = some { tia with port := (tia.port + 1) % 65536 }
      ∧ (tia.port ≤ 65534 → r.ulop.ia1 = some { tia with port := tia.port + 1 }) := by
  obtain ⟨x, mods, -, -, -, -, -, -, -, ha⟩ := ul_parse_result cfsp env cmd args n r h
  rw [hres] at ha
  simp only [hnull, Bool.false_eq_true, if_false] at ha
  obtain ⟨-, h0, h1⟩ := ha
  have hport : ul_rtcp_port env.be tia.port = (tia.port + 1) % 65536 := by
    rw [ul_rtcp_port_eq]
    omega
  rw [hport] at h1
  refine ⟨h0, h1, fun h4 => ?_⟩
  rw [h1, Nat.mod_eq_of_lt (by omega)]

/-- Witness of C11 (amended): `U call-1 192.0.2.10 12000 from-1` gives the
remote addresses 192.0.2.10:12000 and 192.0.2.10:12001. -/
theorem rtcp_port_follows_rtp_port_witness :
    ex_parse_to.ulop.ia0 = some ⟨AF_INET, [192, 0, 2, 10], 12000⟩
      ∧ ex_parse_to.ulop.ia1 = some ⟨AF_INET, [192, 0, 2, 10], 12001⟩ :=
  ⟨(rtcp_port_follows_rtp_port ex_cfg (ex_parse_env 12000) ex_cmd_u (ex_args "U" "192.0.2.10" "12000") 0
      ex_parse_to ⟨AF_INET, [192, 0, 2, 10], 12000⟩ (by decide) (by decide) (by decide)
      (by decide)).1,
    (rtcp_port_follows_rtp_port ex_cfg (ex_parse_env 12000) ex_cmd_u (ex_args "U" "192.0.2.10" "12000") 0
      ex_parse_to ⟨AF_INET, [192, 0, 2, 10], 12000⟩ (by decide) (by decide) (by decide)
      (by decide)).2.2 (by decide)⟩

/-- C11 as stated fails for p = 65535: the parse of
`U call-1 192.0.2.10 65535 from-1` gives `ia[0]` the port 65535 and `ia[1]`
the port 0, not 65536. -/
theorem rtcp_port_wraps_at_65535 :
    (rtpp_command_ul_opts_parse ex_cfg (ex_parse_env 65535) ex_cmd_u
        (ex_args "U" "192.0.2.10" "65535") 0).toOption.map (fun r => (r.ulop.ia0, r.ulop.ia1))
      = some (some ⟨AF_INET, [192, 0, 2, 10], 65535⟩, some ⟨AF_INET, [192, 0, 2, 10], 0⟩) := by
  decide

/-- C12: in the options a successful parse returns, a positional address that
resolves to the null host sets `onhold` to 1 and leaves `ia[0]` and `ia[1]`
NULL; one that resolves to another host leaves `onhold` 0 and sets both. Never
is `onhold` set together with a remote address, so of the two steps of the
handler, `prefill_addr` and `reg_onhold`, at most one acts. -/
theorem hold_excludes_remote_addr (cfsp : rtpp_cfg) (env : ul_parse_env) (cmd : rtpp_command)
    (args : List CStr) (n : Nat) (r : ul_parse_st)
    (h : rtpp_command_ul_opts_parse cfsp env cmd args n = ul_res.ok r) :
    (∀ tia, ul_resolved env args r.ulop.pf = some tia → ishostnull tia = true →
        r.ulop.onhold = 1 ∧ r.ulop.ia0 = none ∧ r.ulop.ia1 = none)
      ∧ (∀ tia, ul_resolved env args r.ulop.pf = some tia → ishostnull tia = false →
        r.ulop.onhold = 0 ∧ r.ulop.ia0 ≠ none ∧ r.ulop.ia1 ≠ none)
      ∧ ¬ (r.ulop.onhold ≠ 0 ∧ (r.ulop.ia0 ≠ none ∨ r.ulop.ia1 ≠ none))
      ∧ (∀ pidx spa, ul_tail_prefill r.ulop pidx spa = spa
          ∨ ul_tail_onhold r.ulop pidx spa = spa) := by
  obtain ⟨x, mods, -, -, -, -, -, -, -, ha⟩ := ul_parse_result cfsp env cmd args n r h
  have hex : ¬ (r.ulop.onhold ≠ 0 ∧ (r.ulop.ia0 ≠ none ∨ r.ulop.ia1 ≠ none)) := by
    rintro ⟨h1, h2⟩
    cases hr : ul_resolved env args r.ulop.pf with
    | none =>
      rw [hr] at ha
      exact h1 ha.1
    | some tia =>
      rw [hr] at ha
      simp only [] at ha
      split at ha
      · rcases h2 with h2 | h2
        · exact h2 ha.2.1
        · exact h2 ha.2.2
      · exact h1 ha.1
  refine ⟨?_, ?_, hex, ?_⟩
  · intro tia hres hnull
    rw [hres] at ha
    simpa [hnull] using ha
  · intro tia hres hnull
    rw [hres] at ha
    simp only [hnull, Bool.false_eq_true, if_false] at ha
    obtain ⟨h1, h2, h3⟩ := ha
    exact ⟨h1, by rw [h2]; simp, by rw [h3]; simp⟩
  · intro pidx spa
    by_cases ho : r.ulop.onhold = 0
    · right
      unfold ul_tail_onhold
      rw [if_neg (by simpa using ho)]
    · left
      have h0 : r.ulop.ia0 = none := by
        by_contra hc
        exact hex ⟨ho, Or.inl hc⟩
      unfold ul_tail_prefill
      rw [h0]

/-- Witness of C12: `U call-1 0.0.0.0 0 from-1` puts the side on hold without
a remote address, and `U call-1 192.0.2.10 12000 from-1` sets both remote
addresses without the hold. -/
theorem hold_excludes_remote_addr_witness :
    (ex_parse_hold.ulop.onhold = 1 ∧ ex_parse_hold.ulop.ia0 = none
        ∧ ex_parse_hold.ulop.ia1 = none)
      ∧ (ex_parse_to.ulop.onhold = 0 ∧ ex_parse_to.ulop.ia0 ≠ none
        ∧ ex_parse_to.ulop.ia1 ≠ none) :=
  ⟨(hold_excludes_remote_addr ex_cfg ex_parse_env_null ex_cmd_u (ex_args "U" "0.0.0.0" "0") 0
      ex_parse_hold (by decide)).1 ⟨AF_INET, [0, 0, 0, 0], 0⟩ (by decide) (by decide),
    (hold_excludes_remote_addr ex_cfg (ex_parse_env 12000) ex_cmd_u
      (ex_args "U" "192.0.2.10" "12000") 0 ex_parse_to (by decide)).2.1
      ⟨AF_INET, [192, 0, 2, 10], 12000⟩ (by decide) (by decide)⟩

/-- The loop over the modifiers never calls `url_unquote`. -/
theorem ul_mods_url (cfsp : rtpp_cfg) (env : ul_parse_env) (f : CStr → Option CStr) :
    ∀ (cs : CStr) (skip : Nat) (st : ul_parse_st),
      ul_mods cfsp { env with url_unquote := f } skip cs st = ul_mods cfsp env skip cs st := by
  intro cs
  induction cs with
  | nil => intro skip st; cases skip <;> rfl
  | cons c cs ih =>
    intro skip st
    cases skip with
    | succ k => simp only [ul_mods]; exact ih k st
    | zero =>
      simp only [ul_mods]
      have hs : ul_mod_step cfsp { env with url_unquote := f } c cs st.ulop
          = ul_mod_step cfsp env c cs st.ulop := rfl
      rw [hs]
      cases ul_mod_step cfsp env c cs st.ulop with
      | undefined => rfl
      | error e => rfl
      | ok v => exact ih v.2 _

/-- C13 (amended): once the options are allocated, an update with more than
six arguments whose notify tag `url_unquote` refuses is answered with
`ECODE_PARSE_10` and gets no options. A command that is not an update gets
options without notify socket and tag, and its parse is the same whatever
follows its first four arguments and whatever `url_unquote` would return. -/
theorem bad_notify_tag_is_parse_10 (cfsp : rtpp_cfg) (env : ul_parse_env) (cmd : rtpp_command)
    (args : List CStr) (n : Nat) (tag : CStr) (hz : env.zmalloc_ok = true)
    (hop : cmd.op = rtpp_cmd_op.UPDATE) (hlen : args.length > 6)
    (htag : (if args.length = 8 then args.get? 7 else args.get? 6) = some tag)
    (hurl : env.url_unquote tag = none) :
    rtpp_command_ul_opts_parse cfsp env cmd args n
        = ul_res.error ul_parse_ecode.ECODE_PARSE_10
      ∧ (∀ (cmd1 : rtpp_command) (args1 : List CStr) (n1 : Nat) (r : ul_parse_st),
          cmd1.op = rtpp_cmd_op.LOOKUP →
          rtpp_command_ul_opts_parse cfsp env cmd1 args1 n1 = ul_res.ok r →
          r.ulop.notify_socket = none ∧ r.ulop.notify_tag = none)
      ∧ (∀ (cmd1 : rtpp_command) (a0 a1 a2 a3 : CStr) (xs ys : List CStr) (n1 : Nat)
          (f : CStr → Option CStr), cmd1.op = rtpp_cmd_op.LOOKUP →
          rtpp_command_ul_opts_parse cfsp { env with url_unquote := f } cmd1
              (a0 :: a1 :: a2 :: a3 :: ys) n1
            = rtpp_command_ul_opts_parse cfsp env cmd1 (a0 :: a1 :: a2 :: a3 :: xs) n1) := by
  refine ⟨?_, ?_, ?_⟩
  · unfold rtpp_command_ul_opts_parse ul_parse_notify
    rw [hz]
    simp only [Bool.not_true, Bool.false_eq_true, if_false, hop, hlen, and_self, if_true, htag,
      hurl]
  · intro cmd1 args1 n1 r hop1 hr
    obtain ⟨x, mods, -, -, -, -, -, -, hnot, -⟩ := ul_parse_result cfsp env cmd1 args1 n1 r hr
    exact hnot (by rw [hop1]; decide)
  · intro cmd1 a0 a1 a2 a3 xs ys n1 f hop1
    have hno : ∀ (e : ul_parse_env) (l : List CStr) (u : ul_opts),
        ul_parse_notify e cmd1 l u = ul_res.ok u := by
      intro e l u
      unfold ul_parse_notify
      rw [if_neg]
      rw [hop1]
      rintro ⟨h1, -⟩
      cases h1
    unfold rtpp_command_ul_opts_parse
    rw [hno, hno]
    simp only [List.head?_cons]
    cases a0 with
    | nil => rfl
    | cons x mods =>
      simp only []
      rw [ul_mods_url]
      rfl

/-- Witness of C13 (amended): the update
`U call-1 192.0.2.10 12000 from-1 to-1 tcp:sock bad%zz` is answered with
`ECODE_PARSE_10`. -/
theorem bad_notify_tag_is_parse_10_witness :
    rtpp_command_ul_opts_parse ex_cfg ex_parse_env_url ex_cmd_u ex_args_notify 0
      = ul_res.error ul_parse_ecode.ECODE_PARSE_10 :=
  (bad_notify_tag_is_parse_10 ex_cfg ex_parse_env_url ex_cmd_u ex_args_notify 0 "bad%zz".toList rfl rfl
    (by decide) (by decide) (by decide)).1

/-- C13 as stated fails when the options cannot be allocated: the same update
whose notify tag `url_unquote` refuses is answered with `ECODE_NOMEM_1`. -/
theorem nomem_before_notify_tag :
    rtpp_command_ul_opts_parse ex_cfg { ex_parse_env_url with zmalloc_ok := false } ex_cmd_u
        ex_args_notify 0 = ul_res.error ul_parse_ecode.ECODE_NOMEM_1
      ∧ ex_cmd_u.op = rtpp_cmd_op.UPDATE ∧ ex_args_notify.length > 6
      ∧ (ex_args_notify.get? 7).bind ex_parse_env_url.url_unquote = none := by
  decide

/-- The worker decodes the event at the fixed offset of `sizeof(rtp_hdr_t)`,
which is the payload of a packet without contributing sources. -/
theorem dtmf_of_eq_dtmf_at (be : Bool) (pkt : rtp_packet) :
    dtmf_of be pkt = dtmf_at be pkt sizeof_rtp_hdr_t
      ∧ (rtp_cc pkt = 0 → dtmf_of be pkt = dtmf_at be pkt (payload_offset pkt)) := by
  refine ⟨rfl, fun h => ?_⟩
  unfold payload_offset
  rw [h]
  rfl

/-- C21 fails in the code: for the packet with one contributing source the
payload starts at offset 16 and carries event 1, but the worker decodes the
bytes at offset 12, the identifier of the source, as event 5 with the end
bit, and records the digit '5' (53) for it. -/
theorem csrc_bytes_decoded_as_event :
    rtp_cc ex_pkt_csrc = 1 ∧ payload_offset ex_pkt_csrc = 16
      ∧ dtmf_at false ex_pkt_csrc (payload_offset ex_pkt_csrc) = ⟨1, 0, 0, 10, 40960⟩
      ∧ dtmf_of false ex_pkt_csrc = ⟨5, 1, 0, 10, 40960⟩
      ∧ (rtpp_catch_dtmf_worker false ex_edata ex_rtdp ex_pkt_csrc).1.hst.head?
          = some ⟨1, 53, 1000, 160⟩ := by
  decide

/-- C22 (amended): when the event of the packet passes the guard of the
worker and no slot of a history of four slots holds both a digit other than
-1 and the timestamp of the packet, the worker writes pending, the digit,
the timestamp and the duration of the packet into slot `hst_next`, sets
`hst_next` to `hst_next + 1` modulo 4, leaves the other slots as they are and
schedules nothing, whatever the end bit is. -/
theorem new_event_in_next_slot (be : Bool) (ed : catch_dtmf_edata) (rtdp : rtpp_timeout_data)
    (pkt : rtp_packet) (hl : ed.hst.length = 4) (hn : 0 ≤ ed.hst_next ∧ ed.hst_next < 4)
    (he : (dtmf_of be pkt).event ≤ 17)
    (hno : ∀ i < 4, ¬ ((slot ed i).ts = event_ts be pkt ∧ (slot ed i).digit ≠ -1)) :
    (rtpp_catch_dtmf_worker be ed rtdp pkt).2 = []
      ∧ (rtpp_catch_dtmf_worker be ed rtdp pkt).1.hst_next = (ed.hst_next + 1) % 4
      ∧ slot (rtpp_catch_dtmf_worker be ed rtdp pkt).1 ed.hst_next.toNat
          = ⟨1, dtmf_digit (dtmf_of be pkt).event, event_ts be pkt,
              ntohs be (dtmf_of be pkt).duration⟩
      ∧ (∀ i : Nat, i < 4 → (i : Int) ≠ ed.hst_next →
          slot (rtpp_catch_dtmf_worker be ed rtdp pkt).1 i = slot ed i)
      ∧ (rtpp_catch_dtmf_worker be ed rtdp pkt).1.hst.length = 4 := by
  rw [worker_new_event be ed rtdp pkt he (hst_search_eq_none ed _ hn hno)]
  refine ⟨rfl, ?_, ?_, ?_, ?_⟩
  · show (if ed.hst_next + 1 = 4 then 0 else ed.hst_next + 1) = _
    split <;> omega
  · show slot (hst_set ed ed.hst_next _) ed.hst_next.toNat = _
    rw [slot_hst_set]
    rw [if_pos ⟨hn.1, rfl, by omega⟩]
  · intro i _ hne
    show slot (hst_set ed ed.hst_next _) i = _
    rw [slot_hst_set]
    rw [if_neg]
    rintro ⟨h0, h1, -⟩
    apply hne
    omega
  · show (hst_set ed ed.hst_next _).hst.length = 4
    rw [hst_set_length, hl]

/-- Witness of C22 (amended): the end packet of event 5 at the timestamp 1000
is the first packet of a fresh history: it is recorded in slot 0 as pending,
`hst_next` becomes 1 and nothing is scheduled. -/
theorem new_event_in_next_slot_witness :
    (rtpp_catch_dtmf_worker false ex_edata ex_rtdp (mk_dtmf_pkt 101 1000 5 1 10 480)).2 = []
      ∧ (rtpp_catch_dtmf_worker false ex_edata ex_rtdp
          (mk_dtmf_pkt 101 1000 5 1 10 480)).1.hst_next = 1
      ∧ slot (rtpp_catch_dtmf_worker false ex_edata ex_rtdp (mk_dtmf_pkt 101 1000 5 1 10 480)).1 0
          = ⟨1, 53, 1000, 480⟩ :=
  ⟨(new_event_in_next_slot false ex_edata ex_rtdp (mk_dtmf_pkt 101 1000 5 1 10 480) (by decide)
      (by decide) (by decide) (by decide)).1,
    (new_event_in_next_slot false ex_edata ex_rtdp (mk_dtmf_pkt 101 1000 5 1 10 480) (by decide)
      (by decide) (by decide) (by decide)).2.1.trans (by decide),
    (new_event_in_next_slot false ex_edata ex_rtdp (mk_dtmf_pkt 101 1000 5 1 10 480) (by decide)
      (by decide) (by decide) (by decide)).2.2.1.trans (by decide)⟩

/-- C22 as stated fails: a packet with the event 200 meets a fresh history, in
which no slot holds a digit, and the worker drops it: slot 0 is not written
and `hst_next` stays 0. -/
theorem unhandled_event_not_recorded :
    rtpp_catch_dtmf_worker false ex_edata ex_rtdp (mk_dtmf_pkt 101 1000 200 0 10 160)
        = (ex_edata, [])
      ∧ ex_edata.hst_next = 0
      ∧ (∀ i < 4, (slot ex_edata i).digit = -1) := by
  decide

/-- A packet that finds a slot which is not pending, or whose digit is not
the digit of the packet, is dropped. -/
theorem worker_mismatch (be : Bool) (ed : catch_dtmf_edata) (rtdp : rtpp_timeout_data)
    (pkt : rtp_packet) (j : Int)
    (hs : hst_search ed (event_ts be pkt) hst_counters = some j)
    (hm : (hst_get ed j).pending = 0 ∨ pkt_digit be pkt ≠ some (hst_get ed j).digit) :
    rtpp_catch_dtmf_worker be ed rtdp pkt = (ed, []) := by
  unfold rtpp_catch_dtmf_worker
  simp only []
  by_cases he : (dtmf_of be pkt).event > sizeof_dtmf_events - 1
  · rw [if_pos he]
  · rw [if_neg he, hs]
    simp only []
    by_cases hp : (hst_get ed j).pending = 0
    · rw [if_pos hp]
    · rw [if_neg hp]
      have hd : dtmf_digit (dtmf_of be pkt).event ≠ (hst_get ed j).digit := by
        rcases hm with h | h
        · exact absurd h hp
        · intro hc
          apply h
          unfold pkt_digit
          rw [if_neg he, hc]
      rw [if_pos hd]

/-- The invariant of the history holds after every queue of packets. -/
theorem hst_inv_run (be : Bool) (rtdp : rtpp_timeout_data) (pkts : List rtp_packet) :
    ∀ ed, hst_inv ed → hst_inv (worker_run be rtdp ed pkts) := by
  induction pkts with
  | nil => intro ed h; exact h
  | cons p ps ih =>
    intro ed h
    exact ih _ (hst_inv_step be ed rtdp p h)

/-- C23: when the slot the search finds for the timestamp of the packet is not
pending, or is pending and holds another digit than the packet's, the worker
leaves the whole history as it is and schedules nothing. Under the
invariant of the history the slot found is the one slot with that timestamp
and a valid digit; and the packet that has just been notified, sent again,
is dropped in this way. -/
theorem mismatch_is_dropped (be : Bool) (ed : catch_dtmf_edata) (rtdp : rtpp_timeout_data)
    (pkt : rtp_packet) (j : Int)
    (hs : hst_search ed (event_ts be pkt) hst_counters = some j)
    (hm : (hst_get ed j).pending = 0
      ∨ ((hst_get ed j).pending ≠ 0 ∧ pkt_digit be pkt ≠ some (hst_get ed j).digit)) :
    rtpp_catch_dtmf_worker be ed rtdp pkt = (ed, [])
      ∧ (hst_inv ed → ∀ i : Nat, i < 4 → (slot ed i).ts = event_ts be pkt →
          (slot ed i).digit ≠ -1 → j = (i : Int))
      ∧ (∀ ed0 : catch_dtmf_edata, hst_inv ed0 →
          (rtpp_catch_dtmf_worker be ed0 rtdp pkt).2 ≠ [] →
          rtpp_catch_dtmf_worker be (rtpp_catch_dtmf_worker be ed0 rtdp pkt).1 rtdp pkt
            = ((rtpp_catch_dtmf_worker be ed0 rtdp pkt).1, [])) := by
  refine ⟨?_, ?_, ?_⟩
  · apply worker_mismatch be ed rtdp pkt j hs
    rcases hm with h | h
    · exact Or.inl h
    · exact Or.inr h.2
  · intro hinv i hi h1 h2
    have := hst_search_eq_some ed _ i hinv hi h1 h2
    rw [hs] at this
    exact Option.some.inj this
  · intro ed0 hinv hne
    have hinv1 := hst_inv_step be ed0 rtdp pkt hinv
    obtain ⟨i, hi, h1, h2, h3⟩ := (notified_done be ed0 rtdp pkt hinv).2 hne
    have hs1 := hst_search_eq_some _ _ i hinv1 hi h1 h2
    apply worker_mismatch be _ rtdp pkt i hs1
    left
    rw [hst_get_eq_slot _ _ (by omega)]
    simpa using h3

/-- Witness of C23: after the start and the end of event 5 at the timestamp
1000 the slot 0 is closed, and the end packet sent again changes nothing and
schedules nothing. -/
theorem mismatch_is_dropped_witness :
    rtpp_catch_dtmf_worker false ex_edata_ended ex_rtdp (mk_dtmf_pkt 101 1000 5 1 10 480)
      = (ex_edata_ended, []) :=
  (mismatch_is_dropped false ex_edata_ended ex_rtdp (mk_dtmf_pkt 101 1000 5 1 10 480) 0
    (by decide) (Or.inl (by decide))).1

theorem hst_index_range (n i : Int) (hn : 0 ≤ n ∧ n < 4) (hi : i ∈ hst_counters) :
    0 ≤ hst_index n i ∧ hst_index n i < 4 := by
  rw [hst_counters_eq] at hi
  simp only [List.mem_cons, List.mem_singleton, List.not_mem_nil, or_false] at hi
  simp only [hst_index, EINFO_HST_DPTH]
  rcases hi with rfl | rfl | rfl | rfl <;> (split <;> omega)

/-- C27: in every history that the worker reaches from a freshly constructed
one by a queue of packets, `hst_next` is at least 0 and below 4, the
history has its four slots, and every index `hst_next - i`, plus 4 when that
is negative, of the search for i in 1..4 lies within them. -/
theorem hst_next_in_range (be : Bool) (rtdp : rtpp_timeout_data) (side : rtpp_stream_side)
    (ed0 : catch_dtmf_edata) (pkts : List rtp_packet)
    (h0 : rtpp_catch_dtmf_edata_ctor true side = some ed0) :
    0 ≤ (worker_run be rtdp ed0 pkts).hst_next ∧ (worker_run be rtdp ed0 pkts).hst_next < 4
      ∧ (worker_run be rtdp ed0 pkts).hst.length = 4
      ∧ (∀ i ∈ hst_counters, 0 ≤ hst_index (worker_run be rtdp ed0 pkts).hst_next i
          ∧ hst_index (worker_run be rtdp ed0 pkts).hst_next i < 4) := by
  have hinv := hst_inv_run be rtdp pkts ed0 (hst_inv_fresh side ed0 h0).1
  exact ⟨hinv.2.1, hinv.2.2.1, hinv.1,
    fun i hi => hst_index_range _ i ⟨hinv.2.1, hinv.2.2.1⟩ hi⟩

/-- Witness of C27: after five new events on a fresh history `hst_next` is 1. -/
theorem hst_next_in_range_witness :
    (worker_run false ex_rtdp ex_edata
        [mk_dtmf_pkt 101 1000 1 0 10 160, mk_dtmf_pkt 101 2000 2 0 10 160,
          mk_dtmf_pkt 101 3000 3 0 10 160, mk_dtmf_pkt 101 4000 4 0 10 160,
          mk_dtmf_pkt 101 5000 5 0 10 160]).hst_next = 1
      ∧ 0 ≤ (worker_run false ex_rtdp ex_edata
        [mk_dtmf_pkt 101 1000 1 0 10 160, mk_dtmf_pkt 101 2000 2 0 10 160,
          mk_dtmf_pkt 101 3000 3 0 10 160, mk_dtmf_pkt 101 4000 4 0 10 160,
          mk_dtmf_pkt 101 5000 5 0 10 160]).hst_next :=
  ⟨by decide,
    (hst_next_in_range false ex_rtdp rtpp_stream_side.RTPP_SSIDE_CALLER ex_edata
      [mk_dtmf_pkt 101 1000 1 0 10 160, mk_dtmf_pkt 101 2000 2 0 10 160,
        mk_dtmf_pkt 101 3000 3 0 10 160, mk_dtmf_pkt 101 4000 4 0 10 160,
        mk_dtmf_pkt 101 5000 5 0 10 160] (by decide)).1⟩

/-- The search over the counters in any order finds the same slot, when no
two valid slots carry the same timestamp. -/
theorem hst_search_order (ed : catch_dtmf_edata) (ts : Nat) (order : List Int)
    (hinv : hst_inv ed) (hperm : order.Perm hst_counters) :
    hst_search ed ts order = hst_search ed ts hst_counters := by
  have hn : 0 ≤ ed.hst_next ∧ ed.hst_next < 4 := ⟨hinv.2.1, hinv.2.2.1⟩
  cases h1 : hst_search ed ts order with
  | none =>
    cases h2 : hst_search ed ts hst_counters with
    | none => rfl
    | some j2 =>
      exfalso
      obtain ⟨⟨k, hk, hj⟩, hm⟩ := hst_search_some_mem ed ts j2 _ h2
      have := hst_search_none_mem ed ts order h1 k (hperm.mem_iff.2 hk)
      rw [← hj] at this
      exact this hm
  | some j1 =>
    obtain ⟨⟨k, hk, hj⟩, hm1⟩ := hst_search_some_mem ed ts j1 _ h1
    have hk2 : k ∈ hst_counters := hperm.mem_iff.1 hk
    obtain ⟨r0, r4⟩ := hst_index_range ed.hst_next k hn hk2
    rw [← hj] at r0 r4
    rw [hst_get_eq_slot ed j1 r0] at hm1
    have := hst_search_eq_some ed ts j1.toNat hinv (by omega) hm1.1 hm1.2
    rw [this]
    congr 1
    omega

/-- C28: in every history that the worker reaches from a freshly constructed
one by a queue of packets, no two slots whose digit is not -1 carry the same
timestamp, so the search finds the same slot in whatever order it visits the
four slots. In the freshly constructed history every digit is -1, so the
search for the timestamp 0 finds no slot, and a packet with that timestamp
whose event passes the guard is recorded as a new event in slot 0. -/
theorem valid_slots_distinct_ts (be : Bool) (rtdp : rtpp_timeout_data)
    (side : rtpp_stream_side) (ed0 : catch_dtmf_edata) (pkts : List rtp_packet)
    (h0 : rtpp_catch_dtmf_edata_ctor true side = some ed0) :
    (∀ i < 4, ∀ j < 4, (slot (worker_run be rtdp ed0 pkts) i).digit ≠ -1 →
        (slot (worker_run be rtdp ed0 pkts) j).digit ≠ -1 →
        (slot (worker_run be rtdp ed0 pkts) i).ts = (slot (worker_run be rtdp ed0 pkts) j).ts →
        i = j)
      ∧ (∀ (ts : Nat) (order : List Int), order.Perm hst_counters →
          hst_search (worker_run be rtdp ed0 pkts) ts order
            = hst_search (worker_run be rtdp ed0 pkts) ts hst_counters)
      ∧ (∀ i < 4, (slot ed0 i).digit = -1)
      ∧ hst_search ed0 0 hst_counters = none
      ∧ (∀ pkt : rtp_packet, event_ts be pkt = 0 → (dtmf_of be pkt).event ≤ 17 →
          rtpp_catch_dtmf_worker be ed0 rtdp pkt
            = ({ hst_set ed0 0 ⟨1, dtmf_digit (dtmf_of be pkt).event, 0,
                    ntohs be (dtmf_of be pkt).duration⟩ with hst_next := 1 }, [])) := by
  obtain ⟨hinv0, hfresh⟩ := hst_inv_fresh side ed0 h0
  have hinv := hst_inv_run be rtdp pkts ed0 hinv0
  have hnone : ∀ ts, hst_search ed0 ts hst_counters = none := fun ts =>
    hst_search_eq_none ed0 ts ⟨hinv0.2.1, hinv0.2.2.1⟩
      (fun i hi hc => hc.2 (hfresh i hi))
  refine ⟨hinv.2.2.2.1, fun ts order hp => hst_search_order _ ts order hinv hp, hfresh,
    hnone 0, ?_⟩
  intro pkt hts he
  have hnext : ed0.hst_next = 0 := by
    simp only [rtpp_catch_dtmf_edata_ctor, if_true, Option.some.injEq] at h0
    rw [← h0]
  rw [worker_new_event be ed0 rtdp pkt he (hnone _), hts, hnext]
  rfl

/-- Witness of C28: the first packet of a fresh history carries the timestamp
0 and is recorded as a new event. -/
theorem valid_slots_distinct_ts_witness :
    hst_search ex_edata 0 hst_counters = none
      ∧ (rtpp_catch_dtmf_worker false ex_edata ex_rtdp (mk_dtmf_pkt 101 0 5 0 10 160)).1.hst
          = [⟨1, 53, 0, 160⟩, ⟨0, -1, 0, 0⟩, ⟨0, -1, 0, 0⟩, ⟨0, -1, 0, 0⟩] :=
  ⟨(valid_slots_distinct_ts false ex_rtdp rtpp_stream_side.RTPP_SSIDE_CALLER ex_edata []
      (by decide)).2.2.2.1,
    by decide⟩

/-! ## Theorems: ptime and resizer, the family lookup, and unknown modifiers -/

theorem pipe_stream_upd_same (p : rtpp_pipe) (i : Int) (f : rtpp_stream → rtpp_stream) :
    pipe_stream (pipe_upd p i f) i = f (pipe_stream p i) := by
  unfold pipe_upd pipe_stream pipe_with_stream
  by_cases h : i = 0 <;> simp [h]

theorem pipe_stream_upd_NOT (p : rtpp_pipe) (i : Int) (f : rtpp_stream → rtpp_stream) :
    pipe_stream (pipe_upd p (NOT i) f) i = pipe_stream p i
      ∧ pipe_stream (pipe_upd p i f) (NOT i) = pipe_stream p (NOT i) := by
  unfold pipe_upd pipe_stream pipe_with_stream NOT
  by_cases h : i = 0 <;> simp [h]

/-- The last step of the tail: the resizer of side `pidx` and the ptime of the
other side. -/
theorem ul_tail_ptime_streams (env : ul_env) (ulop : ul_opts) (pidx : Int)
    (spa : rtpp_session) :
    (pipe_stream (ul_tail_ptime env ulop pidx spa).rtp pidx).resizer
        = (if ulop.requested_ptime > 0 then
            if (pipe_stream spa.rtp pidx).resizer ≠ none then some ulop.requested_ptime
            else if env.resizer_ok then some ulop.requested_ptime else none
          else none)
      ∧ (pipe_stream (ul_tail_ptime env ulop pidx spa).rtp (NOT pidx)).ptime
        = ulop.requested_ptime := by
  unfold ul_tail_ptime
  simp only []
  constructor
  · rw [pipe_stream_upd_same, (pipe_stream_upd_NOT _ pidx _).1]
  · rw [(pipe_stream_upd_NOT _ pidx _).2, pipe_stream_upd_same]

theorem ul_fail_ret (e : ecode) (sp : Option rtpp_session) (a b : Nat) (w : rtpp_world)
    (k : Nat) : (ul_fail e sp a b w k).ret ≠ 0 := by
  show (-1 : Int) ≠ 0
  decide

/-- A call of the handler that returns 0 went through the tail, on the side
opposite to `sidx`, which is side 1 for a new session. -/
theorem ul_handle_ok_ctx (cfsp : rtpp_cfg) (env : ul_env) (cmd : rtpp_command)
    (w : rtpp_world) (sidx : Int) (ulop : ul_opts) (out : ul_outcome)
    (h : rtpp_command_ul_handle cfsp env cmd w sidx ulop = some out) (h0 : out.ret = 0) :
    ∃ c : ul_ctx, c.pidx = (if sidx = 0 ∨ sidx = -1 then 1 else 0)
      ∧ out.sp = some (ul_tail_session cfsp env cmd ulop c) := by
  unfold rtpp_command_ul_handle at h
  split at h
  · simp only [Option.some.injEq] at h
    subst h
    exact absurd h0 (ul_fail_ret _ _ _ _ _ _)
  · simp only [] at h
    split at h
    · cases h
    · rename_i o hf
      simp only [Option.some.injEq] at h
      subst h
      exfalso
      split at hf
      · split at hf
        · split at hf
          · cases hf
          · simp only [Option.some.injEq] at hf
            unfold ul_handle_existing at hf
            split at hf
            · simp only [Except.error.injEq] at hf
              subst hf
              exact absurd h0 (ul_fail_ret _ _ _ _ _ _)
            · cases hf
        · cases hf
      · simp only [Option.some.injEq] at hf
        unfold ul_handle_new at hf
        simp only [] at hf
        repeat' split at hf
        all_goals cases hf
        all_goals exact absurd h0 (ul_fail_ret _ _ _ _ _ _)
    · rename_i c hf
      refine ⟨c, ?_, ul_handle_tail_sp cfsp env cmd ulop c out h⟩
      split at hf
      · rename_i hs
        split at hf
        · rename_i hs2
          split at hf
          · cases hf
          · simp only [Option.some.injEq] at hf
            unfold ul_handle_existing at hf
            split at hf
            · cases hf
            · simp only [Except.ok.injEq] at hf
              subst hf
              simp only []
              rcases hs2 with h1 | h1
              · simp [h1]
              · subst h1
                simp
        · cases hf
      · rename_i hs
        simp only [ne_eq, Decidable.not_not] at hs
        simp only [Option.some.injEq] at hf
        rw [(ul_handle_new_ok cfsp env cmd w ulop c hf).1, hs]
        simp

/-- An update of a stream that leaves its resizer alone leaves the resizers
of the pipe alone. -/
theorem pipe_upd_resizer (p : rtpp_pipe) (j i : Int) (f : rtpp_stream → rtpp_stream)
    (hf : ∀ s, (f s).resizer = s.resizer) :
    (pipe_stream (pipe_upd p j f) i).resizer = (pipe_stream p i).resizer := by
  unfold pipe_stream
  by_cases hi : i = 0 <;> by_cases hj : j = 0 <;>
    simp only [hi, hj, if_true, if_false, pipe_upd_stream0, pipe_upd_stream1]
  all_goals exact hf _

theorem pipe_upd_both_resizer (p : rtpp_pipe) (i : Int) (f : rtpp_stream → rtpp_stream)
    (hf : ∀ s, (f s).resizer = s.resizer) :
    (pipe_stream (pipe_upd_both p f) i).resizer = (pipe_stream p i).resizer := by
  unfold pipe_upd_both
  rw [pipe_upd_resizer _ 1 i f hf, pipe_upd_resizer _ 0 i f hf]

/-- The steps of the tail before the ptime leave the resizers of the RTP
streams alone. -/
theorem ul_tail_resizer (cfsp : rtpp_cfg) (env : ul_env) (cmd : rtpp_command)
    (ulop : ul_opts) (pidx i : Int) (spa : rtpp_session) :
    (pipe_stream (ul_tail_codecs ulop pidx (ul_tail_asym ulop pidx (ul_tail_onhold ulop pidx
        (ul_tail_prefill ulop pidx (ul_tail_timeout cfsp env cmd ulop spa))))).rtp i).resizer
      = (pipe_stream spa.rtp i).resizer := by
  have h1 : (pipe_stream (ul_tail_timeout cfsp env cmd ulop spa).rtp i).resizer
      = (pipe_stream spa.rtp i).resizer := by
    unfold ul_tail_timeout
    repeat' split
    all_goals rfl
  have h2 : ∀ s : rtpp_session, (pipe_stream (ul_tail_prefill ulop pidx s).rtp i).resizer
      = (pipe_stream s.rtp i).resizer := by
    intro s
    unfold ul_tail_prefill
    split
    · exact pipe_upd_resizer _ _ _ _ (fun _ => rfl)
    · rfl
  have h3 : ∀ s : rtpp_session, (pipe_stream (ul_tail_onhold ulop pidx s).rtp i).resizer
      = (pipe_stream s.rtp i).resizer := by
    intro s
    unfold ul_tail_onhold
    split
    · exact pipe_upd_resizer _ _ _ _ (fun _ => rfl)
    · rfl
  have h4 : ∀ s : rtpp_session, (pipe_stream (ul_tail_asym ulop pidx s).rtp i).resizer
      = (pipe_stream s.rtp i).resizer := by
    intro s
    unfold ul_tail_asym
    exact pipe_upd_resizer _ _ _ _ (fun _ => rfl)
  have h5 : ∀ s : rtpp_session, (pipe_stream (ul_tail_codecs ulop pidx s).rtp i).resizer
      = (pipe_stream s.rtp i).resizer := by
    intro s
    unfold ul_tail_codecs
    exact pipe_upd_resizer _ _ _ _ (fun _ => rfl)
  rw [h5, h4, h3, h2, h1]

/-- The branch for an existing session leaves the resizers of the RTP streams
alone. -/
theorem ul_existing_resizer (cfsp : rtpp_cfg) (env : ul_env) (cmd : rtpp_command)
    (w : rtpp_world) (sidx i : Int) (ulop : ul_opts) (spa : rtpp_session) (c : ul_ctx)
    (h : ul_handle_existing cfsp env cmd w sidx ulop spa = Except.ok c) :
    (pipe_stream c.spa.rtp i).resizer = (pipe_stream spa.rtp i).resizer := by
  have hflags : ∀ s : rtpp_session,
      (pipe_stream (ul_existing_flags cmd sidx ulop s).rtp i).resizer
        = (pipe_stream s.rtp i).resizer := by
    intro s
    unfold ul_existing_flags
    simp only []
    split_ifs
    all_goals
      repeat (first
        | rfl
        | refine Eq.trans (pipe_upd_both_resizer _ i _ ?_) ?_
        | refine Eq.trans (pipe_upd_resizer _ _ i _ ?_) ?_
        | (intro _; rfl))
  have halloc : ∀ s5 n k, ul_existing_alloc cfsp env cmd sidx ulop spa = Except.ok (s5, n, k) →
      (pipe_stream s5.rtp i).resizer = (pipe_stream spa.rtp i).resizer := by
    intro s5 n k ha
    unfold ul_existing_alloc at ha
    split at ha
    · simp only [] at ha
      split at ha
      · cases ha
      · simp only [Except.ok.injEq, Prod.mk.injEq] at ha
        obtain ⟨rfl, -, -⟩ := ha
        unfold sessinfo_install
        split_ifs
        all_goals
          repeat (first
            | rfl
            | refine Eq.trans (pipe_upd_both_resizer _ i _ ?_) ?_
            | refine Eq.trans (pipe_upd_resizer _ _ i _ ?_) ?_
            | (intro _; rfl))
    · simp only [Except.ok.injEq, Prod.mk.injEq] at ha
      obtain ⟨rfl, -, -⟩ := ha
      rfl
  unfold ul_handle_existing at h
  split at h
  · cases h
  · rename_i s5 n k ha
    simp only [Except.ok.injEq] at h
    subst h
    simp only []
    rw [hflags, halloc s5 n k ha]

theorem pipe_ctor_no_resizer (env : pipe_ctor_env) (w w1 : rtpp_world) (seuid : Nat)
    (session_type : Int) (p : rtpp_pipe)
    (h : rtpp_pipe_ctor env w seuid session_type = (some p, w1)) :
    p.stream0.resizer = none ∧ p.stream1.resizer = none := by
  obtain ⟨a, b, c, d, e, f, g, t⟩ := env
  cases a <;> cases b <;> cases c <;> cases d <;> cases e <;> cases f <;> cases g <;>
    simp [rtpp_pipe_ctor, pipe_ctor_pass, rtpp_stream_ctor, rtpp_weakref_reg, rtpp_gen_uid,
      pipe_ctor_e1] at h
  obtain ⟨rfl, rfl⟩ := h
  exact ⟨rfl, rfl⟩

/-- A new session has no resizer on its RTP streams. -/
theorem session_ctor_no_resizer (env : ul_env) (w w1 : rtpp_world) (call_id : CStr)
    (lia0 lia1 : Option sockaddr) (weak lport : Int) (fd0 fd1 : Nat) (s : rtpp_session)
    (i : Int)
    (h : rtpp_session_ctor env w call_id lia0 lia1 weak lport fd0 fd1 = (some s, w1)) :
    (pipe_stream s.rtp i).resizer = none := by
  unfold rtpp_session_ctor at h
  split at h
  · simp at h
  · simp only [] at h
    split at h
    · simp at h
    · rename_i rtp w2 hrtp
      split at h
      · simp at h
      · rename_i rtcp w3 hrtcp
        obtain ⟨h1, h2⟩ := pipe_ctor_no_resizer _ _ _ _ _ _ hrtp
        simp only [Prod.mk.injEq, Option.some.injEq] at h
        obtain ⟨rfl, -⟩ := h
        have hp : (pipe_stream rtp i).resizer = none := by
          unfold pipe_stream
          split
          · exact h1
          · exact h2
        rw [← hp]
        unfold sessinfo_install
        repeat (first
          | rfl
          | refine Eq.trans (pipe_upd_both_resizer _ i _ ?_) ?_
          | refine Eq.trans (pipe_upd_resizer _ _ i _ ?_) ?_
          | (intro _; rfl))

/-- The branch for a new session hands the tail a session without resizers. -/
theorem ul_new_no_resizer (cfsp : rtpp_cfg) (env : ul_env) (cmd : rtpp_command)
    (w : rtpp_world) (ulop : ul_opts) (c : ul_ctx) (i : Int)
    (h : ul_handle_new cfsp env cmd w ulop = Except.ok c) :
    (pipe_stream c.spa.rtp i).resizer = none := by
  unfold ul_handle_new at h
  simp only [] at h
  split at h
  · simp at h
  · split at h
    · simp at h
    · split at h
      · simp at h
      · split at h
        · simp at h
        · rename_i hctor
          split at h
          · simp at h
          · split at h
            · simp at h
            · simp only [Except.ok.injEq] at h
              subst h
              exact session_ctor_no_resizer _ _ _ _ _ _ _ _ _ _ _ i hctor

/-- A call of the handler that returns 0 went through the tail, on the side
opposite to `sidx`, which is side 1 for a new session, with a session whose
RTP streams have the resizers of the session of the command, and none when
the session is new. -/
theorem ul_handle_ok_resizer (cfsp : rtpp_cfg) (env : ul_env) (cmd : rtpp_command)
    (w : rtpp_world) (sidx : Int) (ulop : ul_opts) (out : ul_outcome)
    (h : rtpp_command_ul_handle cfsp env cmd w sidx ulop = some out) (h0 : out.ret = 0) :
    ∃ c : ul_ctx, c.pidx = (if sidx = 0 ∨ sidx = -1 then 1 else 0)
      ∧ out.sp = some (ul_tail_session cfsp env cmd ulop c)
      ∧ (sidx = -1 → ∀ i, (pipe_stream c.spa.rtp i).resizer = none)
      ∧ (sidx ≠ -1 → ∃ s0, cmd.sp = some s0
          ∧ ∀ i, (pipe_stream c.spa.rtp i).resizer = (pipe_stream s0.rtp i).resizer) := by
  unfold rtpp_command_ul_handle at h
  split at h
  · simp only [Option.some.injEq] at h
    subst h
    exact absurd h0 (ul_fail_ret _ _ _ _ _ _)
  · simp only [] at h
    split at h
    · cases h
    · rename_i o hf
      simp only [Option.some.injEq] at h
      subst h
      exfalso
      split at hf
      · split at hf
        · split at hf
          · cases hf
          · simp only [Option.some.injEq] at hf
            unfold ul_handle_existing at hf
            split at hf
            · simp only [Except.error.injEq] at hf
              subst hf
              exact absurd h0 (ul_fail_ret _ _ _ _ _ _)
            · cases hf
        · cases hf
      · simp only [Option.some.injEq] at hf
        unfold ul_handle_new at hf
        simp only [] at hf
        repeat' split at hf
        all_goals cases hf
        all_goals exact absurd h0 (ul_fail_ret _ _ _ _ _ _)
    · rename_i c hf
      refine ⟨c, ?_, ul_handle_tail_sp cfsp env cmd ulop c out h, ?_, ?_⟩
      · split at hf
        · rename_i hs
          split at hf
          · rename_i hs2
            split at hf
            · cases hf
            · simp only [Option.some.injEq] at hf
              unfold ul_handle_existing at hf
              split at hf
              · cases hf
              · simp only [Except.ok.injEq] at hf
                subst hf
                simp only []
                rcases hs2 with h1 | h1
                · simp [h1]
                · subst h1
                  simp
          · cases hf
        · rename_i hs
          simp only [ne_eq, Decidable.not_not] at hs
          simp only [Option.some.injEq] at hf
          rw [(ul_handle_new_ok cfsp env cmd w ulop c hf).1, hs]
          simp
      · intro hs i
        rw [if_neg (by simpa using hs)] at hf
        simp only [Option.some.injEq] at hf
        exact ul_new_no_resizer cfsp env cmd w ulop c i hf
      · intro hs
        rw [if_pos hs] at hf
        split at hf
        · split at hf
          · cases hf
          · rename_i spa hsp
            simp only [Option.some.injEq] at hf
            exact ⟨spa, hsp, fun i => ul_existing_resizer cfsp env cmd w sidx i ulop spa c hf⟩
        · cases hf

/-- C26 (amended): after a call of the handler that returns 0, with `pidx` the
side opposite to `sidx` (side 1 for a new session): a resizer on the RTP
stream of side `pidx` has the requested ptime, which is positive; when the
requested ptime is positive the stream has a resizer if `rtp_resizer_new`
returns one or the stream of the session of the command had one already, and
has none if `rtp_resizer_new` returns NULL and the session is new or its
stream had none; and the RTP stream of the other side holds the requested
ptime. -/
theorem resizer_follows_ptime (cfsp : rtpp_cfg) (env : ul_env) (cmd : rtpp_command)
    (w : rtpp_world) (sidx : Int) (ulop : ul_opts) (out : ul_outcome)
    (h : rtpp_command_ul_handle cfsp env cmd w sidx ulop = some out) (h0 : out.ret = 0) :
    ∃ s, out.sp = some s
      ∧ (∀ p, (pipe_stream s.rtp (if sidx = 0 ∨ sidx = -1 then 1 else 0)).resizer = some p →
          ulop.requested_ptime > 0 ∧ p = ulop.requested_ptime)
      ∧ (ulop.requested_ptime > 0 →
          (env.resizer_ok = true ∨ ∃ s0, sidx ≠ -1 ∧ cmd.sp = some s0
            ∧ (pipe_stream s0.rtp (if sidx = 0 ∨ sidx = -1 then 1 else 0)).resizer ≠ none) →
          (pipe_stream s.rtp (if sidx = 0 ∨ sidx = -1 then 1 else 0)).resizer
            = some ulop.requested_ptime)
      ∧ (ulop.requested_ptime > 0 → env.resizer_ok = false →
          (sidx = -1 ∨ ∀ s0, cmd.sp = some s0 →
            (pipe_stream s0.rtp (if sidx = 0 ∨ sidx = -1 then 1 else 0)).resizer = none) →
          (pipe_stream s.rtp (if sidx = 0 ∨ sidx = -1 then 1 else 0)).resizer = none)
      ∧ (pipe_stream s.rtp (1 - (if sidx = 0 ∨ sidx = -1 then 1 else 0))).ptime
          = ulop.requested_ptime := by
  obtain ⟨c, hc, hsp, hnew, hold⟩ := ul_handle_ok_resizer cfsp env cmd w sidx ulop out h h0
  refine ⟨_, hsp, ?_⟩
  rw [← hc]
  unfold ul_tail_session
  obtain ⟨h1, h2⟩ := ul_tail_ptime_streams env ulop c.pidx
    (ul_tail_codecs ulop c.pidx (ul_tail_asym ulop c.pidx (ul_tail_onhold ulop c.pidx
      (ul_tail_prefill ulop c.pidx (ul_tail_timeout cfsp env cmd ulop c.spa)))))
  rw [ul_tail_resizer] at h1
  have hnot : 1 - c.pidx = NOT c.pidx := by
    rw [hc]
    unfold NOT
    split <;> simp
  rw [hnot, h1, h2]
  refine ⟨?_, ?_, ?_, rfl⟩
  · intro p hp
    by_cases hpt : ulop.requested_ptime > 0
    · rw [if_pos hpt] at hp
      refine ⟨hpt, ?_⟩
      split at hp
      · exact (Option.some.inj hp).symm
      · split at hp
        · exact (Option.some.inj hp).symm
        · cases hp
    · rw [if_neg hpt] at hp
      cases hp
  · intro hpt hor
    rw [if_pos hpt]
    rcases hor with hok | ⟨s0, hs, hs0, hres⟩
    · rw [hok]
      split <;> rfl
    · obtain ⟨s1, hs1, hk⟩ := hold hs
      rw [hs0] at hs1
      cases hs1
      rw [if_pos (by rw [hk]; exact hres)]
  · intro hpt hok hor
    rw [if_pos hpt, hok]
    have hnone : (pipe_stream c.spa.rtp c.pidx).resizer = none := by
      rcases hor with hs | hall
      · exact hnew hs _
      · by_cases hs : sidx = -1
        · exact hnew hs _
        · obtain ⟨s1, hs1, hk⟩ := hold hs
          rw [hk]
          exact hall s1 hs1
    rw [hnone]
    simp

/-- Witness of C26 (amended): the update that creates the session of the
scenario with a requested ptime of 20, on a host where `rtp_resizer_new`
succeeds, leaves a resizer of 20 on side 1 and the ptime 20 on side 0. -/
theorem resizer_follows_ptime_witness :
    ∃ s, ex_out_ptime.sp = some s
      ∧ (pipe_stream s.rtp (if (-1 : Int) = 0 ∨ (-1 : Int) = -1 then 1 else 0)).resizer
          = some ex_ulop_ptime.requested_ptime
      ∧ (pipe_stream s.rtp (1 - (if (-1 : Int) = 0 ∨ (-1 : Int) = -1 then 1 else 0))).ptime
          = ex_ulop_ptime.requested_ptime :=
  match resizer_follows_ptime ex_cfg ex_env ex_cmd_u ex_world (-1) ex_ulop_ptime ex_out_ptime
      (by decide) (by decide) with
  | ⟨s, hs, _, h2, _, h4⟩ => ⟨s, hs, h2 (by decide) (Or.inl rfl), h4⟩

/-- C26 as stated fails: the update that creates the session of the scenario
with a requested ptime of 20 returns 0 when `rtp_resizer_new` returns NULL,
and leaves the RTP stream of side 1 without a resizer; side 0 holds the ptime
20. -/
theorem no_resizer_when_new_fails :
    ex_ulop_ptime.requested_ptime = 20
      ∧ (rtpp_command_ul_handle ex_cfg { ex_env with resizer_ok := false } ex_cmd_u ex_world
          (-1) ex_ulop_ptime).map
          (fun o => (o.ret, o.sp.map
            (fun s => ((pipe_stream s.rtp 1).resizer, (pipe_stream s.rtp 0).ptime))))
        = some (0, some (none, 20)) := by
  decide
/-! ## Theorems: the lookup of a local address by family -/

/-- The step at a character without a case changes nothing and succeeds. -/
theorem ul_mod_step_unknown (cfsp : rtpp_cfg) (env : ul_parse_env) (c : Char) (rest : CStr)
    (ulop : ul_opts) (h : is_known_mod c = false) :
    ul_mod_step cfsp env c rest ulop = ul_res.ok (ulop, 0) := by
  have h1 := of_decide_eq_false h
  simp only [not_or] at h1
  obtain ⟨ha, hA, hs, hS, he, hE, hi, hI, hw, hW, hz, hZ, hc, hC, hl, hL, hr, hR, hn, hN, h6⟩
    := h1
  unfold ul_mod_step
  simp only [ha, hA, hs, hS, he, hE, hi, hI, hw, hW, hz, hZ, hc, hC, hl, hL, hr, hR, hn, hN,
    h6, or_self, if_false]

/-- The step at a modifier without an argument does not look at the rest of
the string and passes over none of it. -/
theorem ul_mod_step_no_arg (cfsp : rtpp_cfg) (env : ul_parse_env) (c : Char)
    (rest rest2 : CStr) (ulop : ul_opts) (h : takes_arg c = false) :
    ul_mod_step cfsp env c rest ulop = ul_mod_step cfsp env c rest2 ulop
      ∧ ∀ u k, ul_mod_step cfsp env c rest ulop = ul_res.ok (u, k) → k = 0 := by
  have h1 := of_decide_eq_false h
  simp only [not_or] at h1
  obtain ⟨hz, hZ, hc, hC, hl, hL, hr, hR⟩ := h1
  unfold ul_mod_step
  simp only [hz, hZ, hc, hC, hl, hL, hr, hR, or_self, if_false]
  refine ⟨trivial, ?_⟩
  intro u k hk
  repeat' split at hk
  all_goals cases hk
  all_goals rfl

/-- The options the loop leaves do not depend on the list of the modifiers
met so far. -/
theorem ul_mods_ghost (cfsp : rtpp_cfg) (env : ul_parse_env) :
    ∀ (cs : CStr) (skip : Nat) (st st2 : ul_parse_st), st.ulop = st2.ulop →
      ul_opts_of (ul_mods cfsp env skip cs st) = ul_opts_of (ul_mods cfsp env skip cs st2) := by
  intro cs
  induction cs with
  | nil =>
    intro skip st st2 h
    cases skip <;> simp only [ul_mods, ul_opts_of, h]
  | cons c cs ih =>
    intro skip st st2 h
    cases skip with
    | succ k => simp only [ul_mods]; exact ih k st st2 h
    | zero =>
      simp only [ul_mods]
      rw [h]
      cases ul_mod_step cfsp env c cs st2.ulop with
      | undefined => rfl
      | error e => rfl
      | ok v => exact ih v.2 _ _ rfl

/-- Characters without a case may be dropped from a prefix of the modifiers
that holds no modifier with an argument: the loop leaves the same options. -/
theorem ul_mods_filter (cfsp : rtpp_cfg) (env : ul_parse_env) (post : CStr) :
    ∀ (pre : CStr), (∀ c ∈ pre, takes_arg c = false) →
      ∀ (st st2 : ul_parse_st), st.ulop = st2.ulop →
        ul_opts_of (ul_mods cfsp env 0 (pre ++ post) st)
          = ul_opts_of (ul_mods cfsp env 0 (pre.filter is_known_mod ++ post) st2) := by
  intro pre
  induction pre with
  | nil => intro _ st st2 h; exact ul_mods_ghost cfsp env post 0 st st2 h
  | cons c pre ih =>
    intro hpre st st2 h
    have hc : takes_arg c = false := hpre c (List.mem_cons_self _ _)
    have hpre2 : ∀ d ∈ pre, takes_arg d = false := fun d hd => hpre d (List.mem_cons_of_mem _ hd)
    cases hk : is_known_mod c with
    | false =>
      rw [List.filter_cons_of_neg (by simp [hk])]
      show ul_opts_of (ul_mods cfsp env 0 (c :: (pre ++ post)) st) = _
      simp only [ul_mods]
      rw [ul_mod_step_unknown cfsp env c _ _ hk]
      exact ih hpre2 _ st2 h
    | true =>
      rw [List.filter_cons_of_pos hk]
      show ul_opts_of (ul_mods cfsp env 0 (c :: (pre ++ post)) st)
        = ul_opts_of (ul_mods cfsp env 0 (c :: (pre.filter is_known_mod ++ post)) st2)
      simp only [ul_mods]
      obtain ⟨e1, e2⟩ := ul_mod_step_no_arg cfsp env c (pre ++ post)
        (pre.filter is_known_mod ++ post) st.ulop hc
      rw [← h, ← e1]
      cases hs : ul_mod_step cfsp env c (pre ++ post) st.ulop with
      | undefined => rfl
      | error e => rfl
      | ok v =>
        obtain ⟨u, k⟩ := v
        have hk0 : k = 0 := e2 u k hs
        subst hk0
        exact ih hpre2 _ _ rfl

/-- The steps after the loop look at the options only, and at no argument
of the command but the address and the port. -/
theorem ul_parse_finish_ghost (env : ul_parse_env) (m m2 : CStr) (ra : List CStr) (n : Nat)
    (r r2 : ul_res ul_parse_st) :
    ul_opts_of r = ul_opts_of r2 →
    ul_opts_of (match r with
        | ul_res.undefined => ul_res.undefined
        | ul_res.error e => ul_res.error e
        | ul_res.ok st => ul_parse_finish env (m :: ra) n st)
      = ul_opts_of (match r2 with
        | ul_res.undefined => ul_res.undefined
        | ul_res.error e => ul_res.error e
        | ul_res.ok st => ul_parse_finish env (m2 :: ra) n st) := by
  intro h
  cases r with
  | undefined => cases r2 <;> first | rfl | cases h
  | error e => cases r2 <;> first | (cases h; rfl) | cases h
  | ok st =>
    cases r2 with
    | undefined => cases h
    | error e => cases h
    | ok st2 =>
      have hu : st.ulop = st2.ulop := by
        simp only [ul_opts_of] at h
        exact ul_res.ok.inj h
      simp only []
      unfold ul_parse_finish
      rw [hu]
      show ul_opts_of (match ul_parse_foraf env st2.ulop with
        | ul_res.undefined => ul_res.undefined
        | ul_res.error e => ul_res.error e
        | ul_res.ok u1 =>
          match ul_parse_addr env (ra.get? 1) (ra.get? 2) u1 with
          | ul_res.undefined => ul_res.undefined
          | ul_res.error e => ul_res.error e
          | ul_res.ok u2 =>
            match ul_parse_subc env n u2 with
            | ul_res.undefined => ul_res.undefined
            | ul_res.error e => ul_res.error e
            | ul_res.ok u3 => ul_res.ok { st with ulop := u3 }) = ul_opts_of _
      cases ul_parse_foraf env st2.ulop with
      | undefined => rfl
      | error e => rfl
      | ok u1 =>
        show ul_opts_of (match ul_parse_addr env (ra.get? 1) (ra.get? 2) u1 with
          | ul_res.undefined => ul_res.undefined
          | ul_res.error e => ul_res.error e
          | ul_res.ok u2 =>
            match ul_parse_subc env n u2 with
            | ul_res.undefined => ul_res.undefined
            | ul_res.error e => ul_res.error e
            | ul_res.ok u3 => ul_res.ok { st with ulop := u3 })
          = ul_opts_of (match ul_parse_addr env (ra.get? 1) (ra.get? 2) u1 with
          | ul_res.undefined => ul_res.undefined
          | ul_res.error e => ul_res.error e
          | ul_res.ok u2 =>
            match ul_parse_subc env n u2 with
            | ul_res.undefined => ul_res.undefined
            | ul_res.error e => ul_res.error e
            | ul_res.ok u3 => ul_res.ok { st2 with ulop := u3 })
        cases ul_parse_addr env (ra.get? 1) (ra.get? 2) u1 with
        | undefined => rfl
        | error e => rfl
        | ok u2 =>
          show ul_opts_of (match ul_parse_subc env n u2 with
              | ul_res.undefined => ul_res.undefined
              | ul_res.error e => ul_res.error e
              | ul_res.ok u3 => ul_res.ok { st with ulop := u3 })
            = ul_opts_of (match ul_parse_subc env n u2 with
              | ul_res.undefined => ul_res.undefined
              | ul_res.error e => ul_res.error e
              | ul_res.ok u3 => ul_res.ok { st2 with ulop := u3 })
          cases ul_parse_subc env n u2 <;> rfl

/-- C29 (amended): the step of the loop at a character that is none of `a`,
`s`, `e`, `i`, `w`, `z`, `c`, `l`, `r`, `n` (in either case) or `6` succeeds,
returns the options it was given and passes over nothing. When such
characters are dropped from a prefix of the modifiers that holds none of
`z`, `c`, `l`, `r`, the modifiers with an argument, the parse has the same
outcome: the same options, the same error code or the same undefined
behaviour. -/
theorem unknown_modifier_skipped (cfsp : rtpp_cfg) (env : ul_parse_env) (cmd : rtpp_command)
    (x : Char) (pre post : CStr) (ra : List CStr) (n : Nat)
    (hpre : ∀ c ∈ pre, takes_arg c = false) :
    (∀ c rest ulop, is_known_mod c = false →
        ul_mod_step cfsp env c rest ulop = ul_res.ok (ulop, 0))
      ∧ ul_opts_of (rtpp_command_ul_opts_parse cfsp env cmd ((x :: (pre ++ post)) :: ra) n)
        = ul_opts_of (rtpp_command_ul_opts_parse cfsp env cmd
            ((x :: (pre.filter is_known_mod ++ post)) :: ra) n) := by
  refine ⟨fun c rest ulop h => ul_mod_step_unknown cfsp env c rest ulop h, ?_⟩
  unfold rtpp_command_ul_opts_parse
  cases env.zmalloc_ok with
  | false => rfl
  | true =>
    simp only [Bool.not_true, Bool.false_eq_true, if_false, List.head?_cons]
    have hn : ul_parse_notify env cmd ((x :: (pre ++ post)) :: ra)
          (ul_opts_init cfsp env.aforce)
        = ul_parse_notify env cmd ((x :: (pre.filter is_known_mod ++ post)) :: ra)
          (ul_opts_init cfsp env.aforce) := rfl
    rw [hn]
    cases ul_parse_notify env cmd ((x :: (pre.filter is_known_mod ++ post)) :: ra)
        (ul_opts_init cfsp env.aforce) with
    | undefined => rfl
    | error e => rfl
    | ok u0 =>
      simp only []
      exact ul_parse_finish_ghost env _ _ ra n _ _
        (ul_mods_filter cfsp env post pre hpre _ _ rfl)

/-- Witness of C29 (amended): `Uxaywz20 call-1 192.0.2.10 12000 from-1` and
`Uawz20 call-1 192.0.2.10 12000 from-1` give the same options. -/
theorem unknown_modifier_skipped_witness :
    (∀ c ∈ "xayw".toList, takes_arg c = false)
      ∧ ul_opts_of (rtpp_command_ul_opts_parse ex_cfg (ex_parse_env 12000) ex_cmd_u
          (ex_args "Uxaywz20" "192.0.2.10" "12000") 0)
        = ul_opts_of (rtpp_command_ul_opts_parse ex_cfg (ex_parse_env 12000) ex_cmd_u
          (ex_args "Uawz20" "192.0.2.10" "12000") 0) :=
  ⟨by decide,
    (unknown_modifier_skipped ex_cfg (ex_parse_env 12000) ex_cmd_u 'U' "xayw".toList
      "z20".toList ["call-1".toList, "192.0.2.10".toList, "12000".toList, "from-1".toList] 0
      (by decide)).2⟩

/-- C29 as stated fails: on a host with a bind address for IPv6 the parse of
`Uz1x6 ...` gives a requested ptime of 1 and the family AF_INET6, and the
parse of `Uz16 ...`, the same string without the `x`, gives a requested ptime
of 16 and the family AF_INET. -/
theorem unknown_modifier_ends_number :
    (rtpp_command_ul_opts_parse ex_cfg ex_parse_env6 ex_cmd_u
        (ex_args "Uz1x6" "192.0.2.10" "12000") 0).toOption.map
        (fun r => (r.ulop.requested_ptime, r.ulop.pf)) = some (1, AF_INET6)
      ∧ (rtpp_command_ul_opts_parse ex_cfg ex_parse_env6 ex_cmd_u
        (ex_args "Uz16" "192.0.2.10" "12000") 0).toOption.map
        (fun r => (r.ulop.requested_ptime, r.ulop.pf)) = some (16, AF_INET) := by
  decide

/-! ## Theorems: the subcommand that turns DTMF detection on -/

/-- The number `atoi_saferange` reads from a run of digits whose value is in
the range. -/
theorem atoi_saferange_digits (ds : CStr) (lo hi : Int) (hne : ds ≠ [])
    (hd : ∀ c ∈ ds, isdigit c = true) (hlo : lo ≤ digits_value ds)
    (hhi : (digits_value ds : Int) ≤ hi) (hsmall : (digits_value ds : Int) ≤ LONG_MAX) :
    atoi_saferange ds lo hi = some (digits_value ds : Int) := by
  have hs := strtol_digits ds [] hne hd (by intro c hc; cases hc)
  rw [List.append_nil] at hs
  have hlen : ds.length ≠ 0 := fun h => hne (List.length_eq_zero.1 h)
  unfold atoi_saferange
  rw [if_neg hne, hs, min_eq_left hsmall]
  simp only [ne_eq, not_true_eq_false, or_false, hlen, if_false]
  rw [if_neg (by omega)]

/-- C30 (amended): `rtpp_catch_dtmf_handle_command` returns -1 and leaves the
configuration of the stream as it is when the session has no notification
data. With notification data, on a stream that has a configuration it returns
0 and leaves the configuration as it is, whatever the arguments. With
notification data, on a stream without a configuration, when the tag passes
`url_unquote`, `rtpp_zmalloc` and the allocation of the history succeed and
no other thread installs a configuration meanwhile, it returns 0 and installs
a configuration with a fresh history for the side of the stream, with what
`rtpp_timeout_data_ctor` returns for the target of the session and the decoded
tag (NULL when it fails), and with the payload type 101 for two arguments, or
the decimal number of the third argument when that is a run of digits of
value at most 127. -/
theorem dtmf_command_outcomes (env : dtmf_cmd_env) (ctxp : rtpp_subc_ctx) :
    (ctxp.timeout_data = none →
        rtpp_catch_dtmf_handle_command env ctxp
          = { ret := -1, catch_dtmf_data := ctxp.catch_dtmf_data })
      ∧ (∀ td c, ctxp.timeout_data = some td → ctxp.catch_dtmf_data = some c →
          rtpp_catch_dtmf_handle_command env ctxp = { ret := 0, catch_dtmf_data := some c })
      ∧ (∀ td tag0 tag, ctxp.timeout_data = some td → ctxp.catch_dtmf_data = none →
          ctxp.subc_args.get? 1 = some tag0 → env.url_unquote tag0 = some tag →
          env.zmalloc_ok = true → env.rzmalloc_ok = true → env.cas_found = none →
          (ctxp.subc_args.length = 2 →
            rtpp_catch_dtmf_handle_command env ctxp
              = { ret := 0,
                  catch_dtmf_data := some
                    { pt := 101,
                      edata := { hst := List.replicate EINFO_HST_DPTH { einfo_zero with digit := -1 },
                                 hst_next := 0, side := ctxp.side },
                      rtdp := if env.tdata_ok then some ⟨td.notify_target, tag⟩ else none } })
          ∧ (∀ ds, ctxp.subc_args.get? 2 = some ds → ds ≠ [] →
              (∀ ch ∈ ds, isdigit ch = true) → digits_value ds ≤ 127 →
              rtpp_catch_dtmf_handle_command env ctxp
                = { ret := 0,
                    catch_dtmf_data := some
                      { pt := digits_value ds,
                        edata := { hst := List.replicate EINFO_HST_DPTH { einfo_zero with digit := -1 },
                                   hst_next := 0, side := ctxp.side },
                        rtdp := if env.tdata_ok then some ⟨td.notify_target, tag⟩
                                else none } })) := by
  refine ⟨?_, ?_, ?_⟩
  · intro h
    unfold rtpp_catch_dtmf_handle_command
    rw [h]
  · intro td c h1 h2
    unfold rtpp_catch_dtmf_handle_command
    rw [h1, h2]
  · intro td tag0 tag h1 h2 h3 h4 h5 h6 h7
    have hlen : 1 < ctxp.subc_args.length := by
      rcases List.get?_eq_some.1 h3 with ⟨hl, _⟩
      exact hl
    have hg1 : ctxp.subc_args.getD 1 [] = tag0 := by
      rw [List.getD_eq_getElem?_getD, ← List.get?_eq_getElem?, h3]
      rfl
    constructor
    · intro hl2
      unfold rtpp_catch_dtmf_handle_command rtpp_catch_dtmf_edata_ctor
      rw [h1, h2]
      simp only [hl2, hg1, h4, h5, h6, h7, Nat.lt_irrefl, gt_iff_lt, if_false, if_true,
        Bool.not_true, Bool.false_eq_true]
    · intro ds hds hne hd hv
      have hlen2 : 2 < ctxp.subc_args.length := by
        rcases List.get?_eq_some.1 hds with ⟨hl, _⟩
        exact hl
      have hg2 : ctxp.subc_args.getD 2 [] = ds := by
        rw [List.getD_eq_getElem?_getD, ← List.get?_eq_getElem?, hds]
        rfl
      have hpt : atoi_saferange ds 0 127 = some (digits_value ds : Int) :=
        atoi_saferange_digits ds 0 127 hne hd (by omega) (by omega)
          (by unfold LONG_MAX; norm_num; omega)
      unfold rtpp_catch_dtmf_handle_command rtpp_catch_dtmf_edata_ctor
      rw [h1, h2]
      have hnlt : ¬ ctxp.subc_args.length < 2 := by omega
      simp only [hnlt, hlen2, hg1, hg2, hpt, h4, h5, h6, h7, gt_iff_lt, if_false, if_true,
        Bool.not_true, Bool.false_eq_true]

/-- Witness of C30 (amended): `catch_dtmf my-tag 101` installs the payload type
101 with the tag `my-tag` and returns 0; on a stream with a configuration
`catch_dtmf my-tag 101` returns 0 and leaves it. -/
theorem dtmf_command_outcomes_witness :
    rtpp_catch_dtmf_handle_command ex_dtmf_env (ex_dtmf_ctx "101")
        = { ret := 0,
            catch_dtmf_data := some { pt := 101, edata := ex_edata,
                                      rtdp := some ⟨1, "my-tag".toList⟩ } }
      ∧ rtpp_catch_dtmf_handle_command ex_dtmf_env
          { ex_dtmf_ctx "101" with catch_dtmf_data := some ex_dtmf_cfg }
        = { ret := 0, catch_dtmf_data := some ex_dtmf_cfg } :=
  ⟨((dtmf_command_outcomes ex_dtmf_env (ex_dtmf_ctx "101")).2.2 ⟨1, "tag".toList⟩
      "my-tag".toList "my-tag".toList rfl rfl rfl rfl rfl rfl rfl).2 "101".toList rfl
      (by decide) (by decide) (by decide),
    (dtmf_command_outcomes ex_dtmf_env
      { ex_dtmf_ctx "101" with catch_dtmf_data := some ex_dtmf_cfg }).2.1 _ _ rfl rfl⟩

/-- C30 as stated fails: with notification data, no configuration and the
valid arguments `catch_dtmf my-tag 101`, the command returns -1 and installs
nothing when `rtpp_zmalloc` returns NULL, and when the history cannot be
allocated. -/
theorem dtmf_command_nomem :
    rtpp_catch_dtmf_handle_command { ex_dtmf_env with zmalloc_ok := false } (ex_dtmf_ctx "101")
        = { ret := -1, catch_dtmf_data := none }
      ∧ rtpp_catch_dtmf_handle_command { ex_dtmf_env with rzmalloc_ok := false }
          (ex_dtmf_ctx "101")
        = { ret := -1, catch_dtmf_data := none } := by
  decide

end Rtpproxy
